import Mathlib

/-!
# FlySight Configurator: configuration file codec

A shallow embedding of the line loop of `MainWindow::loadFile` and of the
writer `MainWindow::saveFile` (`src/mainwindow.cpp`), together with the data
model of `src/configuration.h`, and theorems about them.

Conventions of the embedding.

* A `QString` is a `List Char`.
* A C++ `int` is a `CInt`: an integer within the 32-bit two's-complement range.
  No arithmetic is ever performed on the values of the file, so no wrap-around
  is involved.
* An enumeration-typed field holds the integer it was cast from
  (`(Configuration::Mode) val` stores `val`), hence it is a `CInt` as well.
* `QVector::back()` on an empty vector is undefined behaviour in C++; the
  embedding makes this explicit with `Option`: `none` stands for an execution
  that reaches such an access.
* The file is opened with `QIODevice::Text`, so the text stream sees every
  end of line as the single character `'\n'`.
-/

namespace FlySight

/-! ## Machine integers -/

/-- A C++ `int` (32 bits). -/
structure CInt where
  val : Int
  inRange : -2147483648 ≤ val ∧ val ≤ 2147483647
deriving DecidableEq

/-- Range check used when a wider integer is narrowed to `int`:
the value itself when it fits, and `0` otherwise. -/
def CInt.ofInt (v : Int) : CInt :=
  if h : -2147483648 ≤ v ∧ v ≤ 2147483647 then ⟨v, h⟩ else ⟨0, by decide⟩

instance : Inhabited CInt := ⟨CInt.ofInt 0⟩

/-! ## Qt text primitives -/

/-- `QChar::isSpace`: the ASCII blanks `'\t' '\n' '\v' '\f' '\r' ' '`, and the
Unicode separators (NEL, NBSP and the categories Zs, Zl, Zp). -/
def isSpace (c : Char) : Bool :=
  let n := c.toNat
  n == 0x20 || (0x09 ≤ n && n ≤ 0x0D) || n == 0x85 || n == 0xA0 || n == 0x1680
    || (0x2000 ≤ n && n ≤ 0x200A) || n == 0x2028 || n == 0x2029 || n == 0x202F
    || n == 0x205F || n == 0x3000

/-- `QString::trimmed`: white space removed from the start and the end. -/
def trimmed (s : List Char) : List Char :=
  (s.dropWhile isSpace).rdropWhile isSpace

/-- `QString::indexOf(QChar)`: position of the first occurrence, `-1` if none. -/
def indexOf (s : List Char) (ch : Char) : Int :=
  if ch ∈ s then ((s.takeWhile (fun c => c != ch)).length : Int) else -1

/-- `QString::left(n)`: the `n` leftmost characters; the entire string when `n`
is negative or at least the size of the string. -/
def left (s : List Char) (n : Int) : List Char :=
  if n < 0 ∨ (s.length : Int) ≤ n then s else s.take n.toNat

/-- Scan for `split`: the text before the first separator, and the parts after it. -/
def splitAux (sep : Char) : List Char → List Char × List (List Char)
  | [] => ([], [])
  | c :: cs =>
    let r := splitAux sep cs
    if c = sep then ([], r.1 :: r.2) else (c :: r.1, r.2)

/-- `QString::split(sep)` with the default `KeepEmptyParts`: the string is cut at
EVERY occurrence of the separator; a string without separator gives one part. -/
def split (sep : Char) (s : List Char) : List (List Char) :=
  (splitAux sep s).1 :: (splitAux sep s).2

/-- Value of a string of decimal digits. -/
def decValue (ds : List Char) : Nat :=
  ds.foldl (fun acc c => 10 * acc + (c.toNat - 48)) 0

/-- `QString::toInt()` (base 10, C locale): surrounding white space is ignored;
the rest must be, as a whole, an optional sign followed by at least one decimal
digit, and the value must fit an `int`. In every other case the conversion fails
and the result is `0` (there is no numeric-prefix parsing). -/
def toInt (s : List Char) : CInt :=
  let t := trimmed s
  let neg := t.head? = some '-'
  let ds := if t.head? = some '-' ∨ t.head? = some '+' then t.tail else t
  if ds ≠ [] ∧ ds.all Char.isDigit = true then
    CInt.ofInt (if neg then -(decValue ds : Int) else (decValue ds : Int))
  else CInt.ofInt 0

/-- Decimal representation of an integer, with `-` for negative values. -/
def intToDec (v : Int) : List Char :=
  if v < 0 then '-' :: Nat.toDigits 10 v.natAbs else Nat.toDigits 10 v.natAbs

/-- `QString::rightJustified(width)`: padded on the left with spaces up to
`width` characters; a longer string is returned unchanged (no truncation). -/
def rightJustified (s : List Char) (width : Nat) : List Char :=
  List.replicate (width - s.length) ' ' ++ s

/-- `QString("%1").arg(a, fieldWidth)` for an `int` argument: `a` in base 10,
right-aligned in a field of at least `fieldWidth` characters. -/
def arg (a : CInt) (fieldWidth : Nat) : List Char :=
  rightJustified (intToDec a.val) fieldWidth

/-- Writing a `bool` through the `int` overload of `arg`: `true` is `1`, `false` is `0`. -/
def boolToInt (b : Bool) : CInt :=
  if b then ⟨1, by decide⟩ else ⟨0, by decide⟩

/-- The cast `(bool) val`. -/
def intToBool (v : CInt) : Bool :=
  decide (v.val ≠ 0)

/-- `QVector::back()` used as an lvalue: the last element is updated in place.
On an empty vector the access is out of bounds: `none`. -/
def modifyBack {α : Type} (f : α → α) (xs : List α) : Option (List α) :=
  match xs.reverse with
  | [] => none
  | x :: r => some (r.reverse ++ [f x])

/-- Lines handed out by `while (!in.atEnd()) in.readLine()`: the text cut at each
`'\n'`; a final `'\n'` ends the last line and does not start a new, empty one. -/
def readLines : List Char → List (List Char)
  | [] => []
  | c :: cs =>
    if c = '\n' then [] :: readLines cs
    else
      match readLines cs with
      | [] => [[c]]
      | l :: ls => (c :: l) :: ls

/-- Text produced by writing each line followed by `endl`. -/
def unlines (ls : List (List Char)) : List Char :=
  ls.flatMap (fun l => l ++ ['\n'])

/-! ## Data model (`configuration.h`) -/

inductive DisplayUnits where
  | Metric
  | Imperial
deriving DecidableEq, Repr

/-- Enumerators of `Configuration::Mode` used by the codec. -/
def Mode.GlideRatio : CInt := ⟨2, by decide⟩

/-- Enumerators of `Configuration::Units` used by the codec. -/
def Units.Miles : CInt := ⟨1, by decide⟩

/-- Enumerators of `Configuration::AlarmMode` used by the codec. -/
def AlarmMode.NoAlarm : CInt := ⟨0, by decide⟩

structure Speech where
  mode : CInt
  units : CInt
  decimals : CInt
deriving DecidableEq

structure Alarm where
  elevation : CInt
  mode : CInt
  file : List Char
deriving DecidableEq

structure Window where
  top : CInt
  bottom : CInt
deriving DecidableEq

structure Configuration where
  displayUnits : DisplayUnits
  configName : List Char
  configDescription : List Char
  configKind : List Char
  model : CInt
  rate : CInt
  toneMode : CInt
  minTone : CInt
  maxTone : CInt
  limits : CInt
  toneVolume : CInt
  rateMode : CInt
  minRateValue : CInt
  maxRateValue : CInt
  minRate : CInt
  maxRate : CInt
  flatline : Bool
  speechRate : CInt
  speechVolume : CInt
  speeches : List Speech
  vThreshold : CInt
  hThreshold : CInt
  adjustSpeed : Bool
  timeZoneOffset : CInt
  initMode : CInt
  initFile : List Char
  alarmWindowAbove : CInt
  alarmWindowBelow : CInt
  groundElevation : CInt
  alarms : List Alarm
  windows : List Window
  altitudeUnits : CInt
  altitudeStep : CInt
deriving DecidableEq

/-- Modelled from the spec: the constructor `Configuration::Configuration(DisplayUnits)`
is declared in `configuration.h` and defined outside the available sources. The
spec says that a fresh configuration carries the caller's `displayUnits` and that
the three sequences only receive elements from start keys, so they start empty.
The default values of the scalar and text fields are not stated anywhere; they
are taken from the argument `d`, of which nothing else is used. -/
def Configuration.init (d : Configuration) (units : DisplayUnits) : Configuration :=
  { d with displayUnits := units, speeches := [], alarms := [], windows := [] }

def MAX_ALARMS : Nat := 10

def MAX_WINDOWS : Nat := 2

/-! ## The line loop of `MainWindow::loadFile` -/

/-- One statement `if (!name.compare(s)) { w = ...; }`: the assignment `set` is
performed when the key `name` is exactly `s` (`QString::compare` is case
sensitive and returns `0` on equality). -/
def handleValue (name : List Char) (s : String) (set : Configuration → Configuration)
    (c : Configuration) : Configuration :=
  if name = s.toList then set c else c

/-- The chain of `HANDLE_VALUE(s, w, t)` statements, each one being
`if (!name.compare(s)) { w = (t) val; }`, followed by the four text keys
(`mainwindow.cpp`, lines 173-227). The statements are executed in sequence. -/
def handleValues (c : Configuration) (name result : List Char) (val : CInt) : Configuration :=
  let c := handleValue name "Model" (fun c => { c with model := val }) c
  let c := handleValue name "Rate" (fun c => { c with rate := val }) c
  let c := handleValue name "Mode" (fun c => { c with toneMode := val }) c
  let c := handleValue name "Min" (fun c => { c with minTone := val }) c
  let c := handleValue name "Max" (fun c => { c with maxTone := val }) c
  let c := handleValue name "Limits" (fun c => { c with limits := val }) c
  let c := handleValue name "Volume" (fun c => { c with toneVolume := val }) c
  let c := handleValue name "Mode_2" (fun c => { c with rateMode := val }) c
  let c := handleValue name "Min_Val_2" (fun c => { c with minRateValue := val }) c
  let c := handleValue name "Max_Val_2" (fun c => { c with maxRateValue := val }) c
  let c := handleValue name "Min_Rate" (fun c => { c with minRate := val }) c
  let c := handleValue name "Max_Rate" (fun c => { c with maxRate := val }) c
  let c := handleValue name "Flatline" (fun c => { c with flatline := intToBool val }) c
  let c := handleValue name "Sp_Rate" (fun c => { c with speechRate := val }) c
  let c := handleValue name "Sp_Volume" (fun c => { c with speechVolume := val }) c
  let c := handleValue name "V_Thresh" (fun c => { c with vThreshold := val }) c
  let c := handleValue name "H_Thresh" (fun c => { c with hThreshold := val }) c
  let c := handleValue name "Use_SAS" (fun c => { c with adjustSpeed := intToBool val }) c
  let c := handleValue name "TZ_Offset" (fun c => { c with timeZoneOffset := val }) c
  let c := handleValue name "Init_Mode" (fun c => { c with initMode := val }) c
  let c := handleValue name "Alt_Units" (fun c => { c with altitudeUnits := val }) c
  let c := handleValue name "Alt_Step" (fun c => { c with altitudeStep := val }) c
  let c := handleValue name "Window" (fun c => { c with alarmWindowAbove := val }) c
  let c := handleValue name "Window" (fun c => { c with alarmWindowBelow := val }) c
  let c := handleValue name "Win_Above" (fun c => { c with alarmWindowAbove := val }) c
  let c := handleValue name "Win_Below" (fun c => { c with alarmWindowBelow := val }) c
  let c := handleValue name "DZ_Elev" (fun c => { c with groundElevation := val }) c
  let c := handleValue name "Config_Name" (fun c => { c with configName := result }) c
  let c := handleValue name "Config_Description" (fun c => { c with configDescription := result }) c
  let c := handleValue name "Config_Kind" (fun c => { c with configKind := result }) c
  let c := handleValue name "Init_File" (fun c => { c with initFile := result }) c
  c

/-- The alarm statements (`mainwindow.cpp`, lines 229-244). `Alarm_Elev` appends
an alarm while fewer than `MAX_ALARMS` exist; `Alarm_Type` and `Alarm_File` write
through `alarms.back()` without a check. -/
def handleAlarms (c : Configuration) (name result : List Char) (val : CInt) :
    Option Configuration := do
  let c :=
    if name = "Alarm_Elev".toList ∧ c.alarms.length < MAX_ALARMS then
      { c with alarms := c.alarms ++ [{ elevation := val, mode := AlarmMode.NoAlarm, file := [] }] }
    else c
  let c ←
    if name = "Alarm_Type".toList then
      (modifyBack (fun a => { a with mode := val }) c.alarms).map (fun as => { c with alarms := as })
    else some c
  let c ←
    if name = "Alarm_File".toList then
      (modifyBack (fun a => { a with file := result }) c.alarms).map (fun as => { c with alarms := as })
    else some c
  return c

/-- The silence-window statements (`mainwindow.cpp`, lines 246-256). `Win_Top`
appends a window, whose top and bottom are both the value, while fewer than
`MAX_WINDOWS` exist; `Win_Bottom` writes through `windows.back()` without a check. -/
def handleWindows (c : Configuration) (name : List Char) (val : CInt) :
    Option Configuration := do
  let c :=
    if name = "Win_Top".toList ∧ c.windows.length < MAX_WINDOWS then
      { c with windows := c.windows ++ [{ top := val, bottom := val }] }
    else c
  let c ←
    if name = "Win_Bottom".toList then
      (modifyBack (fun w => { w with bottom := val }) c.windows).map (fun ws => { c with windows := ws })
    else some c
  return c

/-- The speech statements (`mainwindow.cpp`, lines 258-273). `Sp_Mode` appends a
speech when `configuration.alarms.length() < MAX_ALARMS` (the guard of the source
reads the alarms, not the speeches); `Sp_Units` and `Sp_Dec` write through
`speeches.back()` without a check. -/
def handleSpeeches (c : Configuration) (name : List Char) (val : CInt) :
    Option Configuration := do
  let c :=
    if name = "Sp_Mode".toList ∧ c.alarms.length < MAX_ALARMS then
      { c with speeches := c.speeches ++ [{ mode := val, units := Units.Miles, decimals := ⟨1, by decide⟩ }] }
    else c
  let c ←
    if name = "Sp_Units".toList then
      (modifyBack (fun s => { s with units := val }) c.speeches).map (fun ss => { c with speeches := ss })
    else some c
  let c ←
    if name = "Sp_Dec".toList then
      (modifyBack (fun s => { s with decimals := val }) c.speeches).map (fun ss => { c with speeches := ss })
    else some c
  return c

/-- Everything the loop body does once `name`, `result` and `val` are known
(`mainwindow.cpp`, lines 170-273). -/
def dispatch (c : Configuration) (name result : List Char) (val : CInt) :
    Option Configuration := do
  let c := handleValues c name result val
  let c ← handleAlarms c name result val
  let c ← handleWindows c name val
  handleSpeeches c name val

/-- One iteration of the loop of `loadFile` (`mainwindow.cpp`, lines 157-273) on
the line that `readLine` returned: the comment is removed, the rest is split at
the colons, a line with fewer than two parts is skipped, and otherwise the
trimmed first part is the key and the trimmed SECOND part is the value. -/
def processLine (c : Configuration) (line : List Char) : Option Configuration :=
  let line := left line (indexOf line ';')
  let cols := split ':' line
  if cols.length < 2 then some c
  else
    let name := trimmed (cols.getD 0 [])
    let result := trimmed (cols.getD 1 [])
    let val := toInt result
    dispatch c name result val

/-- The loop of `loadFile` over the lines of the file; the configuration is
threaded through, and an out-of-bounds access ends the run. -/
def loadLines (c : Configuration) : List (List Char) → Option Configuration
  | [] => some c
  | l :: ls => (processLine c l).bind (fun c1 => loadLines c1 ls)

/-- The parser `parse(t, u)`: `loadFile` from the reset of the configuration
(`configuration = Configuration(configuration.displayUnits)`) to the end of the
loop, on the text `t` of the file. `d` supplies the constructor defaults. -/
def parse (d : Configuration) (t : List Char) (u : DisplayUnits) : Option Configuration :=
  loadLines (Configuration.init d u) (readLines t)

/-! ## The writer `MainWindow::saveFile` -/

/-- Lines written by `saveSpeech` (`mainwindow.cpp`, lines 509-538); the legend
comments are written only when `firstSpeech` is set. -/
def saveSpeech (speech : Speech) (firstSpeech : Bool) : List (List Char) :=
  [
    "Sp_Mode:    ".toList ++ arg speech.mode 5 ++ " ; Speech mode".toList ] ++
  (if firstSpeech then [
    "                  ;   0 = Horizontal speed".toList,
    "                  ;   1 = Vertical speed".toList,
    "                  ;   2 = Glide ratio".toList,
    "                  ;   3 = Inverse glide ratio".toList,
    "                  ;   4 = Total speed".toList,
    "                  ;   5 = Altitude above DZ_Elev".toList,
    "                  ;   11 = Dive angle".toList ] else []) ++
  [
    "Sp_Units:   ".toList ++ arg speech.units 5 ++ " ; Speech units".toList ] ++
  (if firstSpeech then [
    "                  ;   0 = km/h or m".toList,
    "                  ;   1 = mph or feet".toList ] else []) ++
  [
    "Sp_Dec:     ".toList ++ arg speech.decimals 5 ++ " ; Speech precision".toList ] ++
  (if firstSpeech then [
    "                  ;   Altitude step in Mode 5".toList,
    "                  ;   Decimal places in all other Modes".toList ] else []) ++
  [
    [] ]

/-- Lines written by `saveAlarm` (`mainwindow.cpp`, lines 540-556). -/
def saveAlarm (alarm : Alarm) (firstAlarm : Bool) : List (List Char) :=
  [
    "Alarm_Elev: ".toList ++ arg alarm.elevation 5 ++ " ; Alarm elevation (m above ground level)".toList,
    "Alarm_Type: ".toList ++ arg alarm.mode 5 ++ " ; Alarm type".toList ] ++
  (if firstAlarm then [
    "                  ;   0 = No alarm".toList,
    "                  ;   1 = Beep".toList,
    "                  ;   2 = Chirp up".toList,
    "                  ;   3 = Chirp down".toList,
    "                  ;   4 = Play file".toList ] else []) ++
  [
    "Alarm_File: ".toList ++ rightJustified alarm.file 5 ++ " ; File to be played".toList,
    [] ]

/-- Lines written by `saveWindow` (`mainwindow.cpp`, lines 558-564). -/
def saveWindow (window : Window) : List (List Char) :=
  [
    "Win_Top:    ".toList ++ arg window.top 5 ++ " ; Silence window top (m)".toList,
    "Win_Bottom: ".toList ++ arg window.bottom 5 ++ " ; Silence window bottom (m)".toList,
    [] ]

/-- The loop `foreach (speech, configuration.speeches)` with its `firstSpeech` flag. -/
def saveSpeeches : List Speech → Bool → List (List Char)
  | [], _ => []
  | speech :: rest, firstSpeech => saveSpeech speech firstSpeech ++ saveSpeeches rest false

/-- The loop `foreach (alarm, configuration.alarms)` with its `firstAlarm` flag. -/
def saveAlarms : List Alarm → Bool → List (List Char)
  | [], _ => []
  | alarm :: rest, firstAlarm => saveAlarm alarm firstAlarm ++ saveAlarms rest false

/-- The loop `foreach (window, configuration.windows)`. -/
def saveWindows : List Window → List (List Char)
  | [] => []
  | window :: rest => saveWindow window ++ saveWindows rest

/-- Lines of `saveFile` from the head of the file to `Sp_Volume`
(`mainwindow.cpp`, lines 305-380). -/
def saveGeneral (c : Configuration) : List (List Char) :=
  [
    "; For information on configuring FlySight, please go to".toList,
    ";     http://flysight.ca/wiki".toList,
    [],
    "; GPS settings".toList,
    [],
    "Config_Name:  ".toList ++ rightJustified c.configName 5 ++ " ; Configuration name".toList,
    "Config_Description:  ".toList ++ rightJustified c.configDescription 5 ++ " ; Configuration Description".toList,
    "Config_Kind:  ".toList ++ rightJustified c.configKind 5 ++ " ; Configuration kind. Allows to group configuration files together".toList,
    [],
    "Model:      ".toList ++ arg c.model 5 ++ " ; Dynamic model".toList,
    "                  ;   0 = Portable".toList,
    "                  ;   2 = Stationary".toList,
    "                  ;   3 = Pedestrian".toList,
    "                  ;   4 = Automotive".toList,
    "                  ;   5 = Sea".toList,
    "                  ;   6 = Airborne with < 1 G acceleration".toList,
    "                  ;   7 = Airborne with < 2 G acceleration".toList,
    "                  ;   8 = Airborne with < 4 G acceleration".toList,
    "Rate:       ".toList ++ arg c.rate 5 ++ " ; Measurement rate (ms)".toList,
    [],
    "; Tone settings".toList,
    [],
    "Mode:       ".toList ++ arg c.toneMode 5 ++ " ; Measurement mode".toList,
    "                  ;   0 = Horizontal speed".toList,
    "                  ;   1 = Vertical speed".toList,
    "                  ;   2 = Glide ratio".toList,
    "                  ;   3 = Inverse glide ratio".toList,
    "                  ;   4 = Total speed".toList,
    "                  ;   11 = Dive angle".toList,
    "Min:        ".toList ++ arg c.minTone 5 ++ " ; Lowest pitch value".toList,
    "                  ;   cm/s        in Mode 0, 1, or 4".toList,
    "                  ;   ratio * 100 in Mode 2 or 3".toList,
    "                  ;   degrees     in Mode 11".toList,
    "Max:        ".toList ++ arg c.maxTone 5 ++ " ; Highest pitch value".toList,
    "                  ;   cm/s        in Mode 0, 1, or 4".toList,
    "                  ;   ratio * 100 in Mode 2 or 3".toList,
    "                  ;   degrees     in Mode 11".toList,
    "Limits:     ".toList ++ arg c.limits 5 ++ " ; Behaviour when outside bounds".toList,
    "                  ;   0 = No tone".toList,
    "                  ;   1 = Min/max tone".toList,
    "                  ;   2 = Chirp up/down".toList,
    "                  ;   3 = Chirp down/up".toList,
    "Volume:     ".toList ++ arg c.toneVolume 5 ++ " ; 0 (min) to 8 (max)".toList,
    [],
    "; Rate settings".toList,
    [],
    "Mode_2:     ".toList ++ arg c.rateMode 5 ++ " ; Determines tone rate".toList,
    "                  ;   0 = Horizontal speed".toList,
    "                  ;   1 = Vertical speed".toList,
    "                  ;   2 = Glide ratio".toList,
    "                  ;   3 = Inverse glide ratio".toList,
    "                  ;   4 = Total speed".toList,
    "                  ;   8 = Magnitude of Value 1".toList,
    "                  ;   9 = Change in Value 1".toList,
    "                  ;   11 = Dive angle".toList,
    "Min_Val_2:  ".toList ++ arg c.minRateValue 5 ++ " ; Lowest rate value".toList,
    "                  ;   cm/s          when Mode 2 = 0, 1, or 4".toList,
    "                  ;   ratio * 100   when Mode 2 = 2 or 3".toList,
    "                  ;   percent * 100 when Mode 2 = 9".toList,
    "                  ;   degrees       when Mode 2 = 11".toList,
    "Max_Val_2:  ".toList ++ arg c.maxRateValue 5 ++ " ; Highest rate value".toList,
    "                  ;   cm/s          when Mode 2 = 0, 1, or 4".toList,
    "                  ;   ratio * 100   when Mode 2 = 2 or 3".toList,
    "                  ;   percent * 100 when Mode 2 = 9".toList,
    "                  ;   degrees       when Mode 2 = 11".toList,
    "Min_Rate:   ".toList ++ arg c.minRate 5 ++ " ; Minimum rate (Hz * 100)".toList,
    "Max_Rate:   ".toList ++ arg c.maxRate 5 ++ " ; Maximum rate (Hz * 100)".toList,
    "Flatline:   ".toList ++ arg (boolToInt c.flatline) 5 ++ " ; Flatline at minimum rate".toList,
    "                  ;   0 = No".toList,
    "                  ;   1 = Yes".toList,
    [],
    "; Speech settings".toList,
    [],
    "Sp_Rate:    ".toList ++ arg c.speechRate 5 ++ " ; Speech rate (s)".toList,
    "                  ;   0 = No speech".toList,
    "Sp_Volume:  ".toList ++ arg c.speechVolume 5 ++ " ; 0 (min) to 8 (max)".toList,
    [] ]

/-- Lines of `saveFile` from the thresholds to `DZ_Elev`
(`mainwindow.cpp`, lines 400-441). -/
def saveThresholds (c : Configuration) : List (List Char) :=
  [
    "; Thresholds".toList,
    [],
    "V_Thresh:   ".toList ++ arg c.vThreshold 5 ++ " ; Minimum vertical speed for tone (cm/s)".toList,
    "H_Thresh:   ".toList ++ arg c.hThreshold 5 ++ " ; Minimum horizontal speed for tone (cm/s)".toList,
    [],
    "; Miscellaneous".toList,
    [],
    "Use_SAS:    ".toList ++ arg (boolToInt c.adjustSpeed) 5 ++ " ; Use skydiver's airspeed".toList,
    "                  ;   0 = No".toList,
    "                  ;   1 = Yes".toList,
    "TZ_Offset:  ".toList ++ arg c.timeZoneOffset 5 ++ " ; Timezone offset of output files in seconds".toList,
    "                  ;   -14400 = UTC-4 (EDT)".toList,
    "                  ;   -18000 = UTC-5 (EST, CDT)".toList,
    "                  ;   -21600 = UTC-6 (CST, MDT)".toList,
    "                  ;   -25200 = UTC-7 (MST, PDT)".toList,
    "                  ;   -28800 = UTC-8 (PST)".toList,
    [],
    "; Initialization".toList,
    [],
    "Init_Mode:  ".toList ++ arg c.initMode 5 ++ " ; When the FlySight is powered on".toList,
    "                  ;   0 = Do nothing".toList,
    "                  ;   1 = Test speech mode".toList,
    "                  ;   2 = Play file".toList,
    "Init_File:  ".toList ++ rightJustified c.initFile 5 ++ " ; File to be played".toList,
    [],
    "; Alarm settings".toList,
    [],
    "; WARNING: GPS measurements depend on very weak signals".toList,
    ";          received from orbiting satellites. As such, they".toList,
    ";          are prone to interference, and should NEVER be".toList,
    ";          relied upon for life saving purposes.".toList,
    [],
    ";          UNDER NO CIRCUMSTANCES SHOULD THESE ALARMS BE".toList,
    ";          USED TO INDICATE DEPLOYMENT OR BREAKOFF ALTITUDE.".toList,
    [],
    "; NOTE:    Alarm elevations are given in meters above ground".toList,
    ";          elevation, which is specified in DZ_Elev.".toList,
    [],
    "Window:     ".toList ++ arg c.alarmWindowAbove 5 ++ " ; Alarm window (m)".toList,
    "Win_Above:  ".toList ++ arg c.alarmWindowAbove 5 ++ " ; Alarm window (m)".toList,
    "Win_Below:  ".toList ++ arg c.alarmWindowBelow 5 ++ " ; Alarm window (m)".toList,
    "DZ_Elev:    ".toList ++ arg c.groundElevation 5 ++ " ; Ground elevation (m above sea level)".toList,
    [] ]

/-- Lines of `saveFile` from the altitude settings to the note on silence windows
(`mainwindow.cpp`, lines 461-486). -/
def saveAltitude (c : Configuration) : List (List Char) :=
  [
    "; Altitude mode settings".toList,
    [],
    "; WARNING: GPS measurements depend on very weak signals".toList,
    ";          received from orbiting satellites. As such, they".toList,
    ";          are prone to interference, and should NEVER be".toList,
    ";          relied upon for life saving purposes.".toList,
    [],
    ";          UNDER NO CIRCUMSTANCES SHOULD ALTITUDE MODE BE".toList,
    ";          USED TO INDICATE DEPLOYMENT OR BREAKOFF ALTITUDE.".toList,
    [],
    "; NOTE:    Altitude is given relative to ground elevation,".toList,
    ";          which is specified in DZ_Elev. Altitude mode will".toList,
    ";          not function below 1500 m above ground.".toList,
    [],
    "Alt_Units:  ".toList ++ arg c.altitudeUnits 5 ++ " ; Altitude units".toList,
    "                  ;   0 = m".toList,
    "                  ;   1 = ft".toList,
    "Alt_Step:   ".toList ++ arg c.altitudeStep 5 ++ " ; Altitude between announcements".toList,
    "                  ;   0 = No altitude".toList,
    [],
    "; Silence windows".toList,
    [],
    "; NOTE:    Silence windows are given in meters above ground".toList,
    ";          elevation, which is specified in DZ_Elev. Tones".toList,
    ";          will be silenced during these windows and only".toList,
    ";          alarms will be audible.".toList,
    [] ]

/-- The speech that `saveFile` writes when the configuration has none
(`mainwindow.cpp`, lines 384-387). -/
def defaultSpeech : Speech :=
  { mode := Mode.GlideRatio, units := Units.Miles, decimals := ⟨1, by decide⟩ }

/-- The alarm that `saveFile` writes when the configuration has none
(`mainwindow.cpp`, lines 445-448). -/
def defaultAlarm : Alarm :=
  { elevation := ⟨0, by decide⟩, mode := AlarmMode.NoAlarm, file := "0".toList }

/-- The window that `saveFile` writes when the configuration has none
(`mainwindow.cpp`, lines 490-492). -/
def defaultWindow : Window :=
  { top := ⟨0, by decide⟩, bottom := ⟨0, by decide⟩ }

/-- The lines written by `saveFile` (`mainwindow.cpp`, lines 305-501), in order.
An empty sequence is replaced by one default entry, written with its legend. -/
def saveFileLines (c : Configuration) : List (List Char) :=
  saveGeneral c ++
  (if c.speeches.isEmpty then
      saveSpeech defaultSpeech true
    else saveSpeeches c.speeches true) ++
  saveThresholds c ++
  (if c.alarms.isEmpty then
      saveAlarm defaultAlarm true
    else saveAlarms c.alarms true) ++
  saveAltitude c ++
  (if c.windows.isEmpty then
      saveWindow defaultWindow
    else saveWindows c.windows)

/-- The serializer `serialize(C)`: the text that `saveFile` writes to the stream,
every line being ended by `endl`. -/
def saveFile (c : Configuration) : List Char :=
  unlines (saveFileLines c)


/-! ## Vocabulary for statements about lines -/

/-- The line without its comment: everything before the first `;`. -/
def stripComment (line : List Char) : List Char :=
  line.takeWhile (fun c => c != ';')

/-- The key of a line: the trimmed text before the first `:` of the stripped line. -/
def nameOf (line : List Char) : List Char :=
  trimmed ((stripComment line).takeWhile (fun c => c != ':'))

/-- The value of a line: the trimmed text between the first and the second `:`
of the stripped line (up to its end when there is no second `:`). -/
def resultOf (line : List Char) : List Char :=
  trimmed ((((stripComment line).dropWhile (fun c => c != ':')).tail).takeWhile (fun c => c != ':'))

/-- The line has a key and a value: its stripped text contains a `:`. -/
def isKeyValue (line : List Char) : Bool :=
  decide (':' ∈ stripComment line)

/-- The line is a key:value line whose key is exactly `k`. -/
def hasKey (k : String) (line : List Char) : Bool :=
  isKeyValue line && decide (nameOf line = k.toList)

/-- Characters of the decimal notation: digits and the minus sign. -/
def isNumberChar (c : Char) : Bool :=
  c.isDigit || c == '-'

/-- What the parser stores for a text `s` that the writer put after a key: the
text up to its first `;` or `:`, trimmed. -/
def reread (s : List Char) : List Char :=
  trimmed ((s.takeWhile (fun c => c != ';')).takeWhile (fun c => c != ':'))

/-- The shape of the text a statement of the writer puts before a value: a key,
a colon and blanks. -/
def isKeyPrefix (pre key : List Char) : Bool :=
  decide (':' ∈ pre) && !decide (';' ∈ pre) &&
    decide (trimmed (pre.takeWhile (fun c => c != ':')) = key) &&
    ((pre.dropWhile (fun c => c != ':')).tail).all (fun c => isSpace c && c != ':' && c != ';')

/-- The shape of the text a statement of the writer puts after a value: a blank
and the start of a comment. -/
def isCommentSuffix (cmt : List Char) : Bool :=
  cmt.take 2 == [' ', ';']

/-- The configuration obtained by reading the written form of `C` back, for display
units `u`: texts as `reread` gives them, and one default entry for each empty
sequence. -/
def reloaded (u : DisplayUnits) (C : Configuration) : Configuration :=
  { C with
    displayUnits := u
    configName := reread C.configName
    configDescription := reread C.configDescription
    configKind := reread C.configKind
    initFile := reread C.initFile
    speeches := if C.speeches.isEmpty then [defaultSpeech] else C.speeches
    alarms := if C.alarms.isEmpty then [defaultAlarm]
      else C.alarms.map (fun a => { a with file := reread a.file })
    windows := if C.windows.isEmpty then [defaultWindow] else C.windows }

/-- The text has no line break. -/
def noLineBreak (s : List Char) : Bool :=
  s.all (fun c => c != '\n')

/-- No text field of the configuration has a line break. -/
def Configuration.noLineBreaks (C : Configuration) : Bool :=
  noLineBreak C.configName && noLineBreak C.configDescription && noLineBreak C.configKind &&
    noLineBreak C.initFile && C.alarms.all (fun a => noLineBreak a.file)

/-- A text as the parser stores it: trimmed, and without `;`, `:` or line break. -/
def isStored (s : List Char) : Bool :=
  decide (';' ∉ s) && decide (':' ∉ s) && noLineBreak s && decide (trimmed s = s)

/-- Every text field of the configuration is as the parser stores texts. -/
def Configuration.textsStored (C : Configuration) : Bool :=
  isStored C.configName && isStored C.configDescription && isStored C.configKind &&
    isStored C.initFile && C.alarms.all (fun a => isStored a.file)

/-- The keys of the statements that touch one of the three sequences. -/
def sequenceKeys : List String :=
  ["Alarm_Elev", "Alarm_Type", "Alarm_File", "Win_Top", "Win_Bottom", "Sp_Mode", "Sp_Units",
   "Sp_Dec"]

/-- The integer values, in file order, of the key:value lines with key `k`. -/
def valuesOf (k : String) (lines : List (List Char)) : List CInt :=
  (lines.filter (hasKey k)).map (fun l => toInt (resultOf l))

/-- A text that is, as a whole, a decimal integer: an optional sign followed by at
least one digit. -/
def isDecimalText (s : List Char) : Bool :=
  let ds := if s.head? = some '-' ∨ s.head? = some '+' then s.tail else s
  decide (ds ≠ []) && ds.all Char.isDigit

/-- The key names of the file format. -/
def fixedKeys : List String :=
  ["Config_Name", "Config_Description", "Config_Kind", "Model", "Rate", "Mode", "Min", "Max",
   "Limits", "Volume", "Mode_2", "Min_Val_2", "Max_Val_2", "Min_Rate", "Max_Rate", "Flatline",
   "Sp_Rate", "Sp_Volume", "Sp_Mode", "Sp_Units", "Sp_Dec", "V_Thresh", "H_Thresh", "Use_SAS",
   "TZ_Offset", "Init_Mode", "Init_File", "Window", "Win_Above", "Win_Below", "DZ_Elev",
   "Alarm_Elev", "Alarm_Type", "Alarm_File", "Alt_Units", "Alt_Step", "Win_Top", "Win_Bottom"]

/-- A concrete record of constructor defaults, for the examples. -/
def sampleDefaults : Configuration :=
  { displayUnits := DisplayUnits.Metric, configName := [], configDescription := [],
    configKind := [], model := CInt.ofInt 0, rate := CInt.ofInt 0, toneMode := CInt.ofInt 0,
    minTone := CInt.ofInt 0, maxTone := CInt.ofInt 0, limits := CInt.ofInt 0,
    toneVolume := CInt.ofInt 0, rateMode := CInt.ofInt 0, minRateValue := CInt.ofInt 0,
    maxRateValue := CInt.ofInt 0, minRate := CInt.ofInt 0, maxRate := CInt.ofInt 0,
    flatline := false, speechRate := CInt.ofInt 0, speechVolume := CInt.ofInt 0, speeches := [],
    vThreshold := CInt.ofInt 0, hThreshold := CInt.ofInt 0, adjustSpeed := false,
    timeZoneOffset := CInt.ofInt 0, initMode := CInt.ofInt 0, initFile := [],
    alarmWindowAbove := CInt.ofInt 0, alarmWindowBelow := CInt.ofInt 0,
    groundElevation := CInt.ofInt 0, alarms := [], windows := [], altitudeUnits := CInt.ofInt 0,
    altitudeStep := CInt.ofInt 0 }


/-- An example file with fifteen `Alarm_Elev` lines. -/
def fifteenAlarms : List Char :=
  ("Alarm_Elev: 1\nAlarm_Elev: 2\nAlarm_Elev: 3\nAlarm_Elev: 4\nAlarm_Elev: 5\n" ++
   "Alarm_Elev: 6\nAlarm_Elev: 7\nAlarm_Elev: 8\nAlarm_Elev: 9\nAlarm_Elev: 10\n" ++
   "Alarm_Elev: 11\nAlarm_Elev: 12\nAlarm_Elev: 13\nAlarm_Elev: 14\nAlarm_Elev: 15\n").toList

/-- An example file with eleven `Sp_Mode` lines and no alarm. -/
def elevenSpeeches : List Char :=
  ("Sp_Mode: 0\nSp_Mode: 1\nSp_Mode: 2\nSp_Mode: 3\nSp_Mode: 4\nSp_Mode: 5\n" ++
   "Sp_Mode: 0\nSp_Mode: 1\nSp_Mode: 2\nSp_Mode: 3\nSp_Mode: 4\n").toList

/-- An example file that starts one entry in each sequence. -/
def oneOfEach : List Char :=
  "Sp_Mode: 3\nAlarm_Elev: 1\nWin_Top: 2\n".toList

/-- The configuration that `oneOfEach` parses to, from `sampleDefaults`. -/
def oneOfEachParsed : Configuration :=
  { sampleDefaults with
    speeches := [{ mode := CInt.ofInt 3, units := Units.Miles, decimals := CInt.ofInt 1 }]
    alarms := [{ elevation := CInt.ofInt 1, mode := AlarmMode.NoAlarm, file := [] }]
    windows := [{ top := CInt.ofInt 2, bottom := CInt.ofInt 2 }] }

/-- A configuration without entries whose name holds a line break. -/
def nameWithLineBreak : Configuration :=
  { sampleDefaults with configName := "x\nWin_Top: 7".toList }

/-! ## Vocabulary for the written file -/

/-- The keys, in order, of the key:value lines among `lines`. -/
def keysOf (lines : List (List Char)) : List (List Char) :=
  (lines.filter isKeyValue).map nameOf

/-- The keys that `saveFile` writes before the speech entries. -/
def generalKeys : List String :=
  ["Config_Name", "Config_Description", "Config_Kind", "Model", "Rate", "Mode", "Min", "Max",
   "Limits", "Volume", "Mode_2", "Min_Val_2", "Max_Val_2", "Min_Rate", "Max_Rate", "Flatline",
   "Sp_Rate", "Sp_Volume"]

/-- The keys of one speech entry. -/
def speechKeys : List String :=
  ["Sp_Mode", "Sp_Units", "Sp_Dec"]

/-- The keys that `saveFile` writes between the speech entries and the alarm entries. -/
def thresholdKeys : List String :=
  ["V_Thresh", "H_Thresh", "Use_SAS", "TZ_Offset", "Init_Mode", "Init_File", "Window",
   "Win_Above", "Win_Below", "DZ_Elev"]

/-- The keys of one alarm entry. -/
def alarmKeys : List String :=
  ["Alarm_Elev", "Alarm_Type", "Alarm_File"]

/-- The keys that `saveFile` writes between the alarm entries and the window entries. -/
def altitudeKeys : List String :=
  ["Alt_Units", "Alt_Step"]

/-- The keys of one window entry. -/
def windowKeys : List String :=
  ["Win_Top", "Win_Bottom"]

/-- The key sequence of the written file of `C`: the entry keys are repeated once
per element of the sequence, and once when the sequence is empty. -/
def expectedKeys (C : Configuration) : List String :=
  generalKeys ++ (List.replicate (max 1 C.speeches.length) speechKeys).flatten ++
    thresholdKeys ++ (List.replicate (max 1 C.alarms.length) alarmKeys).flatten ++
    altitudeKeys ++ (List.replicate (max 1 C.windows.length) windowKeys).flatten

/-- The part of the state of `MainWindow` that `loadFile` reads or writes: the
configuration being edited, the snapshot taken at the last load or save, the name
of the current file, and the `folder` entry of the application settings. -/
structure MainWindow where
  configuration : Configuration
  savedConfiguration : Configuration
  curFile : List Char
  folder : List Char
deriving DecidableEq

/-- `MainWindow::setCurrentFile` (`mainwindow.cpp`, lines 677-689): the file name
is recorded and the configuration is taken as the saved snapshot. -/
def setCurrentFile (w : MainWindow) (fileName : List Char) : MainWindow :=
  { w with curFile := fileName, savedConfiguration := w.configuration }

/-- `MainWindow::loadFile` (`mainwindow.cpp`, lines 139-283). `content` is what
`file.open(ReadOnly | Text)` gives: `none` when the file cannot be opened, and the
text of the file otherwise. On failure the function returns `false` at once. On
success it records `absolutePath` (the absolute path of `fileName`) in the
settings, resets the configuration keeping the display units, runs the line loop
and calls `setCurrentFile`; the result is `true`. A run of the loop that reaches an
out-of-bounds access has no result. -/
def loadFile (d : Configuration) (w : MainWindow) (fileName absolutePath : List Char)
    (content : Option (List Char)) : Option (Bool × MainWindow) :=
  match content with
  | none => some (false, w)
  | some t =>
    let w1 := { w with folder := absolutePath }
    (parse d t w1.configuration.displayUnits).map
      (fun c => (true, setCurrentFile { w1 with configuration := c } fileName))

/-- An example file: ten `Alarm_Elev` lines followed by one `Sp_Mode` line. -/
def tenAlarmsThenSpeech : List Char :=
  ("Alarm_Elev: 1\nAlarm_Elev: 2\nAlarm_Elev: 3\nAlarm_Elev: 4\nAlarm_Elev: 5\n" ++
   "Alarm_Elev: 6\nAlarm_Elev: 7\nAlarm_Elev: 8\nAlarm_Elev: 9\nAlarm_Elev: 10\n" ++
   "Sp_Mode: 3\n").toList

/-- An example file with three `Win_Top` lines and one `Win_Bottom` line at the end. -/
def threeWindows : List Char :=
  "Win_Top: 100\nWin_Top: 200\nWin_Top: 300\nWin_Bottom: 50\n".toList

/-- An example file with comments, an empty line, an unknown key and a key in the
wrong case only. -/
def noEffectiveLine : List Char :=
  "; FlySight\n\nFuture_Key: 12\nrate: 100 ; lower case\nno colon here\n".toList

/-- An example file in which scalar keys occur several times. -/
def duplicateKeys : List Char :=
  "Rate: 100\nFlatline: 1\nRate: 200 ; second\nVolume: 3\nFlatline: 0\nRate: 300\n".toList

/-! ## Vocabulary for the blocks of the written file -/

/-- A comment line: a line that is not empty and that is not a key:value line (in
the written file, the legends and the section titles). -/
def isCommentOnly (l : List Char) : Bool :=
  !l.isEmpty && !isKeyValue l

/-- An example configuration: two speeches, two alarms with file names, one window,
and alarm windows that differ above and below. -/
def twoOfEach : Configuration :=
  { sampleDefaults with
    configName := "wingsuit".toList
    timeZoneOffset := CInt.ofInt (-14400)
    alarmWindowAbove := CInt.ofInt 10
    alarmWindowBelow := CInt.ofInt 20
    speeches := [{ mode := CInt.ofInt 2, units := CInt.ofInt 1, decimals := CInt.ofInt 1 },
      { mode := CInt.ofInt 5, units := CInt.ofInt 0, decimals := CInt.ofInt 0 }]
    alarms := [{ elevation := CInt.ofInt 1500, mode := CInt.ofInt 4, file := "a.wav".toList },
      { elevation := CInt.ofInt 1000, mode := CInt.ofInt 1, file := [] }]
    windows := [{ top := CInt.ofInt 600, bottom := CInt.ofInt 300 }] }

/-- The configuration that the ten `Alarm_Elev` lines of `tenAlarmsThenSpeech` build,
from `sampleDefaults`. -/
def tenAlarmsParsed : Configuration :=
  { sampleDefaults with
    alarms := (List.range 10).map
      (fun i => { elevation := CInt.ofInt (i + 1), mode := AlarmMode.NoAlarm, file := [] }) }

/-- An example configuration with two speeches and neither alarm nor window. -/
def twoSpeechesNoAlarm : Configuration :=
  { sampleDefaults with
    speeches := [{ mode := CInt.ofInt 2, units := CInt.ofInt 1, decimals := CInt.ofInt 1 },
      { mode := CInt.ofInt 5, units := CInt.ofInt 0, decimals := CInt.ofInt 0 }] }

/-- An example configuration with two alarms and neither speech nor window. -/
def twoAlarmsNoSpeech : Configuration :=
  { sampleDefaults with
    alarms := [{ elevation := CInt.ofInt 1500, mode := CInt.ofInt 4, file := "a.wav".toList },
      { elevation := CInt.ofInt 1000, mode := CInt.ofInt 1, file := [] }] }
/-! ## Text primitives: basic facts -/

theorem indexOf_of_mem (s : List Char) (ch : Char) (h : ch ∈ s) :
    indexOf s ch = ((s.takeWhile (fun c => c != ch)).length : Int) := by
  simp [indexOf, h]

theorem takeWhile_ne_cons (a ch : Char) (s : List Char) (h : a ≠ ch) :
    (a :: s).takeWhile (fun c => c != ch) = a :: s.takeWhile (fun c => c != ch) := by
  simp [List.takeWhile_cons, h]

theorem takeWhile_ne_cons_self (ch : Char) (s : List Char) :
    (ch :: s).takeWhile (fun c => c != ch) = [] := by
  simp [List.takeWhile_cons]

theorem dropWhile_ne_cons (a ch : Char) (s : List Char) (h : a ≠ ch) :
    (a :: s).dropWhile (fun c => c != ch) = s.dropWhile (fun c => c != ch) := by
  simp [List.dropWhile_cons, h]

theorem dropWhile_ne_cons_self (ch : Char) (s : List Char) :
    (ch :: s).dropWhile (fun c => c != ch) = ch :: s := by
  simp [List.dropWhile_cons]

theorem takeWhile_ne_length_lt (s : List Char) (ch : Char) (h : ch ∈ s) :
    (s.takeWhile (fun c => c != ch)).length < s.length := by
  induction s with
  | nil => simp at h
  | cons a s ih =>
    by_cases ha : a = ch
    · subst ha; simp [takeWhile_ne_cons_self]
    · have h2 : ch ∈ s := by
        rcases List.mem_cons.mp h with h1 | h1
        · exact absurd h1.symm ha
        · exact h1
      have := ih h2
      rw [takeWhile_ne_cons a ch s ha]
      simp only [List.length_cons]
      omega

theorem takeWhile_eq_take_length (p : Char → Bool) (s : List Char) :
    s.take (s.takeWhile p).length = s.takeWhile p := by
  induction s with
  | nil => simp
  | cons a s ih =>
    by_cases ha : p a = true
    · simp [List.takeWhile, ha, ih]
    · simp [List.takeWhile, ha]

theorem takeWhile_ne_of_not_mem (s : List Char) (ch : Char) (h : ch ∉ s) :
    s.takeWhile (fun c => c != ch) = s := by
  rw [List.takeWhile_eq_self_iff]
  intro x hx
  simp only [bne_iff_ne, ne_eq]
  rintro rfl
  exact h hx

/-- Removing the comment as the source does it, `line.left(line.indexOf(';'))`,
keeps exactly the text before the first `;`. -/
theorem left_indexOf (s : List Char) (ch : Char) :
    left s (indexOf s ch) = s.takeWhile (fun c => c != ch) := by
  by_cases h : ch ∈ s
  · have hlt := takeWhile_ne_length_lt s ch h
    rw [indexOf_of_mem s ch h, left]
    have h1 : ¬ (((s.takeWhile (fun c => c != ch)).length : Int) < 0 ∨
        (s.length : Int) ≤ ((s.takeWhile (fun c => c != ch)).length : Int)) := by omega
    rw [if_neg h1]
    simpa using takeWhile_eq_take_length (fun c => c != ch) s
  · rw [takeWhile_ne_of_not_mem s ch h]
    simp [indexOf, left, h]

theorem splitAux_fst (sep : Char) (s : List Char) :
    (splitAux sep s).1 = s.takeWhile (fun c => c != sep) := by
  induction s with
  | nil => rfl
  | cons a s ih =>
    by_cases ha : a = sep
    · subst ha; simp [splitAux, takeWhile_ne_cons_self]
    · rw [takeWhile_ne_cons a sep s ha]
      simp [splitAux, ha, ih]

theorem splitAux_snd (sep : Char) (s : List Char) :
    (splitAux sep s).2 =
      if sep ∈ s then split sep ((s.dropWhile (fun c => c != sep)).tail) else [] := by
  induction s with
  | nil => simp [splitAux]
  | cons a s ih =>
    by_cases ha : a = sep
    · subst ha
      simp [splitAux, split, dropWhile_ne_cons_self]
    · have h1 : (sep ∈ a :: s) ↔ sep ∈ s := by
        simp [List.mem_cons, Ne.symm ha]
      rw [dropWhile_ne_cons a sep s ha]
      simp only [splitAux, ha, if_false, ih, h1]

/-- The parts of a split: the first is the text before the first separator; there
is a second one exactly when the separator occurs. -/
theorem split_eq (sep : Char) (s : List Char) :
    split sep s = s.takeWhile (fun c => c != sep) ::
      (if sep ∈ s then split sep ((s.dropWhile (fun c => c != sep)).tail) else []) := by
  rw [split, splitAux_fst, splitAux_snd]

theorem split_length_lt_two (sep : Char) (s : List Char) :
    (split sep s).length < 2 ↔ sep ∉ s := by
  rw [split_eq]
  by_cases h : sep ∈ s
  · simp [h, split]
  · simp [h]

theorem split_getD_zero (sep : Char) (s : List Char) :
    (split sep s).getD 0 [] = s.takeWhile (fun c => c != sep) := by
  rw [split_eq]; rfl

theorem split_getD_one (sep : Char) (s : List Char) (h : sep ∈ s) :
    (split sep s).getD 1 [] =
      ((s.dropWhile (fun c => c != sep)).tail).takeWhile (fun c => c != sep) := by
  rw [split_eq, if_pos h]
  exact split_getD_zero sep _

/-- One iteration of the loop, in terms of the key and the value of the line. -/
theorem processLine_eq (c : Configuration) (line : List Char) :
    processLine c line =
      if isKeyValue line = true then
        dispatch c (nameOf line) (resultOf line) (toInt (resultOf line))
      else some c := by
  unfold processLine isKeyValue
  simp only [left_indexOf, split_length_lt_two, decide_eq_true_eq]
  by_cases h : ':' ∈ stripComment line
  · have h2 : ':' ∈ List.takeWhile (fun c => c != ';') line := h
    simp only [h2, not_true_eq_false, if_false, if_true, h]
    rw [split_getD_zero, split_getD_one _ _ h2]
    rfl
  · have h2 : ':' ∉ List.takeWhile (fun c => c != ';') line := h
    simp [h2, h]

/-! ## The dispatch, key by key -/

theorem handleValue_pos (name : List Char) (s : String) (set : Configuration → Configuration)
    (c : Configuration) (h : name = s.toList) : handleValue name s set c = set c := by
  unfold handleValue; rw [if_pos h]

theorem handleValue_neg (name : List Char) (s : String) (set : Configuration → Configuration)
    (c : Configuration) (h : name ≠ s.toList) : handleValue name s set c = c := by
  unfold handleValue; rw [if_neg h]

theorem modifyBack_nil {α : Type} (f : α → α) : modifyBack f [] = none := rfl

theorem modifyBack_concat {α : Type} (f : α → α) (xs : List α) (x : α) :
    modifyBack f (xs ++ [x]) = some (xs ++ [f x]) := by
  simp [modifyBack]

theorem modifyBack_isSome {α : Type} (f : α → α) (xs : List α) (h : xs ≠ []) :
    ∃ ys x, xs = ys ++ [x] ∧ modifyBack f xs = some (ys ++ [f x]) := by
  refine ⟨xs.dropLast, xs.getLast h, (List.dropLast_append_getLast h).symm, ?_⟩
  conv_lhs => rw [← List.dropLast_append_getLast h]
  exact modifyBack_concat f _ _

theorem modifyBack_eq_some {α : Type} (f : α → α) (xs zs : List α)
    (h : modifyBack f xs = some zs) :
    ∃ ys x, xs = ys ++ [x] ∧ zs = ys ++ [f x] := by
  by_cases hx : xs = []
  · subst hx; simp [modifyBack] at h
  · obtain ⟨ys, x, h1, h2⟩ := modifyBack_isSome f xs hx
    rw [h2] at h
    exact ⟨ys, x, h1, (Option.some.inj h).symm⟩

theorem dispatch_Model (c : Configuration) (r : List Char) (v : CInt) :
    dispatch c "Model".toList r v = some { c with model := v } := by
  simp +decide [dispatch, handleValues, handleValue, handleAlarms, handleWindows, handleSpeeches]

theorem dispatch_Rate (c : Configuration) (r : List Char) (v : CInt) :
    dispatch c "Rate".toList r v = some { c with rate := v } := by
  simp +decide [dispatch, handleValues, handleValue, handleAlarms, handleWindows, handleSpeeches]

theorem dispatch_Mode (c : Configuration) (r : List Char) (v : CInt) :
    dispatch c "Mode".toList r v = some { c with toneMode := v } := by
  simp +decide [dispatch, handleValues, handleValue, handleAlarms, handleWindows, handleSpeeches]

theorem dispatch_Min (c : Configuration) (r : List Char) (v : CInt) :
    dispatch c "Min".toList r v = some { c with minTone := v } := by
  simp +decide [dispatch, handleValues, handleValue, handleAlarms, handleWindows, handleSpeeches]

theorem dispatch_Max (c : Configuration) (r : List Char) (v : CInt) :
    dispatch c "Max".toList r v = some { c with maxTone := v } := by
  simp +decide [dispatch, handleValues, handleValue, handleAlarms, handleWindows, handleSpeeches]

theorem dispatch_Limits (c : Configuration) (r : List Char) (v : CInt) :
    dispatch c "Limits".toList r v = some { c with limits := v } := by
  simp +decide [dispatch, handleValues, handleValue, handleAlarms, handleWindows, handleSpeeches]

theorem dispatch_Volume (c : Configuration) (r : List Char) (v : CInt) :
    dispatch c "Volume".toList r v = some { c with toneVolume := v } := by
  simp +decide [dispatch, handleValues, handleValue, handleAlarms, handleWindows, handleSpeeches]

theorem dispatch_Mode_2 (c : Configuration) (r : List Char) (v : CInt) :
    dispatch c "Mode_2".toList r v = some { c with rateMode := v } := by
  simp +decide [dispatch, handleValues, handleValue, handleAlarms, handleWindows, handleSpeeches]

theorem dispatch_Min_Val_2 (c : Configuration) (r : List Char) (v : CInt) :
    dispatch c "Min_Val_2".toList r v = some { c with minRateValue := v } := by
  simp +decide [dispatch, handleValues, handleValue, handleAlarms, handleWindows, handleSpeeches]

theorem dispatch_Max_Val_2 (c : Configuration) (r : List Char) (v : CInt) :
    dispatch c "Max_Val_2".toList r v = some { c with maxRateValue := v } := by
  simp +decide [dispatch, handleValues, handleValue, handleAlarms, handleWindows, handleSpeeches]

theorem dispatch_Min_Rate (c : Configuration) (r : List Char) (v : CInt) :
    dispatch c "Min_Rate".toList r v = some { c with minRate := v } := by
  simp +decide [dispatch, handleValues, handleValue, handleAlarms, handleWindows, handleSpeeches]

theorem dispatch_Max_Rate (c : Configuration) (r : List Char) (v : CInt) :
    dispatch c "Max_Rate".toList r v = some { c with maxRate := v } := by
  simp +decide [dispatch, handleValues, handleValue, handleAlarms, handleWindows, handleSpeeches]

theorem dispatch_Flatline (c : Configuration) (r : List Char) (v : CInt) :
    dispatch c "Flatline".toList r v = some { c with flatline := intToBool v } := by
  simp +decide [dispatch, handleValues, handleValue, handleAlarms, handleWindows, handleSpeeches]

theorem dispatch_Sp_Rate (c : Configuration) (r : List Char) (v : CInt) :
    dispatch c "Sp_Rate".toList r v = some { c with speechRate := v } := by
  simp +decide [dispatch, handleValues, handleValue, handleAlarms, handleWindows, handleSpeeches]

theorem dispatch_Sp_Volume (c : Configuration) (r : List Char) (v : CInt) :
    dispatch c "Sp_Volume".toList r v = some { c with speechVolume := v } := by
  simp +decide [dispatch, handleValues, handleValue, handleAlarms, handleWindows, handleSpeeches]

theorem dispatch_V_Thresh (c : Configuration) (r : List Char) (v : CInt) :
    dispatch c "V_Thresh".toList r v = some { c with vThreshold := v } := by
  simp +decide [dispatch, handleValues, handleValue, handleAlarms, handleWindows, handleSpeeches]

theorem dispatch_H_Thresh (c : Configuration) (r : List Char) (v : CInt) :
    dispatch c "H_Thresh".toList r v = some { c with hThreshold := v } := by
  simp +decide [dispatch, handleValues, handleValue, handleAlarms, handleWindows, handleSpeeches]

theorem dispatch_Use_SAS (c : Configuration) (r : List Char) (v : CInt) :
    dispatch c "Use_SAS".toList r v = some { c with adjustSpeed := intToBool v } := by
  simp +decide [dispatch, handleValues, handleValue, handleAlarms, handleWindows, handleSpeeches]

theorem dispatch_TZ_Offset (c : Configuration) (r : List Char) (v : CInt) :
    dispatch c "TZ_Offset".toList r v = some { c with timeZoneOffset := v } := by
  simp +decide [dispatch, handleValues, handleValue, handleAlarms, handleWindows, handleSpeeches]

theorem dispatch_Init_Mode (c : Configuration) (r : List Char) (v : CInt) :
    dispatch c "Init_Mode".toList r v = some { c with initMode := v } := by
  simp +decide [dispatch, handleValues, handleValue, handleAlarms, handleWindows, handleSpeeches]

theorem dispatch_Alt_Units (c : Configuration) (r : List Char) (v : CInt) :
    dispatch c "Alt_Units".toList r v = some { c with altitudeUnits := v } := by
  simp +decide [dispatch, handleValues, handleValue, handleAlarms, handleWindows, handleSpeeches]

theorem dispatch_Alt_Step (c : Configuration) (r : List Char) (v : CInt) :
    dispatch c "Alt_Step".toList r v = some { c with altitudeStep := v } := by
  simp +decide [dispatch, handleValues, handleValue, handleAlarms, handleWindows, handleSpeeches]

theorem dispatch_Win_Above (c : Configuration) (r : List Char) (v : CInt) :
    dispatch c "Win_Above".toList r v = some { c with alarmWindowAbove := v } := by
  simp +decide [dispatch, handleValues, handleValue, handleAlarms, handleWindows, handleSpeeches]

theorem dispatch_Win_Below (c : Configuration) (r : List Char) (v : CInt) :
    dispatch c "Win_Below".toList r v = some { c with alarmWindowBelow := v } := by
  simp +decide [dispatch, handleValues, handleValue, handleAlarms, handleWindows, handleSpeeches]

theorem dispatch_DZ_Elev (c : Configuration) (r : List Char) (v : CInt) :
    dispatch c "DZ_Elev".toList r v = some { c with groundElevation := v } := by
  simp +decide [dispatch, handleValues, handleValue, handleAlarms, handleWindows, handleSpeeches]

theorem dispatch_Config_Name (c : Configuration) (r : List Char) (v : CInt) :
    dispatch c "Config_Name".toList r v = some { c with configName := r } := by
  simp +decide [dispatch, handleValues, handleValue, handleAlarms, handleWindows, handleSpeeches]

theorem dispatch_Config_Description (c : Configuration) (r : List Char) (v : CInt) :
    dispatch c "Config_Description".toList r v = some { c with configDescription := r } := by
  simp +decide [dispatch, handleValues, handleValue, handleAlarms, handleWindows, handleSpeeches]

theorem dispatch_Config_Kind (c : Configuration) (r : List Char) (v : CInt) :
    dispatch c "Config_Kind".toList r v = some { c with configKind := r } := by
  simp +decide [dispatch, handleValues, handleValue, handleAlarms, handleWindows, handleSpeeches]

theorem dispatch_Init_File (c : Configuration) (r : List Char) (v : CInt) :
    dispatch c "Init_File".toList r v = some { c with initFile := r } := by
  simp +decide [dispatch, handleValues, handleValue, handleAlarms, handleWindows, handleSpeeches]

theorem dispatch_Window (c : Configuration) (r : List Char) (v : CInt) :
    dispatch c "Window".toList r v =
      some { c with alarmWindowAbove := v, alarmWindowBelow := v } := by
  simp +decide [dispatch, handleValues, handleValue, handleAlarms, handleWindows, handleSpeeches]

theorem dispatch_Alarm_Elev (c : Configuration) (r : List Char) (v : CInt) :
    dispatch c "Alarm_Elev".toList r v =
      some (if c.alarms.length < MAX_ALARMS then
        { c with alarms := c.alarms ++ [{ elevation := v, mode := AlarmMode.NoAlarm, file := [] }] }
      else c) := by
  simp +decide [dispatch, handleValues, handleValue, handleAlarms, handleWindows, handleSpeeches]

theorem dispatch_Alarm_Type (c : Configuration) (r : List Char) (v : CInt) :
    dispatch c "Alarm_Type".toList r v =
      (modifyBack (fun a => { a with mode := v }) c.alarms).map
        (fun as => { c with alarms := as }) := by
  simp +decide [dispatch, handleValues, handleValue, handleAlarms, handleWindows, handleSpeeches]

theorem dispatch_Alarm_File (c : Configuration) (r : List Char) (v : CInt) :
    dispatch c "Alarm_File".toList r v =
      (modifyBack (fun a => { a with file := r }) c.alarms).map
        (fun as => { c with alarms := as }) := by
  simp +decide [dispatch, handleValues, handleValue, handleAlarms, handleWindows, handleSpeeches]

theorem dispatch_Win_Top (c : Configuration) (r : List Char) (v : CInt) :
    dispatch c "Win_Top".toList r v =
      some (if c.windows.length < MAX_WINDOWS then
        { c with windows := c.windows ++ [{ top := v, bottom := v }] }
      else c) := by
  simp +decide [dispatch, handleValues, handleValue, handleAlarms, handleWindows, handleSpeeches]

theorem dispatch_Win_Bottom (c : Configuration) (r : List Char) (v : CInt) :
    dispatch c "Win_Bottom".toList r v =
      (modifyBack (fun w => { w with bottom := v }) c.windows).map
        (fun ws => { c with windows := ws }) := by
  simp +decide [dispatch, handleValues, handleValue, handleAlarms, handleWindows, handleSpeeches]

theorem dispatch_Sp_Mode (c : Configuration) (r : List Char) (v : CInt) :
    dispatch c "Sp_Mode".toList r v =
      some (if c.alarms.length < MAX_ALARMS then
        { c with speeches := c.speeches ++
            [{ mode := v, units := Units.Miles, decimals := ⟨1, by decide⟩ }] }
      else c) := by
  simp +decide [dispatch, handleValues, handleValue, handleAlarms, handleWindows, handleSpeeches]

theorem dispatch_Sp_Units (c : Configuration) (r : List Char) (v : CInt) :
    dispatch c "Sp_Units".toList r v =
      (modifyBack (fun s => { s with units := v }) c.speeches).map
        (fun ss => { c with speeches := ss }) := by
  simp +decide [dispatch, handleValues, handleValue, handleAlarms, handleWindows, handleSpeeches]

theorem dispatch_Sp_Dec (c : Configuration) (r : List Char) (v : CInt) :
    dispatch c "Sp_Dec".toList r v =
      (modifyBack (fun s => { s with decimals := v }) c.speeches).map
        (fun ss => { c with speeches := ss }) := by
  simp +decide [dispatch, handleValues, handleValue, handleAlarms, handleWindows, handleSpeeches]

/-- A key that is none of the fixed key names triggers no statement. -/
theorem dispatch_unknown (c : Configuration) (name r : List Char) (v : CInt)
    (h : name ∉ fixedKeys.map String.toList) : dispatch c name r v = some c := by
  simp only [fixedKeys, List.map, List.mem_cons, List.mem_nil_iff, or_false, not_or] at h
  simp only [dispatch, handleValues, handleAlarms, handleWindows, handleSpeeches]
  simp only [handleValue_neg, h, ne_eq, not_false_eq_true, false_and, if_false]
  rfl

/-! ## Decimal notation -/

theorem toDigitsCore_append (fuel : Nat) :
    ∀ (n : Nat) (ds : List Char), n < fuel →
      Nat.toDigitsCore 10 fuel n ds = Nat.toDigits 10 n ++ ds := by
  induction fuel using Nat.strong_induction_on with
  | _ fuel ih =>
    intro n ds hn
    cases fuel with
    | zero => omega
    | succ fuel =>
      unfold Nat.toDigits
      simp only [Nat.toDigitsCore]
      by_cases h0 : n / 10 = 0
      · simp [h0]
      · simp only [h0, if_false]
        have hlt : n / 10 < n := Nat.div_lt_self (by omega) (by decide)
        rw [ih fuel (Nat.lt_succ_self _) (n / 10) _ (by omega)]
        rw [ih n (by omega) (n / 10) _ hlt]
        simp

theorem toDigits_small (n : Nat) (h : n < 10) : Nat.toDigits 10 n = [Nat.digitChar n] := by
  unfold Nat.toDigits
  simp only [Nat.toDigitsCore]
  have h0 : n / 10 = 0 := Nat.div_eq_of_lt h
  have h1 : n % 10 = n := Nat.mod_eq_of_lt h
  simp [h0, h1]

theorem toDigits_large (n : Nat) (h : 10 ≤ n) :
    Nat.toDigits 10 n = Nat.toDigits 10 (n / 10) ++ [Nat.digitChar (n % 10)] := by
  conv_lhs => unfold Nat.toDigits
  simp only [Nat.toDigitsCore]
  have h0 : n / 10 ≠ 0 := by
    have := Nat.div_pos h (by decide : 0 < 10)
    omega
  simp only [h0, if_false]
  exact toDigitsCore_append n (n / 10) _ (Nat.div_lt_self (by omega) (by decide))

theorem digitChar_isDigit (k : Nat) (h : k < 10) : (Nat.digitChar k).isDigit = true := by
  interval_cases k <;> rfl

theorem digitChar_value (k : Nat) (h : k < 10) : (Nat.digitChar k).toNat - 48 = k := by
  interval_cases k <;> rfl

theorem isDigit_not_space (c : Char) (h : c.isDigit = true) : isSpace c = false := by
  have h1 : 48 ≤ c.toNat ∧ c.toNat ≤ 57 := by
    simp only [Char.isDigit, Bool.and_eq_true, decide_eq_true_eq] at h
    exact ⟨h.1, h.2⟩
  simp only [isSpace, Bool.or_eq_false_iff, Bool.and_eq_false_iff, beq_eq_false_iff_ne, ne_eq,
    decide_eq_false_iff_not]
  omega

theorem isDigit_ne_of_not_digit (c x : Char) (h : c.isDigit = true) (hx : x.isDigit = false) :
    c ≠ x := by
  rintro rfl
  rw [h] at hx
  exact Bool.noConfusion hx

theorem decValue_concat (ds : List Char) (c : Char) :
    decValue (ds ++ [c]) = 10 * decValue ds + (c.toNat - 48) := by
  simp [decValue, List.foldl_append]

theorem toDigits_ne_nil (n : Nat) : Nat.toDigits 10 n ≠ [] := by
  by_cases h : n < 10
  · rw [toDigits_small n h]; simp
  · rw [toDigits_large n (by omega)]; simp

theorem toDigits_all_digit (n : Nat) : ∀ c ∈ Nat.toDigits 10 n, c.isDigit = true := by
  induction n using Nat.strong_induction_on with
  | _ n ih =>
    by_cases h : n < 10
    · rw [toDigits_small n h]
      intro c hc
      rw [List.mem_singleton] at hc
      subst hc
      exact digitChar_isDigit n h
    · rw [toDigits_large n (by omega)]
      intro c hc
      rcases List.mem_append.mp hc with hc | hc
      · exact ih (n / 10) (Nat.div_lt_self (by omega) (by decide)) c hc
      · rw [List.mem_singleton] at hc
        subst hc
        exact digitChar_isDigit _ (Nat.mod_lt _ (by decide))

theorem decValue_toDigits (n : Nat) : decValue (Nat.toDigits 10 n) = n := by
  induction n using Nat.strong_induction_on with
  | _ n ih =>
    by_cases h : n < 10
    · rw [toDigits_small n h]
      simp [decValue, digitChar_value n h]
    · rw [toDigits_large n (by omega), decValue_concat,
        ih (n / 10) (Nat.div_lt_self (by omega) (by decide)),
        digitChar_value _ (Nat.mod_lt _ (by decide))]
      omega

theorem intToDec_chars (v : Int) : ∀ c ∈ intToDec v, isNumberChar c = true := by
  intro c hc
  unfold intToDec at hc
  split at hc
  · rcases List.mem_cons.mp hc with hc | hc
    · subst hc; rfl
    · simp [isNumberChar, toDigits_all_digit _ c hc]
  · simp [isNumberChar, toDigits_all_digit _ c hc]

theorem isNumberChar_not_space (c : Char) (h : isNumberChar c = true) : isSpace c = false := by
  simp only [isNumberChar, Bool.or_eq_true, beq_iff_eq] at h
  rcases h with h | h
  · exact isDigit_not_space c h
  · subst h; rfl

theorem isNumberChar_ne_colon (c : Char) (h : isNumberChar c = true) : c ≠ ':' := by
  rintro rfl; exact Bool.noConfusion h

theorem isNumberChar_ne_semicolon (c : Char) (h : isNumberChar c = true) : c ≠ ';' := by
  rintro rfl; exact Bool.noConfusion h

theorem isNumberChar_ne_newline (c : Char) (h : isNumberChar c = true) : c ≠ '\n' := by
  rintro rfl; exact Bool.noConfusion h

theorem intToDec_ne_nil (v : Int) : intToDec v ≠ [] := by
  unfold intToDec
  split
  · simp
  · exact toDigits_ne_nil _

/-! ## Trimming -/

theorem trimmed_of_no_space_ends (s : List Char)
    (h1 : ∀ c, s.head? = some c → isSpace c = false)
    (h2 : ∀ c, s.getLast? = some c → isSpace c = false) : trimmed s = s := by
  unfold trimmed
  have hd : s.dropWhile isSpace = s := by
    cases s with
    | nil => rfl
    | cons a s =>
      have := h1 a rfl
      simp [List.dropWhile_cons, this]
  rw [hd]
  rcases List.eq_nil_or_concat s with h | ⟨l, b, h⟩
  · subst h; rfl
  · subst h
    have := h2 b (by simp)
    rw [List.concat_eq_append, List.rdropWhile_concat_neg isSpace l b (by simp [this])]

theorem trimmed_all_of_no_space (s : List Char) (h : ∀ c ∈ s, isSpace c = false) :
    trimmed s = s := by
  apply trimmed_of_no_space_ends
  · intro c hc
    exact h c (List.mem_of_mem_head? hc)
  · intro c hc
    exact h c (List.mem_of_mem_getLast? hc)

theorem dropWhile_space_append (p s : List Char) (hp : ∀ c ∈ p, isSpace c = true) :
    (p ++ s).dropWhile isSpace = s.dropWhile isSpace := by
  induction p with
  | nil => rfl
  | cons a p ih =>
    have ha := hp a (List.mem_cons_self _ _)
    rw [List.cons_append, List.dropWhile_cons_of_pos ha]
    exact ih (fun c hc => hp c (List.mem_cons_of_mem _ hc))

theorem rdropWhile_space_append (s q : List Char) (hq : ∀ c ∈ q, isSpace c = true) :
    (s ++ q).rdropWhile isSpace = s.rdropWhile isSpace := by
  induction q using List.reverseRecOn with
  | nil => simp
  | append_singleton q a ih =>
    have ha := hq a (by simp)
    rw [← List.append_assoc, List.rdropWhile_concat_pos _ _ _ ha]
    exact ih (fun c hc => hq c (by simp [hc]))

theorem dropWhile_all_space (p : List Char) (hp : ∀ c ∈ p, isSpace c = true) :
    p.dropWhile isSpace = [] := by
  rw [List.dropWhile_eq_nil_iff]; exact hp

/-- Blanks around a text do not change what `trimmed` returns. -/
theorem trimmed_pad (p s q : List Char) (hp : ∀ c ∈ p, isSpace c = true)
    (hq : ∀ c ∈ q, isSpace c = true) : trimmed (p ++ s ++ q) = trimmed s := by
  unfold trimmed
  rw [List.append_assoc, dropWhile_space_append p _ hp]
  by_cases hs : s.dropWhile isSpace = []
  · have h3 : ∀ c ∈ s ++ q, isSpace c = true := by
      intro c hc
      rcases List.mem_append.mp hc with hc | hc
      · exact (List.dropWhile_eq_nil_iff.mp hs) c hc
      · exact hq c hc
    rw [dropWhile_all_space _ h3, hs]
  · rw [List.dropWhile_append, if_neg (by simpa using hs)]
    exact rdropWhile_space_append _ q hq

theorem trimmed_trimmed (s : List Char) : trimmed (trimmed s) = trimmed s := by
  apply trimmed_of_no_space_ends
  · intro c hc
    unfold trimmed at hc
    by_contra hsp
    have hsp2 : isSpace c = true := by simpa using hsp
    -- the head of the result is the head of `s.dropWhile isSpace`
    rcases hd : s.dropWhile isSpace with _ | ⟨a, l⟩
    · rw [hd] at hc; simp at hc
    · have ha : isSpace a = false := by
        have := List.head_dropWhile_not isSpace s (by rw [hd]; simp)
        simpa [hd] using this
      rw [hd] at hc
      have hpre : (List.rdropWhile isSpace (a :: l)).head? = some c := hc
      have hpf := List.rdropWhile_prefix isSpace (a :: l)
      obtain ⟨t, ht⟩ := hpf
      rcases hr : List.rdropWhile isSpace (a :: l) with _ | ⟨b, m⟩
      · rw [hr] at hpre; simp at hpre
      · rw [hr] at hpre ht
        simp at hpre ht
        rw [← hpre, ht.1, ha] at hsp2
        exact Bool.noConfusion hsp2
  · intro c hc
    unfold trimmed at hc
    by_contra hsp
    have hsp2 : isSpace c = true := by simpa using hsp
    have hne : List.rdropWhile isSpace (s.dropWhile isSpace) ≠ [] := by
      intro h; rw [h] at hc; simp at hc
    have := List.rdropWhile_last_not isSpace (s.dropWhile isSpace) hne
    rw [List.getLast?_eq_getLast _ hne] at hc
    simp only [Option.some.injEq] at hc
    rw [hc] at this
    exact this hsp2

theorem trimmed_nil : trimmed [] = [] := rfl

/-! ## `toInt` on written numbers -/

theorem toInt_intToDec (n : CInt) : toInt (intToDec n.val) = n := by
  have htrim : trimmed (intToDec n.val) = intToDec n.val :=
    trimmed_all_of_no_space _ (fun c hc => isNumberChar_not_space c (intToDec_chars _ c hc))
  unfold toInt
  simp only [htrim]
  unfold intToDec
  by_cases hneg : n.val < 0
  · simp only [hneg, if_true, List.head?_cons, true_or, List.tail_cons]
    have h1 : Nat.toDigits 10 n.val.natAbs ≠ [] ∧
        (Nat.toDigits 10 n.val.natAbs).all Char.isDigit = true :=
      ⟨toDigits_ne_nil _, by rw [List.all_eq_true]; exact toDigits_all_digit _⟩
    rw [if_pos h1, decValue_toDigits]
    have h2 : -((n.val.natAbs : Nat) : Int) = n.val := by omega
    rw [h2]
    unfold CInt.ofInt
    rw [dif_pos n.inRange]
  · simp only [hneg, if_false]
    have hd := toDigits_all_digit n.val.natAbs
    have hne := toDigits_ne_nil n.val.natAbs
    have hh : (Nat.toDigits 10 n.val.natAbs).head? ≠ some '-' ∧
        (Nat.toDigits 10 n.val.natAbs).head? ≠ some '+' := by
      constructor
      · intro h
        have := hd _ (List.mem_of_mem_head? h)
        exact Bool.noConfusion this
      · intro h
        have := hd _ (List.mem_of_mem_head? h)
        exact Bool.noConfusion this
    simp only [hh.1, hh.2, or_self, if_false]
    have h1 : Nat.toDigits 10 n.val.natAbs ≠ [] ∧
        (Nat.toDigits 10 n.val.natAbs).all Char.isDigit = true :=
      ⟨hne, by rw [List.all_eq_true]; exact hd⟩
    rw [if_pos h1, decValue_toDigits]
    have h2 : ((n.val.natAbs : Nat) : Int) = n.val := by omega
    rw [h2]
    unfold CInt.ofInt
    rw [dif_pos n.inRange]

/-! ## Lines as the writer lays them out -/

theorem takeWhile_ne_append_of_mem (a b : List Char) (ch : Char) (h : ch ∈ a) :
    (a ++ b).takeWhile (fun c => c != ch) = a.takeWhile (fun c => c != ch) := by
  induction a with
  | nil => simp at h
  | cons x a ih =>
    by_cases hx : x = ch
    · subst hx
      rw [List.cons_append, takeWhile_ne_cons_self, takeWhile_ne_cons_self]
    · have h2 : ch ∈ a := by
        rcases List.mem_cons.mp h with h1 | h1
        · exact absurd h1.symm hx
        · exact h1
      rw [List.cons_append, takeWhile_ne_cons _ _ _ hx, takeWhile_ne_cons _ _ _ hx, ih h2]

theorem takeWhile_ne_append_of_not_mem (a b : List Char) (ch : Char) (h : ch ∉ a) :
    (a ++ b).takeWhile (fun c => c != ch) = a ++ b.takeWhile (fun c => c != ch) := by
  induction a with
  | nil => rfl
  | cons x a ih =>
    have hx : x ≠ ch := fun e => h (by simp [e])
    have h2 : ch ∉ a := fun e => h (List.mem_cons_of_mem _ e)
    rw [List.cons_append, takeWhile_ne_cons _ _ _ hx, ih h2, List.cons_append]

theorem dropWhile_ne_append_of_mem (a b : List Char) (ch : Char) (h : ch ∈ a) :
    (a ++ b).dropWhile (fun c => c != ch) = a.dropWhile (fun c => c != ch) ++ b := by
  induction a with
  | nil => simp at h
  | cons x a ih =>
    by_cases hx : x = ch
    · subst hx
      rw [List.cons_append, dropWhile_ne_cons_self, dropWhile_ne_cons_self, List.cons_append]
    · have h2 : ch ∈ a := by
        rcases List.mem_cons.mp h with h1 | h1
        · exact absurd h1.symm hx
        · exact h1
      rw [List.cons_append, dropWhile_ne_cons _ _ _ hx, dropWhile_ne_cons _ _ _ hx, ih h2]

theorem dropWhile_ne_of_mem (a : List Char) (ch : Char) (h : ch ∈ a) :
    ∃ t, a.dropWhile (fun c => c != ch) = ch :: t := by
  induction a with
  | nil => simp at h
  | cons x a ih =>
    by_cases hx : x = ch
    · subst hx
      exact ⟨a, dropWhile_ne_cons_self _ _⟩
    · have h2 : ch ∈ a := by
        rcases List.mem_cons.mp h with h1 | h1
        · exact absurd h1.symm hx
        · exact h1
      rw [dropWhile_ne_cons _ _ _ hx]
      exact ih h2

theorem takeWhile_ne_not_mem (a : List Char) (ch : Char) :
    ch ∉ a.takeWhile (fun c => c != ch) := by
  intro h
  have := List.mem_takeWhile_imp h
  simp at this

theorem mem_of_mem_takeWhile (p : Char → Bool) (a : List Char) (x : Char)
    (h : x ∈ a.takeWhile p) : x ∈ a :=
  (List.takeWhile_sublist p).subset h

/-- The text of a value followed by the ` ;` of the trailing comment is read back
as `reread` of the value. -/
theorem trimmed_value_region (value rest : List Char) :
    trimmed (((value ++ ' ' :: ';' :: rest).takeWhile (fun c => c != ';')).takeWhile
      (fun c => c != ':')) = reread value := by
  unfold reread
  by_cases h1 : ';' ∈ value
  · rw [takeWhile_ne_append_of_mem _ _ _ h1]
  · rw [takeWhile_ne_append_of_not_mem _ _ _ h1, takeWhile_ne_of_not_mem value ';' h1]
    have h3 : (' ' :: ';' :: rest).takeWhile (fun c => c != ';') = [' '] := by
      rw [takeWhile_ne_cons _ _ _ (by decide), takeWhile_ne_cons_self]
    rw [h3]
    by_cases h2 : ':' ∈ value
    · rw [takeWhile_ne_append_of_mem _ _ _ h2]
    · rw [takeWhile_ne_append_of_not_mem _ _ _ h2, takeWhile_ne_of_not_mem value ':' h2]
      have h4 : [' '].takeWhile (fun c => c != ':') = [' '] := by decide
      rw [h4]
      have := trimmed_pad [] value [' '] (by simp) (by intro c hc; simp at hc; subst hc; rfl)
      simpa using this

theorem isCommentSuffix_eq (cmt : List Char) (h : isCommentSuffix cmt = true) :
    ∃ rest, cmt = ' ' :: ';' :: rest := by
  unfold isCommentSuffix at h
  rcases cmt with _ | ⟨a, _ | ⟨b, rest⟩⟩
  · simp at h
  · simp at h
  · simp at h
    exact ⟨rest, by rw [h.1, h.2]⟩

/-- A line `key: value ; comment` as the writer produces it, for an arbitrary
text `value` right-justified by blanks: the key is read back exactly, and the
value as `reread value`. -/
theorem written_line (pre key cmt value pad : List Char)
    (hpre : isKeyPrefix pre key = true) (hcmt : isCommentSuffix cmt = true)
    (hpad : ∀ c ∈ pad, c = ' ') :
    isKeyValue (pre ++ (pad ++ value) ++ cmt) = true ∧
    nameOf (pre ++ (pad ++ value) ++ cmt) = key ∧
    resultOf (pre ++ (pad ++ value) ++ cmt) = reread value := by
  obtain ⟨rest, rfl⟩ := isCommentSuffix_eq cmt hcmt
  simp only [isKeyPrefix, Bool.and_eq_true, decide_eq_true_eq, Bool.not_eq_true',
    decide_eq_false_iff_not, List.all_eq_true, bne_iff_ne, ne_eq] at hpre
  obtain ⟨⟨⟨hc, hs⟩, hk⟩, hsp⟩ := hpre
  have hstrip : stripComment (pre ++ (pad ++ value) ++ ' ' :: ';' :: rest) =
      pre ++ (pad ++ (value ++ ' ' :: ';' :: rest).takeWhile (fun c => c != ';')) := by
    unfold stripComment
    rw [List.append_assoc, takeWhile_ne_append_of_not_mem _ _ _ hs, List.append_assoc,
      takeWhile_ne_append_of_not_mem _ _ _ (fun h => by have := hpad _ h; simp at this)]
  refine ⟨?_, ?_, ?_⟩
  · unfold isKeyValue
    rw [hstrip]
    simp [hc]
  · unfold nameOf
    rw [hstrip, takeWhile_ne_append_of_mem _ _ _ hc, hk]
  · unfold resultOf
    rw [hstrip, dropWhile_ne_append_of_mem _ _ _ hc]
    obtain ⟨t, ht⟩ := dropWhile_ne_of_mem pre ':' hc
    rw [ht] at hsp ⊢
    simp only [List.cons_append, List.tail_cons] at hsp ⊢
    have ht1 : ':' ∉ t := fun h => (hsp _ h).1.2 rfl
    have hp1 : ':' ∉ pad := fun h => by have := hpad _ h; simp at this
    rw [takeWhile_ne_append_of_not_mem _ _ _ ht1, takeWhile_ne_append_of_not_mem _ _ _ hp1]
    rw [← List.append_assoc]
    have hb : ∀ c ∈ t ++ pad, isSpace c = true := by
      intro c hc2
      rcases List.mem_append.mp hc2 with h | h
      · exact (hsp c h).1.1
      · rw [hpad c h]; rfl
    have := trimmed_pad (t ++ pad) (((value ++ ' ' :: ';' :: rest).takeWhile
      (fun c => c != ';')).takeWhile (fun c => c != ':')) [] hb (by simp)
    rw [List.append_nil] at this
    rw [this, trimmed_value_region]

theorem processLine_written (c : Configuration) (pre key cmt value pad : List Char)
    (hpre : isKeyPrefix pre key = true) (hcmt : isCommentSuffix cmt = true)
    (hpad : ∀ c ∈ pad, c = ' ') :
    processLine c (pre ++ (pad ++ value) ++ cmt) =
      dispatch c key (reread value) (toInt (reread value)) := by
  obtain ⟨h1, h2, h3⟩ := written_line pre key cmt value pad hpre hcmt hpad
  rw [processLine_eq, h1, if_pos rfl, h2, h3]

theorem reread_of_clean (s : List Char) (h1 : ';' ∉ s) (h2 : ':' ∉ s) (h3 : trimmed s = s) :
    reread s = s := by
  unfold reread
  rw [takeWhile_ne_of_not_mem s ';' h1, takeWhile_ne_of_not_mem s ':' h2, h3]

theorem reread_intToDec (v : Int) : reread (intToDec v) = intToDec v := by
  apply reread_of_clean
  · intro h; exact isNumberChar_ne_semicolon _ (intToDec_chars v _ h) rfl
  · intro h; exact isNumberChar_ne_colon _ (intToDec_chars v _ h) rfl
  · exact trimmed_all_of_no_space _ (fun c hc => isNumberChar_not_space c (intToDec_chars _ c hc))

/-- A line written with `rightJustified`, for a text value. -/
theorem processLine_text (c : Configuration) (pre key cmt value : List Char)
    (hpre : isKeyPrefix pre key = true) (hcmt : isCommentSuffix cmt = true) :
    processLine c (pre ++ rightJustified value 5 ++ cmt) =
      dispatch c key (reread value) (toInt (reread value)) := by
  unfold rightJustified
  exact processLine_written c pre key cmt value _ hpre hcmt
    (fun x hx => (List.mem_replicate.mp hx).2)

/-- A line written with `arg`, for an integer value: the value is read back. -/
theorem processLine_arg (c : Configuration) (pre key cmt : List Char) (v : CInt)
    (hpre : isKeyPrefix pre key = true) (hcmt : isCommentSuffix cmt = true) :
    processLine c (pre ++ arg v 5 ++ cmt) = dispatch c key (intToDec v.val) v := by
  unfold arg
  rw [processLine_text c pre key cmt _ hpre hcmt, reread_intToDec, toInt_intToDec]

theorem processLine_skip (c : Configuration) (line : List Char) (h : isKeyValue line = false) :
    processLine c line = some c := by
  rw [processLine_eq, h]; rfl

theorem loadLines_append (c : Configuration) (a b : List (List Char)) :
    loadLines c (a ++ b) = (loadLines c a).bind (fun c1 => loadLines c1 b) := by
  induction a generalizing c with
  | nil => rfl
  | cons l a ih =>
    simp only [List.cons_append, loadLines]
    cases processLine c l with
    | none => rfl
    | some c1 => simp [ih]

theorem loadLines_cons_skip (c : Configuration) (l : List Char) (ls : List (List Char))
    (h : isKeyValue l = false) : loadLines c (l :: ls) = loadLines c ls := by
  simp [loadLines, processLine_skip c l h]

theorem loadLines_cons_some (c c1 : Configuration) (l : List Char) (ls : List (List Char))
    (h : processLine c l = some c1) : loadLines c (l :: ls) = loadLines c1 ls := by
  simp [loadLines, h]

/-! ## Reading back the lines of the writer -/

theorem intToBool_boolToInt (b : Bool) : intToBool (boolToInt b) = b := by
  cases b <;> rfl

theorem load_Config_Name (c : Configuration) (s : List Char) (ls : List (List Char)) :
    loadLines c (("Config_Name:  ".toList ++ rightJustified s 5 ++ " ; Configuration name".toList) :: ls) =
      loadLines { c with configName := reread s } ls := by
  have h := processLine_text c "Config_Name:  ".toList "Config_Name".toList " ; Configuration name".toList s
    (by decide) (by decide)
  rw [dispatch_Config_Name] at h
  exact loadLines_cons_some _ _ _ _ h

theorem load_Config_Description (c : Configuration) (s : List Char) (ls : List (List Char)) :
    loadLines c (("Config_Description:  ".toList ++ rightJustified s 5 ++ " ; Configuration Description".toList) :: ls) =
      loadLines { c with configDescription := reread s } ls := by
  have h := processLine_text c "Config_Description:  ".toList "Config_Description".toList " ; Configuration Description".toList s
    (by decide) (by decide)
  rw [dispatch_Config_Description] at h
  exact loadLines_cons_some _ _ _ _ h

theorem load_Config_Kind (c : Configuration) (s : List Char) (ls : List (List Char)) :
    loadLines c (("Config_Kind:  ".toList ++ rightJustified s 5 ++ " ; Configuration kind. Allows to group configuration files together".toList) :: ls) =
      loadLines { c with configKind := reread s } ls := by
  have h := processLine_text c "Config_Kind:  ".toList "Config_Kind".toList " ; Configuration kind. Allows to group configuration files together".toList s
    (by decide) (by decide)
  rw [dispatch_Config_Kind] at h
  exact loadLines_cons_some _ _ _ _ h

theorem load_Model (c : Configuration) (v : CInt) (ls : List (List Char)) :
    loadLines c (("Model:      ".toList ++ arg v 5 ++ " ; Dynamic model".toList) :: ls) =
      loadLines { c with model := v } ls := by
  have h := processLine_arg c "Model:      ".toList "Model".toList " ; Dynamic model".toList v
    (by decide) (by decide)
  rw [dispatch_Model] at h
  exact loadLines_cons_some _ _ _ _ h

theorem load_Rate (c : Configuration) (v : CInt) (ls : List (List Char)) :
    loadLines c (("Rate:       ".toList ++ arg v 5 ++ " ; Measurement rate (ms)".toList) :: ls) =
      loadLines { c with rate := v } ls := by
  have h := processLine_arg c "Rate:       ".toList "Rate".toList " ; Measurement rate (ms)".toList v
    (by decide) (by decide)
  rw [dispatch_Rate] at h
  exact loadLines_cons_some _ _ _ _ h

theorem load_Mode (c : Configuration) (v : CInt) (ls : List (List Char)) :
    loadLines c (("Mode:       ".toList ++ arg v 5 ++ " ; Measurement mode".toList) :: ls) =
      loadLines { c with toneMode := v } ls := by
  have h := processLine_arg c "Mode:       ".toList "Mode".toList " ; Measurement mode".toList v
    (by decide) (by decide)
  rw [dispatch_Mode] at h
  exact loadLines_cons_some _ _ _ _ h

theorem load_Min (c : Configuration) (v : CInt) (ls : List (List Char)) :
    loadLines c (("Min:        ".toList ++ arg v 5 ++ " ; Lowest pitch value".toList) :: ls) =
      loadLines { c with minTone := v } ls := by
  have h := processLine_arg c "Min:        ".toList "Min".toList " ; Lowest pitch value".toList v
    (by decide) (by decide)
  rw [dispatch_Min] at h
  exact loadLines_cons_some _ _ _ _ h

theorem load_Max (c : Configuration) (v : CInt) (ls : List (List Char)) :
    loadLines c (("Max:        ".toList ++ arg v 5 ++ " ; Highest pitch value".toList) :: ls) =
      loadLines { c with maxTone := v } ls := by
  have h := processLine_arg c "Max:        ".toList "Max".toList " ; Highest pitch value".toList v
    (by decide) (by decide)
  rw [dispatch_Max] at h
  exact loadLines_cons_some _ _ _ _ h

theorem load_Limits (c : Configuration) (v : CInt) (ls : List (List Char)) :
    loadLines c (("Limits:     ".toList ++ arg v 5 ++ " ; Behaviour when outside bounds".toList) :: ls) =
      loadLines { c with limits := v } ls := by
  have h := processLine_arg c "Limits:     ".toList "Limits".toList " ; Behaviour when outside bounds".toList v
    (by decide) (by decide)
  rw [dispatch_Limits] at h
  exact loadLines_cons_some _ _ _ _ h

theorem load_Volume (c : Configuration) (v : CInt) (ls : List (List Char)) :
    loadLines c (("Volume:     ".toList ++ arg v 5 ++ " ; 0 (min) to 8 (max)".toList) :: ls) =
      loadLines { c with toneVolume := v } ls := by
  have h := processLine_arg c "Volume:     ".toList "Volume".toList " ; 0 (min) to 8 (max)".toList v
    (by decide) (by decide)
  rw [dispatch_Volume] at h
  exact loadLines_cons_some _ _ _ _ h

theorem load_Mode_2 (c : Configuration) (v : CInt) (ls : List (List Char)) :
    loadLines c (("Mode_2:     ".toList ++ arg v 5 ++ " ; Determines tone rate".toList) :: ls) =
      loadLines { c with rateMode := v } ls := by
  have h := processLine_arg c "Mode_2:     ".toList "Mode_2".toList " ; Determines tone rate".toList v
    (by decide) (by decide)
  rw [dispatch_Mode_2] at h
  exact loadLines_cons_some _ _ _ _ h

theorem load_Min_Val_2 (c : Configuration) (v : CInt) (ls : List (List Char)) :
    loadLines c (("Min_Val_2:  ".toList ++ arg v 5 ++ " ; Lowest rate value".toList) :: ls) =
      loadLines { c with minRateValue := v } ls := by
  have h := processLine_arg c "Min_Val_2:  ".toList "Min_Val_2".toList " ; Lowest rate value".toList v
    (by decide) (by decide)
  rw [dispatch_Min_Val_2] at h
  exact loadLines_cons_some _ _ _ _ h

theorem load_Max_Val_2 (c : Configuration) (v : CInt) (ls : List (List Char)) :
    loadLines c (("Max_Val_2:  ".toList ++ arg v 5 ++ " ; Highest rate value".toList) :: ls) =
      loadLines { c with maxRateValue := v } ls := by
  have h := processLine_arg c "Max_Val_2:  ".toList "Max_Val_2".toList " ; Highest rate value".toList v
    (by decide) (by decide)
  rw [dispatch_Max_Val_2] at h
  exact loadLines_cons_some _ _ _ _ h

theorem load_Min_Rate (c : Configuration) (v : CInt) (ls : List (List Char)) :
    loadLines c (("Min_Rate:   ".toList ++ arg v 5 ++ " ; Minimum rate (Hz * 100)".toList) :: ls) =
      loadLines { c with minRate := v } ls := by
  have h := processLine_arg c "Min_Rate:   ".toList "Min_Rate".toList " ; Minimum rate (Hz * 100)".toList v
    (by decide) (by decide)
  rw [dispatch_Min_Rate] at h
  exact loadLines_cons_some _ _ _ _ h

theorem load_Max_Rate (c : Configuration) (v : CInt) (ls : List (List Char)) :
    loadLines c (("Max_Rate:   ".toList ++ arg v 5 ++ " ; Maximum rate (Hz * 100)".toList) :: ls) =
      loadLines { c with maxRate := v } ls := by
  have h := processLine_arg c "Max_Rate:   ".toList "Max_Rate".toList " ; Maximum rate (Hz * 100)".toList v
    (by decide) (by decide)
  rw [dispatch_Max_Rate] at h
  exact loadLines_cons_some _ _ _ _ h

theorem load_Flatline (c : Configuration) (b : Bool) (ls : List (List Char)) :
    loadLines c (("Flatline:   ".toList ++ arg (boolToInt b) 5 ++ " ; Flatline at minimum rate".toList) :: ls) =
      loadLines { c with flatline := b } ls := by
  have h := processLine_arg c "Flatline:   ".toList "Flatline".toList " ; Flatline at minimum rate".toList (boolToInt b)
    (by decide) (by decide)
  rw [dispatch_Flatline, intToBool_boolToInt] at h
  exact loadLines_cons_some _ _ _ _ h

theorem load_Sp_Rate (c : Configuration) (v : CInt) (ls : List (List Char)) :
    loadLines c (("Sp_Rate:    ".toList ++ arg v 5 ++ " ; Speech rate (s)".toList) :: ls) =
      loadLines { c with speechRate := v } ls := by
  have h := processLine_arg c "Sp_Rate:    ".toList "Sp_Rate".toList " ; Speech rate (s)".toList v
    (by decide) (by decide)
  rw [dispatch_Sp_Rate] at h
  exact loadLines_cons_some _ _ _ _ h

theorem load_Sp_Volume (c : Configuration) (v : CInt) (ls : List (List Char)) :
    loadLines c (("Sp_Volume:  ".toList ++ arg v 5 ++ " ; 0 (min) to 8 (max)".toList) :: ls) =
      loadLines { c with speechVolume := v } ls := by
  have h := processLine_arg c "Sp_Volume:  ".toList "Sp_Volume".toList " ; 0 (min) to 8 (max)".toList v
    (by decide) (by decide)
  rw [dispatch_Sp_Volume] at h
  exact loadLines_cons_some _ _ _ _ h

theorem load_V_Thresh (c : Configuration) (v : CInt) (ls : List (List Char)) :
    loadLines c (("V_Thresh:   ".toList ++ arg v 5 ++ " ; Minimum vertical speed for tone (cm/s)".toList) :: ls) =
      loadLines { c with vThreshold := v } ls := by
  have h := processLine_arg c "V_Thresh:   ".toList "V_Thresh".toList " ; Minimum vertical speed for tone (cm/s)".toList v
    (by decide) (by decide)
  rw [dispatch_V_Thresh] at h
  exact loadLines_cons_some _ _ _ _ h

theorem load_H_Thresh (c : Configuration) (v : CInt) (ls : List (List Char)) :
    loadLines c (("H_Thresh:   ".toList ++ arg v 5 ++ " ; Minimum horizontal speed for tone (cm/s)".toList) :: ls) =
      loadLines { c with hThreshold := v } ls := by
  have h := processLine_arg c "H_Thresh:   ".toList "H_Thresh".toList " ; Minimum horizontal speed for tone (cm/s)".toList v
    (by decide) (by decide)
  rw [dispatch_H_Thresh] at h
  exact loadLines_cons_some _ _ _ _ h

theorem load_Use_SAS (c : Configuration) (b : Bool) (ls : List (List Char)) :
    loadLines c (("Use_SAS:    ".toList ++ arg (boolToInt b) 5 ++ " ; Use skydiver's airspeed".toList) :: ls) =
      loadLines { c with adjustSpeed := b } ls := by
  have h := processLine_arg c "Use_SAS:    ".toList "Use_SAS".toList " ; Use skydiver's airspeed".toList (boolToInt b)
    (by decide) (by decide)
  rw [dispatch_Use_SAS, intToBool_boolToInt] at h
  exact loadLines_cons_some _ _ _ _ h

theorem load_TZ_Offset (c : Configuration) (v : CInt) (ls : List (List Char)) :
    loadLines c (("TZ_Offset:  ".toList ++ arg v 5 ++ " ; Timezone offset of output files in seconds".toList) :: ls) =
      loadLines { c with timeZoneOffset := v } ls := by
  have h := processLine_arg c "TZ_Offset:  ".toList "TZ_Offset".toList " ; Timezone offset of output files in seconds".toList v
    (by decide) (by decide)
  rw [dispatch_TZ_Offset] at h
  exact loadLines_cons_some _ _ _ _ h

theorem load_Init_Mode (c : Configuration) (v : CInt) (ls : List (List Char)) :
    loadLines c (("Init_Mode:  ".toList ++ arg v 5 ++ " ; When the FlySight is powered on".toList) :: ls) =
      loadLines { c with initMode := v } ls := by
  have h := processLine_arg c "Init_Mode:  ".toList "Init_Mode".toList " ; When the FlySight is powered on".toList v
    (by decide) (by decide)
  rw [dispatch_Init_Mode] at h
  exact loadLines_cons_some _ _ _ _ h

theorem load_Init_File (c : Configuration) (s : List Char) (ls : List (List Char)) :
    loadLines c (("Init_File:  ".toList ++ rightJustified s 5 ++ " ; File to be played".toList) :: ls) =
      loadLines { c with initFile := reread s } ls := by
  have h := processLine_text c "Init_File:  ".toList "Init_File".toList " ; File to be played".toList s
    (by decide) (by decide)
  rw [dispatch_Init_File] at h
  exact loadLines_cons_some _ _ _ _ h

theorem load_Window (c : Configuration) (v : CInt) (ls : List (List Char)) :
    loadLines c (("Window:     ".toList ++ arg v 5 ++ " ; Alarm window (m)".toList) :: ls) =
      loadLines { c with alarmWindowAbove := v, alarmWindowBelow := v } ls := by
  have h := processLine_arg c "Window:     ".toList "Window".toList " ; Alarm window (m)".toList v
    (by decide) (by decide)
  rw [dispatch_Window] at h
  exact loadLines_cons_some _ _ _ _ h

theorem load_Win_Above (c : Configuration) (v : CInt) (ls : List (List Char)) :
    loadLines c (("Win_Above:  ".toList ++ arg v 5 ++ " ; Alarm window (m)".toList) :: ls) =
      loadLines { c with alarmWindowAbove := v } ls := by
  have h := processLine_arg c "Win_Above:  ".toList "Win_Above".toList " ; Alarm window (m)".toList v
    (by decide) (by decide)
  rw [dispatch_Win_Above] at h
  exact loadLines_cons_some _ _ _ _ h

theorem load_Win_Below (c : Configuration) (v : CInt) (ls : List (List Char)) :
    loadLines c (("Win_Below:  ".toList ++ arg v 5 ++ " ; Alarm window (m)".toList) :: ls) =
      loadLines { c with alarmWindowBelow := v } ls := by
  have h := processLine_arg c "Win_Below:  ".toList "Win_Below".toList " ; Alarm window (m)".toList v
    (by decide) (by decide)
  rw [dispatch_Win_Below] at h
  exact loadLines_cons_some _ _ _ _ h

theorem load_DZ_Elev (c : Configuration) (v : CInt) (ls : List (List Char)) :
    loadLines c (("DZ_Elev:    ".toList ++ arg v 5 ++ " ; Ground elevation (m above sea level)".toList) :: ls) =
      loadLines { c with groundElevation := v } ls := by
  have h := processLine_arg c "DZ_Elev:    ".toList "DZ_Elev".toList " ; Ground elevation (m above sea level)".toList v
    (by decide) (by decide)
  rw [dispatch_DZ_Elev] at h
  exact loadLines_cons_some _ _ _ _ h

theorem load_Alt_Units (c : Configuration) (v : CInt) (ls : List (List Char)) :
    loadLines c (("Alt_Units:  ".toList ++ arg v 5 ++ " ; Altitude units".toList) :: ls) =
      loadLines { c with altitudeUnits := v } ls := by
  have h := processLine_arg c "Alt_Units:  ".toList "Alt_Units".toList " ; Altitude units".toList v
    (by decide) (by decide)
  rw [dispatch_Alt_Units] at h
  exact loadLines_cons_some _ _ _ _ h

theorem load_Alt_Step (c : Configuration) (v : CInt) (ls : List (List Char)) :
    loadLines c (("Alt_Step:   ".toList ++ arg v 5 ++ " ; Altitude between announcements".toList) :: ls) =
      loadLines { c with altitudeStep := v } ls := by
  have h := processLine_arg c "Alt_Step:   ".toList "Alt_Step".toList " ; Altitude between announcements".toList v
    (by decide) (by decide)
  rw [dispatch_Alt_Step] at h
  exact loadLines_cons_some _ _ _ _ h

/-- Reading back the first part of the file sets the fields from the name to the speech
volume. -/
theorem load_saveGeneral (c C : Configuration) (ls : List (List Char)) :
    loadLines c (saveGeneral C ++ ls) =
      loadLines
        { c with
          configName := reread C.configName
          configDescription := reread C.configDescription
          configKind := reread C.configKind
          model := C.model
          rate := C.rate
          toneMode := C.toneMode
          minTone := C.minTone
          maxTone := C.maxTone
          limits := C.limits
          toneVolume := C.toneVolume
          rateMode := C.rateMode
          minRateValue := C.minRateValue
          maxRateValue := C.maxRateValue
          minRate := C.minRate
          maxRate := C.maxRate
          flatline := C.flatline
          speechRate := C.speechRate
          speechVolume := C.speechVolume }
        ls := by
  unfold saveGeneral
  simp (disch := decide) only [List.cons_append, List.nil_append, loadLines_cons_skip,
    load_Config_Name, load_Config_Description, load_Config_Kind, load_Model, load_Rate,
    load_Mode, load_Min, load_Max, load_Limits, load_Volume, load_Mode_2, load_Min_Val_2,
    load_Max_Val_2, load_Min_Rate, load_Max_Rate, load_Flatline, load_Sp_Rate,
    load_Sp_Volume]

/-- Reading back the middle part of the file sets the fields from the thresholds to the
ground elevation. -/
theorem load_saveThresholds (c C : Configuration) (ls : List (List Char)) :
    loadLines c (saveThresholds C ++ ls) =
      loadLines
        { c with
          vThreshold := C.vThreshold
          hThreshold := C.hThreshold
          adjustSpeed := C.adjustSpeed
          timeZoneOffset := C.timeZoneOffset
          initMode := C.initMode
          initFile := reread C.initFile
          alarmWindowAbove := C.alarmWindowAbove
          alarmWindowBelow := C.alarmWindowBelow
          groundElevation := C.groundElevation }
        ls := by
  unfold saveThresholds
  simp (disch := decide) only [List.cons_append, List.nil_append, loadLines_cons_skip,
    load_V_Thresh, load_H_Thresh, load_Use_SAS, load_TZ_Offset, load_Init_Mode,
    load_Init_File, load_Window, load_Win_Above, load_Win_Below, load_DZ_Elev]

/-- Reading back the altitude part of the file sets the two altitude fields. -/
theorem load_saveAltitude (c C : Configuration) (ls : List (List Char)) :
    loadLines c (saveAltitude C ++ ls) =
      loadLines
        { c with
          altitudeUnits := C.altitudeUnits
          altitudeStep := C.altitudeStep }
        ls := by
  unfold saveAltitude
  simp (disch := decide) only [List.cons_append, List.nil_append, loadLines_cons_skip,
    load_Alt_Units, load_Alt_Step]

/-! ## Reading back the blocks of the sequences -/

theorem load_Sp_Mode (c : Configuration) (v : CInt) (ls : List (List Char))
    (h : c.alarms.length < MAX_ALARMS) :
    loadLines c (("Sp_Mode:    ".toList ++ arg v 5 ++ " ; Speech mode".toList) :: ls) =
      loadLines { c with speeches := c.speeches ++
        [{ mode := v, units := Units.Miles, decimals := ⟨1, by decide⟩ }] } ls := by
  have h1 := processLine_arg c "Sp_Mode:    ".toList "Sp_Mode".toList " ; Speech mode".toList v
    (by decide) (by decide)
  rw [dispatch_Sp_Mode, if_pos h] at h1
  exact loadLines_cons_some _ _ _ _ h1

theorem load_Sp_Units (c : Configuration) (v : CInt) (ls : List (List Char))
    (ss : List Speech) (x : Speech) (h : c.speeches = ss ++ [x]) :
    loadLines c (("Sp_Units:   ".toList ++ arg v 5 ++ " ; Speech units".toList) :: ls) =
      loadLines { c with speeches := ss ++ [{ x with units := v }] } ls := by
  have h1 := processLine_arg c "Sp_Units:   ".toList "Sp_Units".toList " ; Speech units".toList v
    (by decide) (by decide)
  rw [dispatch_Sp_Units, h, modifyBack_concat] at h1
  exact loadLines_cons_some _ _ _ _ h1

theorem load_Sp_Dec (c : Configuration) (v : CInt) (ls : List (List Char))
    (ss : List Speech) (x : Speech) (h : c.speeches = ss ++ [x]) :
    loadLines c (("Sp_Dec:     ".toList ++ arg v 5 ++ " ; Speech precision".toList) :: ls) =
      loadLines { c with speeches := ss ++ [{ x with decimals := v }] } ls := by
  have h1 := processLine_arg c "Sp_Dec:     ".toList "Sp_Dec".toList
    " ; Speech precision".toList v (by decide) (by decide)
  rw [dispatch_Sp_Dec, h, modifyBack_concat] at h1
  exact loadLines_cons_some _ _ _ _ h1

/-- Reading back one speech block appends that speech, provided fewer than
`MAX_ALARMS` alarms exist at that point. -/
theorem load_saveSpeech (c : Configuration) (s : Speech) (first : Bool) (ls : List (List Char))
    (h : c.alarms.length < MAX_ALARMS) :
    loadLines c (saveSpeech s first ++ ls) =
      loadLines { c with speeches := c.speeches ++ [s] } ls := by
  unfold saveSpeech
  cases first
  · simp only [List.cons_append, List.nil_append, List.append_nil, if_false, Bool.false_eq_true]
    rw [load_Sp_Mode c _ _ h, load_Sp_Units _ _ _ c.speeches _ rfl,
      load_Sp_Dec _ _ _ c.speeches _ rfl, loadLines_cons_skip _ _ _ (by decide)]
  · simp only [List.cons_append, List.nil_append, List.append_nil, if_true]
    rw [load_Sp_Mode c _ _ h]
    simp (disch := decide) only [loadLines_cons_skip]
    rw [load_Sp_Units _ _ _ c.speeches _ rfl]
    simp (disch := decide) only [loadLines_cons_skip]
    rw [load_Sp_Dec _ _ _ c.speeches _ rfl]
    simp (disch := decide) only [loadLines_cons_skip]

theorem load_saveSpeeches (ss : List Speech) :
    ∀ (c : Configuration) (first : Bool) (ls : List (List Char)),
      c.alarms.length < MAX_ALARMS →
      loadLines c (saveSpeeches ss first ++ ls) =
        loadLines { c with speeches := c.speeches ++ ss } ls := by
  induction ss with
  | nil => intro c first ls _; simp [saveSpeeches]
  | cons s ss ih =>
    intro c first ls h
    rw [saveSpeeches, List.append_assoc, load_saveSpeech c s first _ h,
      ih { c with speeches := c.speeches ++ [s] } false ls h]
    simp

theorem load_Alarm_Elev (c : Configuration) (v : CInt) (ls : List (List Char))
    (h : c.alarms.length < MAX_ALARMS) :
    loadLines c (("Alarm_Elev: ".toList ++ arg v 5 ++
        " ; Alarm elevation (m above ground level)".toList) :: ls) =
      loadLines { c with alarms := c.alarms ++
        [{ elevation := v, mode := AlarmMode.NoAlarm, file := [] }] } ls := by
  have h1 := processLine_arg c "Alarm_Elev: ".toList "Alarm_Elev".toList
    " ; Alarm elevation (m above ground level)".toList v (by decide) (by decide)
  rw [dispatch_Alarm_Elev, if_pos h] at h1
  exact loadLines_cons_some _ _ _ _ h1

theorem load_Alarm_Type (c : Configuration) (v : CInt) (ls : List (List Char))
    (al : List Alarm) (x : Alarm) (h : c.alarms = al ++ [x]) :
    loadLines c (("Alarm_Type: ".toList ++ arg v 5 ++ " ; Alarm type".toList) :: ls) =
      loadLines { c with alarms := al ++ [{ x with mode := v }] } ls := by
  have h1 := processLine_arg c "Alarm_Type: ".toList "Alarm_Type".toList " ; Alarm type".toList v
    (by decide) (by decide)
  rw [dispatch_Alarm_Type, h, modifyBack_concat] at h1
  exact loadLines_cons_some _ _ _ _ h1

theorem load_Alarm_File (c : Configuration) (s : List Char) (ls : List (List Char))
    (al : List Alarm) (x : Alarm) (h : c.alarms = al ++ [x]) :
    loadLines c (("Alarm_File: ".toList ++ rightJustified s 5 ++
        " ; File to be played".toList) :: ls) =
      loadLines { c with alarms := al ++ [{ x with file := reread s }] } ls := by
  have h1 := processLine_text c "Alarm_File: ".toList "Alarm_File".toList
    " ; File to be played".toList s (by decide) (by decide)
  rw [dispatch_Alarm_File, h, modifyBack_concat] at h1
  exact loadLines_cons_some _ _ _ _ h1

/-- Reading back one alarm block appends that alarm, with its file name as
`reread` gives it, while fewer than `MAX_ALARMS` alarms exist. -/
theorem load_saveAlarm (c : Configuration) (a : Alarm) (first : Bool) (ls : List (List Char))
    (h : c.alarms.length < MAX_ALARMS) :
    loadLines c (saveAlarm a first ++ ls) =
      loadLines { c with alarms := c.alarms ++ [{ a with file := reread a.file }] } ls := by
  unfold saveAlarm
  cases first
  · simp only [List.cons_append, List.nil_append, List.append_nil, if_false, Bool.false_eq_true]
    rw [load_Alarm_Elev c _ _ h, load_Alarm_Type _ _ _ c.alarms _ rfl,
      load_Alarm_File _ _ _ c.alarms _ rfl, loadLines_cons_skip _ _ _ (by decide)]
  · simp only [List.cons_append, List.nil_append, List.append_nil, if_true]
    rw [load_Alarm_Elev c _ _ h, load_Alarm_Type _ _ _ c.alarms _ rfl]
    simp (disch := decide) only [loadLines_cons_skip]
    rw [load_Alarm_File _ _ _ c.alarms _ rfl]
    simp (disch := decide) only [loadLines_cons_skip]

theorem load_saveAlarms (al : List Alarm) :
    ∀ (c : Configuration) (first : Bool) (ls : List (List Char)),
      c.alarms.length + al.length ≤ MAX_ALARMS →
      loadLines c (saveAlarms al first ++ ls) =
        loadLines
          { c with alarms := c.alarms ++ al.map (fun a => { a with file := reread a.file }) }
          ls := by
  induction al with
  | nil => intro c first ls _; simp [saveAlarms]
  | cons a al ih =>
    intro c first ls h
    have h1 : c.alarms.length < MAX_ALARMS := by
      simp only [List.length_cons] at h; omega
    rw [saveAlarms, List.append_assoc, load_saveAlarm c a first _ h1,
      ih { c with alarms := c.alarms ++ [{ a with file := reread a.file }] } false ls]
    · simp
    · simp only [List.length_append, List.length_cons, List.length_nil] at h ⊢
      omega

theorem load_Win_Top (c : Configuration) (v : CInt) (ls : List (List Char))
    (h : c.windows.length < MAX_WINDOWS) :
    loadLines c (("Win_Top:    ".toList ++ arg v 5 ++ " ; Silence window top (m)".toList) :: ls) =
      loadLines { c with windows := c.windows ++ [{ top := v, bottom := v }] } ls := by
  have h1 := processLine_arg c "Win_Top:    ".toList "Win_Top".toList
    " ; Silence window top (m)".toList v (by decide) (by decide)
  rw [dispatch_Win_Top, if_pos h] at h1
  exact loadLines_cons_some _ _ _ _ h1

theorem load_Win_Bottom (c : Configuration) (v : CInt) (ls : List (List Char))
    (ws : List Window) (x : Window) (h : c.windows = ws ++ [x]) :
    loadLines c (("Win_Bottom: ".toList ++ arg v 5 ++
        " ; Silence window bottom (m)".toList) :: ls) =
      loadLines { c with windows := ws ++ [{ x with bottom := v }] } ls := by
  have h1 := processLine_arg c "Win_Bottom: ".toList "Win_Bottom".toList
    " ; Silence window bottom (m)".toList v (by decide) (by decide)
  rw [dispatch_Win_Bottom, h, modifyBack_concat] at h1
  exact loadLines_cons_some _ _ _ _ h1

/-- Reading back one window block appends that window while fewer than
`MAX_WINDOWS` windows exist. -/
theorem load_saveWindow (c : Configuration) (w : Window) (ls : List (List Char))
    (h : c.windows.length < MAX_WINDOWS) :
    loadLines c (saveWindow w ++ ls) =
      loadLines { c with windows := c.windows ++ [w] } ls := by
  unfold saveWindow
  simp only [List.cons_append, List.nil_append, List.append_nil]
  rw [load_Win_Top c _ _ h, load_Win_Bottom _ _ _ c.windows _ rfl,
    loadLines_cons_skip _ _ _ (by decide)]

theorem load_saveWindows (ws : List Window) :
    ∀ (c : Configuration) (ls : List (List Char)),
      c.windows.length + ws.length ≤ MAX_WINDOWS →
      loadLines c (saveWindows ws ++ ls) =
        loadLines { c with windows := c.windows ++ ws } ls := by
  induction ws with
  | nil => intro c ls _; simp [saveWindows]
  | cons w ws ih =>
    intro c ls h
    have h1 : c.windows.length < MAX_WINDOWS := by
      simp only [List.length_cons] at h; omega
    rw [saveWindows, List.append_assoc, load_saveWindow c w _ h1,
      ih { c with windows := c.windows ++ [w] } ls]
    · simp
    · simp only [List.length_append, List.length_cons, List.length_nil] at h ⊢
      omega

/-! ## Reading back a whole written file -/

theorem loadLines_nil (c : Configuration) : loadLines c [] = some c := rfl

/-- Reading the lines of `saveFile` back, from a configuration without entries in
its sequences, gives `reloaded`: every scalar field of `C`, the texts as read
back, and the sequences of `C` or their default entry. -/
theorem loadLines_saveFileLines (c0 C : Configuration)
    (hs : c0.speeches = []) (ha : c0.alarms = []) (hw : c0.windows = [])
    (hca : C.alarms.length ≤ MAX_ALARMS) (hcw : C.windows.length ≤ MAX_WINDOWS) :
    loadLines c0 (saveFileLines C) = some (reloaded c0.displayUnits C) := by
  rw [← List.append_nil (saveFileLines C)]
  unfold saveFileLines
  simp only [List.append_assoc]
  have e1 : ∀ c : Configuration, c.alarms = [] → ∀ ls,
      loadLines c ((if C.speeches.isEmpty then saveSpeech defaultSpeech true
        else saveSpeeches C.speeches true) ++ ls) =
      loadLines { c with speeches := c.speeches ++
        (if C.speeches.isEmpty then [defaultSpeech] else C.speeches) } ls := by
    intro c hc ls
    have hlt : c.alarms.length < MAX_ALARMS := by rw [hc]; decide
    split
    · exact load_saveSpeech c _ true ls hlt
    · exact load_saveSpeeches C.speeches c true ls hlt
  have e2 : ∀ c : Configuration, c.alarms = [] → ∀ ls,
      loadLines c ((if C.alarms.isEmpty then saveAlarm defaultAlarm true
        else saveAlarms C.alarms true) ++ ls) =
      loadLines { c with alarms := c.alarms ++
        (if C.alarms.isEmpty then [defaultAlarm]
          else C.alarms.map (fun a => { a with file := reread a.file })) } ls := by
    intro c hc ls
    have hlt : c.alarms.length < MAX_ALARMS := by rw [hc]; decide
    split
    · rw [load_saveAlarm c _ true ls hlt]
      rfl
    · exact load_saveAlarms C.alarms c true ls (by rw [hc]; simpa using hca)
  have e3 : ∀ c : Configuration, c.windows = [] → ∀ ls,
      loadLines c ((if C.windows.isEmpty then saveWindow defaultWindow
        else saveWindows C.windows) ++ ls) =
      loadLines { c with windows := c.windows ++
        (if C.windows.isEmpty then [defaultWindow] else C.windows) } ls := by
    intro c hc ls
    have hlt : c.windows.length < MAX_WINDOWS := by rw [hc]; decide
    split
    · exact load_saveWindow c _ ls hlt
    · exact load_saveWindows C.windows c ls (by rw [hc]; simpa using hcw)
  rw [load_saveGeneral, e1, load_saveThresholds, e2, load_saveAltitude, e3, loadLines_nil]
  · simp only [hs, ha, hw, List.nil_append, reloaded]
  · exact hw
  · exact ha
  · exact ha

/-! ## Lines and text -/

theorem readLines_line (l rest : List Char) (h : noLineBreak l = true) :
    readLines (l ++ '\n' :: rest) = l :: readLines rest := by
  induction l with
  | nil => simp [readLines]
  | cons a l ih =>
    simp only [noLineBreak, List.all_cons, Bool.and_eq_true, bne_iff_ne, ne_eq] at h
    have ih2 := ih (by simpa [noLineBreak] using h.2)
    rw [List.cons_append, readLines, if_neg h.1, ih2]

/-- The lines read from a written text are the lines that were written, when
none of them contains a line break. -/
theorem readLines_unlines (ls : List (List Char)) (h : ∀ l ∈ ls, noLineBreak l = true) :
    readLines (unlines ls) = ls := by
  induction ls with
  | nil => rfl
  | cons l ls ih =>
    have h1 := h l (List.mem_cons_self _ _)
    have h2 := ih (fun x hx => h x (List.mem_cons_of_mem _ hx))
    have : unlines (l :: ls) = l ++ '\n' :: unlines ls := by
      simp [unlines, List.flatMap_cons]
    rw [this, readLines_line l _ h1, h2]

theorem readLines_noLineBreak (t : List Char) : ∀ l ∈ readLines t, noLineBreak l = true := by
  induction t with
  | nil => intro l hl; simp [readLines] at hl
  | cons a t ih =>
    intro l hl
    by_cases ha : a = '\n'
    · simp only [readLines, ha, if_true, List.mem_cons] at hl
      rcases hl with hl | hl
      · subst hl; rfl
      · exact ih l hl
    · simp only [readLines, ha, if_false] at hl
      rcases hr : readLines t with _ | ⟨x, xs⟩
      · rw [hr] at hl
        simp only [List.mem_singleton] at hl
        subst hl
        simp [noLineBreak, ha]
      · rw [hr] at hl ih
        simp only [List.mem_cons] at hl
        rcases hl with hl | hl
        · subst hl
          have := ih x (List.mem_cons_self _ _)
          simp only [noLineBreak, List.all_cons, Bool.and_eq_true, bne_iff_ne, ne_eq] at this ⊢
          exact ⟨ha, this⟩
        · exact ih l (List.mem_cons_of_mem _ hl)

theorem noLineBreak_append (a b : List Char) :
    noLineBreak (a ++ b) = (noLineBreak a && noLineBreak b) := by
  simp [noLineBreak, List.all_append]

theorem noLineBreak_intToDec (v : Int) : noLineBreak (intToDec v) = true := by
  simp only [noLineBreak, List.all_eq_true, bne_iff_ne, ne_eq]
  intro c hc
  exact isNumberChar_ne_newline c (intToDec_chars v c hc)

theorem noLineBreak_rightJustified (s : List Char) (w : Nat) :
    noLineBreak (rightJustified s w) = noLineBreak s := by
  simp [rightJustified, noLineBreak, List.all_append]

theorem noLineBreak_arg (v : CInt) (w : Nat) : noLineBreak (arg v w) = true := by
  rw [arg, noLineBreak_rightJustified, noLineBreak_intToDec]

theorem noLineBreak_saveGeneral (C : Configuration) (h1 : noLineBreak C.configName = true)
    (h2 : noLineBreak C.configDescription = true) (h3 : noLineBreak C.configKind = true) :
    ∀ l ∈ saveGeneral C, noLineBreak l = true := by
  rw [← List.all_eq_true]
  simp +decide only [saveGeneral, List.all_cons, List.all_nil, noLineBreak_append,
    noLineBreak_arg, noLineBreak_rightJustified, h1, h2, h3, Bool.and_true, Bool.true_and]

theorem noLineBreak_saveThresholds (C : Configuration) (h1 : noLineBreak C.initFile = true) :
    ∀ l ∈ saveThresholds C, noLineBreak l = true := by
  rw [← List.all_eq_true]
  simp +decide only [saveThresholds, List.all_cons, List.all_nil, noLineBreak_append,
    noLineBreak_arg, noLineBreak_rightJustified, h1, Bool.and_true, Bool.true_and]

theorem noLineBreak_saveAltitude (C : Configuration) :
    ∀ l ∈ saveAltitude C, noLineBreak l = true := by
  rw [← List.all_eq_true]
  simp +decide only [saveAltitude, List.all_cons, List.all_nil, noLineBreak_append,
    noLineBreak_arg, noLineBreak_rightJustified, Bool.and_true, Bool.true_and]

theorem noLineBreak_saveSpeech (s : Speech) (first : Bool) :
    ∀ l ∈ saveSpeech s first, noLineBreak l = true := by
  rw [← List.all_eq_true]
  cases first <;>
  simp +decide only [saveSpeech, List.all_cons, List.all_nil, List.all_append, noLineBreak_append,
    noLineBreak_arg, noLineBreak_rightJustified, Bool.and_true, Bool.true_and, if_true, if_false,
    Bool.false_eq_true]

theorem noLineBreak_saveAlarm (a : Alarm) (first : Bool) (h : noLineBreak a.file = true) :
    ∀ l ∈ saveAlarm a first, noLineBreak l = true := by
  rw [← List.all_eq_true]
  cases first <;>
  simp +decide only [saveAlarm, List.all_cons, List.all_nil, List.all_append, noLineBreak_append,
    noLineBreak_arg, noLineBreak_rightJustified, h, Bool.and_true, Bool.true_and, if_true,
    if_false, Bool.false_eq_true]

theorem noLineBreak_saveWindow (w : Window) :
    ∀ l ∈ saveWindow w, noLineBreak l = true := by
  rw [← List.all_eq_true]
  simp +decide only [saveWindow, List.all_cons, List.all_nil, noLineBreak_append,
    noLineBreak_arg, noLineBreak_rightJustified, Bool.and_true, Bool.true_and]

theorem noLineBreak_saveSpeeches (ss : List Speech) (first : Bool) :
    ∀ l ∈ saveSpeeches ss first, noLineBreak l = true := by
  induction ss generalizing first with
  | nil => intro l hl; simp [saveSpeeches] at hl
  | cons s ss ih =>
    intro l hl
    rw [saveSpeeches] at hl
    rcases List.mem_append.mp hl with hl | hl
    · exact noLineBreak_saveSpeech s first l hl
    · exact ih false l hl

theorem noLineBreak_saveAlarms (al : List Alarm) (first : Bool)
    (h : ∀ a ∈ al, noLineBreak a.file = true) :
    ∀ l ∈ saveAlarms al first, noLineBreak l = true := by
  induction al generalizing first with
  | nil => intro l hl; simp [saveAlarms] at hl
  | cons a al ih =>
    intro l hl
    rw [saveAlarms] at hl
    rcases List.mem_append.mp hl with hl | hl
    · exact noLineBreak_saveAlarm a first (h a (List.mem_cons_self _ _)) l hl
    · exact ih false (fun x hx => h x (List.mem_cons_of_mem _ hx)) l hl

theorem noLineBreak_saveWindows (ws : List Window) :
    ∀ l ∈ saveWindows ws, noLineBreak l = true := by
  induction ws with
  | nil => intro l hl; simp [saveWindows] at hl
  | cons w ws ih =>
    intro l hl
    rw [saveWindows] at hl
    rcases List.mem_append.mp hl with hl | hl
    · exact noLineBreak_saveWindow w l hl
    · exact ih l hl

theorem noLineBreak_saveFileLines (C : Configuration) (h : C.noLineBreaks = true) :
    ∀ l ∈ saveFileLines C, noLineBreak l = true := by
  simp only [Configuration.noLineBreaks, Bool.and_eq_true, List.all_eq_true] at h
  obtain ⟨⟨⟨⟨h1, h2⟩, h3⟩, h4⟩, h5⟩ := h
  intro l hl
  unfold saveFileLines at hl
  simp only [List.mem_append] at hl
  rcases hl with ((((hl | hl) | hl) | hl) | hl) | hl
  · exact noLineBreak_saveGeneral C h1 h2 h3 l hl
  · split at hl
    · exact noLineBreak_saveSpeech _ _ l hl
    · exact noLineBreak_saveSpeeches _ _ l hl
  · exact noLineBreak_saveThresholds C h4 l hl
  · split at hl
    · exact noLineBreak_saveAlarm _ _ (by decide) l hl
    · exact noLineBreak_saveAlarms _ _ h5 l hl
  · exact noLineBreak_saveAltitude C l hl
  · split at hl
    · exact noLineBreak_saveWindow _ l hl
    · exact noLineBreak_saveWindows _ l hl

/-- Parsing the text written for `C`: when no text field of `C` has a line break
and the alarms and windows of `C` are within their caps, the parser succeeds and
returns `reloaded u C`. -/
theorem parse_saveFile (d C : Configuration) (u : DisplayUnits)
    (h : C.noLineBreaks = true)
    (hca : C.alarms.length ≤ MAX_ALARMS) (hcw : C.windows.length ≤ MAX_WINDOWS) :
    parse d (saveFile C) u = some (reloaded u C) := by
  unfold parse saveFile
  rw [readLines_unlines _ (noLineBreak_saveFileLines C h)]
  exact loadLines_saveFileLines (Configuration.init d u) C rfl rfl rfl hca hcw

/-! ## The effect of one line on the sequences and on the texts -/

theorem handleValue_preserves (P : Configuration → Prop) (name : List Char) (s : String)
    (set : Configuration → Configuration) (c : Configuration)
    (h1 : P c) (h2 : ∀ c, P c → P (set c)) : P (handleValue name s set c) := by
  unfold handleValue
  split
  · exact h2 c h1
  · exact h1

/-- The scalar and text statements leave the sequences and the display units
alone, and each text field is either kept or replaced by `result`. -/
theorem handleValues_frame (c : Configuration) (name result : List Char) (val : CInt) :
    (handleValues c name result val).speeches = c.speeches ∧
    (handleValues c name result val).alarms = c.alarms ∧
    (handleValues c name result val).windows = c.windows ∧
    (handleValues c name result val).displayUnits = c.displayUnits ∧
    ((handleValues c name result val).configName = c.configName ∨
      (handleValues c name result val).configName = result) ∧
    ((handleValues c name result val).configDescription = c.configDescription ∨
      (handleValues c name result val).configDescription = result) ∧
    ((handleValues c name result val).configKind = c.configKind ∨
      (handleValues c name result val).configKind = result) ∧
    ((handleValues c name result val).initFile = c.initFile ∨
      (handleValues c name result val).initFile = result) := by
  unfold handleValues
  simp only []
  iterate 31
    refine handleValue_preserves (fun x => x.speeches = c.speeches ∧ x.alarms = c.alarms ∧
      x.windows = c.windows ∧ x.displayUnits = c.displayUnits ∧
      (x.configName = c.configName ∨ x.configName = result) ∧
      (x.configDescription = c.configDescription ∨ x.configDescription = result) ∧
      (x.configKind = c.configKind ∨ x.configKind = result) ∧
      (x.initFile = c.initFile ∨ x.initFile = result)) _ _ _ _ ?_
      (fun x hx => by
        obtain ⟨h1, h2, h3, h4, h5, h6, h7, h8⟩ := hx
        refine ⟨?_, ?_, ?_, ?_, ?_, ?_, ?_, ?_⟩ <;> first | assumption | exact Or.inr rfl)
  exact ⟨rfl, rfl, rfl, rfl, Or.inl rfl, Or.inl rfl, Or.inl rfl, Or.inl rfl⟩

/-- A key that is not a sequence key only runs the scalar and text statements. -/
theorem dispatch_not_sequence (c : Configuration) (name r : List Char) (v : CInt)
    (h : name ∉ sequenceKeys.map String.toList) :
    dispatch c name r v = some (handleValues c name r v) := by
  simp only [sequenceKeys, List.map, List.mem_cons, List.mem_nil_iff, or_false, not_or] at h
  simp only [dispatch, handleAlarms, handleWindows, handleSpeeches, h, false_and, if_false]
  rfl

/-- What one iteration can do to the three sequences: nothing, an append by a start
key, or an update of the last element by a continuation key. In every case the
scalar and text fields are those the scalar and text statements produced. -/
theorem dispatch_sequences (c c1 : Configuration) (name r : List Char) (v : CInt)
    (h : dispatch c name r v = some c1) :
    (name ∉ sequenceKeys.map String.toList ∧ c1 = handleValues c name r v) ∨
    (name = "Alarm_Elev".toList ∧ c1 = (if c.alarms.length < MAX_ALARMS then
        { c with alarms := c.alarms ++ [{ elevation := v, mode := AlarmMode.NoAlarm, file := [] }] }
      else c)) ∨
    (name = "Alarm_Type".toList ∧ ∃ al x, c.alarms = al ++ [x] ∧
        c1 = { c with alarms := al ++ [{ x with mode := v }] }) ∨
    (name = "Alarm_File".toList ∧ ∃ al x, c.alarms = al ++ [x] ∧
        c1 = { c with alarms := al ++ [{ x with file := r }] }) ∨
    (name = "Win_Top".toList ∧ c1 = (if c.windows.length < MAX_WINDOWS then
        { c with windows := c.windows ++ [{ top := v, bottom := v }] }
      else c)) ∨
    (name = "Win_Bottom".toList ∧ ∃ ws x, c.windows = ws ++ [x] ∧
        c1 = { c with windows := ws ++ [{ x with bottom := v }] }) ∨
    (name = "Sp_Mode".toList ∧ c1 = (if c.alarms.length < MAX_ALARMS then
        { c with speeches := c.speeches ++
            [{ mode := v, units := Units.Miles, decimals := ⟨1, by decide⟩ }] }
      else c)) ∨
    (name = "Sp_Units".toList ∧ ∃ ss x, c.speeches = ss ++ [x] ∧
        c1 = { c with speeches := ss ++ [{ x with units := v }] }) ∨
    (name = "Sp_Dec".toList ∧ ∃ ss x, c.speeches = ss ++ [x] ∧
        c1 = { c with speeches := ss ++ [{ x with decimals := v }] }) := by
  by_cases hk : name ∈ sequenceKeys.map String.toList
  · right
    have hk2 := hk
    simp only [sequenceKeys, List.map, List.mem_cons, List.mem_nil_iff, or_false] at hk2
    rcases hk2 with e | e | e | e | e | e | e | e <;> subst e
    · rw [dispatch_Alarm_Elev] at h
      exact Or.inl ⟨rfl, (Option.some.inj h).symm⟩
    · rw [dispatch_Alarm_Type] at h
      obtain ⟨zs, hz, rfl⟩ := Option.map_eq_some'.mp h
      obtain ⟨al, x, h1, h2⟩ := modifyBack_eq_some _ _ _ hz
      exact Or.inr (Or.inl ⟨rfl, al, x, h1, by rw [h2]⟩)
    · rw [dispatch_Alarm_File] at h
      obtain ⟨zs, hz, rfl⟩ := Option.map_eq_some'.mp h
      obtain ⟨al, x, h1, h2⟩ := modifyBack_eq_some _ _ _ hz
      exact Or.inr (Or.inr (Or.inl ⟨rfl, al, x, h1, by rw [h2]⟩))
    · rw [dispatch_Win_Top] at h
      exact Or.inr (Or.inr (Or.inr (Or.inl ⟨rfl, (Option.some.inj h).symm⟩)))
    · rw [dispatch_Win_Bottom] at h
      obtain ⟨zs, hz, rfl⟩ := Option.map_eq_some'.mp h
      obtain ⟨ws, x, h1, h2⟩ := modifyBack_eq_some _ _ _ hz
      exact Or.inr (Or.inr (Or.inr (Or.inr (Or.inl ⟨rfl, ws, x, h1, by rw [h2]⟩))))
    · rw [dispatch_Sp_Mode] at h
      exact Or.inr (Or.inr (Or.inr (Or.inr (Or.inr (Or.inl ⟨rfl, (Option.some.inj h).symm⟩)))))
    · rw [dispatch_Sp_Units] at h
      obtain ⟨zs, hz, rfl⟩ := Option.map_eq_some'.mp h
      obtain ⟨ss, x, h1, h2⟩ := modifyBack_eq_some _ _ _ hz
      exact Or.inr (Or.inr (Or.inr (Or.inr (Or.inr (Or.inr (Or.inl
        ⟨rfl, ss, x, h1, by rw [h2]⟩))))))
    · rw [dispatch_Sp_Dec] at h
      obtain ⟨zs, hz, rfl⟩ := Option.map_eq_some'.mp h
      obtain ⟨ss, x, h1, h2⟩ := modifyBack_eq_some _ _ _ hz
      exact Or.inr (Or.inr (Or.inr (Or.inr (Or.inr (Or.inr (Or.inr
        ⟨rfl, ss, x, h1, by rw [h2]⟩))))))
  · left
    rw [dispatch_not_sequence c name r v hk] at h
    exact ⟨hk, (Option.some.inj h).symm⟩

/-! ## Invariants of the loop -/

theorem processLine_some (c c1 : Configuration) (l : List Char)
    (h : processLine c l = some c1) :
    (isKeyValue l = false ∧ c1 = c) ∨
    (isKeyValue l = true ∧ dispatch c (nameOf l) (resultOf l) (toInt (resultOf l)) = some c1) := by
  rw [processLine_eq] at h
  by_cases hk : isKeyValue l = true
  · rw [if_pos hk] at h
    exact Or.inr ⟨hk, h⟩
  · rw [if_neg hk] at h
    exact Or.inl ⟨by simpa using hk, (Option.some.inj h).symm⟩

theorem hasKey_iff (k : String) (l : List Char) :
    hasKey k l = true ↔ isKeyValue l = true ∧ nameOf l = k.toList := by
  simp [hasKey]

/-- One line and the alarm elevations: a line with key `Alarm_Elev` appends its
value while fewer than `MAX_ALARMS` alarms exist; any other line that is processed
leaves the elevations as they are. -/
theorem processLine_alarm_elevations (c c1 : Configuration) (l : List Char)
    (h : processLine c l = some c1) :
    c1.alarms.map (fun a => a.elevation) =
      if hasKey "Alarm_Elev" l = true ∧ c.alarms.length < MAX_ALARMS then
        c.alarms.map (fun a => a.elevation) ++ [toInt (resultOf l)]
      else c.alarms.map (fun a => a.elevation) := by
  rcases processLine_some c c1 l h with ⟨hk, rfl⟩ | ⟨hk, hd⟩
  · have : ¬ (hasKey "Alarm_Elev" l = true) := by
      rw [hasKey_iff]; rintro ⟨h1, _⟩; rw [hk] at h1; exact Bool.noConfusion h1
    rw [if_neg (fun hh => this hh.1)]
  · rcases dispatch_sequences c c1 _ _ _ hd with
      ⟨hn, rfl⟩ | ⟨hn, rfl⟩ | ⟨hn, al, x, h1, rfl⟩ | ⟨hn, al, x, h1, rfl⟩ | ⟨hn, rfl⟩ |
      ⟨hn, ws, x, h1, rfl⟩ | ⟨hn, rfl⟩ | ⟨hn, ss, x, h1, rfl⟩ | ⟨hn, ss, x, h1, rfl⟩
    · have hne : ¬ (hasKey "Alarm_Elev" l = true) := by
        rw [hasKey_iff]; rintro ⟨_, h2⟩
        apply hn; rw [h2]; decide
      rw [if_neg (fun hh => hne hh.1), (handleValues_frame c _ _ _).2.1]
    · have hy : hasKey "Alarm_Elev" l = true := (hasKey_iff _ _).mpr ⟨hk, hn⟩
      by_cases hlt : c.alarms.length < MAX_ALARMS
      · rw [if_pos hlt, if_pos ⟨hy, hlt⟩]; simp
      · rw [if_neg hlt, if_neg (fun hh => hlt hh.2)]
    all_goals
      have hne : ¬ (hasKey "Alarm_Elev" l = true) := by
        rw [hasKey_iff]; rintro ⟨_, h2⟩
        rw [hn] at h2; revert h2; decide
      have hR : (if hasKey "Alarm_Elev" l = true ∧ c.alarms.length < MAX_ALARMS then
          c.alarms.map (fun a => a.elevation) ++ [toInt (resultOf l)]
          else c.alarms.map (fun a => a.elevation)) = c.alarms.map (fun a => a.elevation) :=
        if_neg (fun hh => hne hh.1)
      rw [hR]
      try first
        | (rw [h1]; simp)
        | (split <;> rfl)

theorem processLine_alarms_length (c c1 : Configuration) (l : List Char)
    (h : processLine c l = some c1) (hc : c.alarms.length ≤ MAX_ALARMS) :
    c1.alarms.length ≤ MAX_ALARMS := by
  have h1 := congrArg List.length (processLine_alarm_elevations c c1 l h)
  rw [List.length_map] at h1
  rw [h1]
  split
  · rename_i hh
    simp only [List.length_append, List.length_map, List.length_singleton]
    omega
  · simpa using hc

/-- The loop and the alarm elevations: those present at the start, followed by the
values of the `Alarm_Elev` lines in file order, cut after `MAX_ALARMS` entries. -/
theorem loadLines_alarm_elevations (lines : List (List Char)) :
    ∀ (c c1 : Configuration), loadLines c lines = some c1 → c.alarms.length ≤ MAX_ALARMS →
      c1.alarms.map (fun a => a.elevation) =
        (c.alarms.map (fun a => a.elevation) ++ valuesOf "Alarm_Elev" lines).take MAX_ALARMS := by
  induction lines with
  | nil =>
    intro c c1 h hc
    simp only [loadLines, Option.some.injEq] at h
    subst h
    simp only [valuesOf, List.filter_nil, List.map_nil, List.append_nil]
    rw [List.take_of_length_le (by simpa using hc)]
  | cons l ls ih =>
    intro c c1 h hc
    simp only [loadLines] at h
    obtain ⟨c2, h2, h3⟩ := Option.bind_eq_some.mp h
    have hstep := processLine_alarm_elevations c c2 l h2
    have hlen := processLine_alarms_length c c2 l h2 hc
    rw [ih c2 c1 h3 hlen, hstep]
    by_cases hy : hasKey "Alarm_Elev" l = true
    · have hv : valuesOf "Alarm_Elev" (l :: ls) =
          toInt (resultOf l) :: valuesOf "Alarm_Elev" ls := by
        simp [valuesOf, List.filter_cons, hy]
      rw [hv]
      by_cases hlt : c.alarms.length < MAX_ALARMS
      · rw [if_pos ⟨hy, hlt⟩]; simp
      · rw [if_neg (fun hh => hlt hh.2)]
        have he : (c.alarms.map (fun a => a.elevation)).length = MAX_ALARMS := by
          rw [List.length_map]; omega
        rw [List.take_left' he, List.take_left' he]
    · have hv : valuesOf "Alarm_Elev" (l :: ls) = valuesOf "Alarm_Elev" ls := by
        simp [valuesOf, List.filter_cons, hy]
      rw [hv, if_neg (fun hh => hy hh.1)]

/-! ### Texts stored by the parser -/

theorem isStored_iff (s : List Char) :
    isStored s = true ↔ ';' ∉ s ∧ ':' ∉ s ∧ noLineBreak s = true ∧ trimmed s = s := by
  simp [isStored, and_assoc]

theorem noLineBreak_of_subset (a b : List Char) (h : ∀ x ∈ a, x ∈ b)
    (hb : noLineBreak b = true) : noLineBreak a = true := by
  simp only [noLineBreak, List.all_eq_true] at hb ⊢
  exact fun x hx => hb x (h x hx)

theorem mem_trimmed (s : List Char) (x : Char) (h : x ∈ trimmed s) : x ∈ s := by
  unfold trimmed at h
  have h1 := (List.rdropWhile_prefix isSpace (s.dropWhile isSpace)).sublist.subset h
  exact (List.dropWhile_suffix isSpace).sublist.subset h1

theorem mem_tail {x : Char} {s : List Char} (h : x ∈ s.tail) : x ∈ s :=
  List.mem_of_mem_tail h

/-- The value of a line, as the parser stores it, is trimmed and has no `;` and
no `:`; it has no line break either when the line has none. -/
theorem isStored_resultOf (l : List Char) (h : noLineBreak l = true) :
    isStored (resultOf l) = true := by
  rw [isStored_iff]
  have hsub : ∀ x ∈ resultOf l, x ∈ ((stripComment l).dropWhile
      (fun c => c != ':')).tail.takeWhile (fun c => c != ':') :=
    fun x hx => mem_trimmed _ x hx
  refine ⟨?_, ?_, ?_, ?_⟩
  · intro hm
    have h1 := mem_of_mem_takeWhile _ _ _ (hsub _ hm)
    have h2 := (List.dropWhile_suffix _).sublist.subset (mem_tail h1)
    exact takeWhile_ne_not_mem l ';' h2
  · intro hm
    exact takeWhile_ne_not_mem _ ':' (hsub _ hm)
  · apply noLineBreak_of_subset _ l _ h
    intro x hx
    have h1 := mem_of_mem_takeWhile _ _ _ (hsub _ hx)
    have h2 := (List.dropWhile_suffix _).sublist.subset (mem_tail h1)
    exact mem_of_mem_takeWhile _ _ _ h2
  · exact trimmed_trimmed _

theorem textsStored_iff (c : Configuration) :
    c.textsStored = true ↔ isStored c.configName = true ∧ isStored c.configDescription = true ∧
      isStored c.configKind = true ∧ isStored c.initFile = true ∧
      ∀ a ∈ c.alarms, isStored a.file = true := by
  simp [Configuration.textsStored, and_assoc]

/-- One line keeps the invariant of the loop: the texts are as the parser stores
them, at most `MAX_ALARMS` alarms and `MAX_WINDOWS` windows exist, and the display
units are those of the start. -/
theorem processLine_invariant (c c1 : Configuration) (l : List Char)
    (h : processLine c l = some c1) (hl : noLineBreak l = true)
    (ht : c.textsStored = true) (hw : c.windows.length ≤ MAX_WINDOWS) :
    c1.textsStored = true ∧ c1.windows.length ≤ MAX_WINDOWS ∧
      c1.displayUnits = c.displayUnits := by
  have hr := isStored_resultOf l hl
  rw [textsStored_iff] at ht ⊢
  obtain ⟨t1, t2, t3, t4, t5⟩ := ht
  rcases processLine_some c c1 l h with ⟨_, rfl⟩ | ⟨_, hd⟩
  · exact ⟨⟨t1, t2, t3, t4, t5⟩, hw, rfl⟩
  · rcases dispatch_sequences c c1 _ _ _ hd with
      ⟨hn, rfl⟩ | ⟨hn, rfl⟩ | ⟨hn, al, x, h1, rfl⟩ | ⟨hn, al, x, h1, rfl⟩ | ⟨hn, rfl⟩ |
      ⟨hn, ws, x, h1, rfl⟩ | ⟨hn, rfl⟩ | ⟨hn, ss, x, h1, rfl⟩ | ⟨hn, ss, x, h1, rfl⟩
    · obtain ⟨f1, f2, f3, f4, f5, f6, f7, f8⟩ := handleValues_frame c (nameOf l) (resultOf l)
        (toInt (resultOf l))
      refine ⟨⟨?_, ?_, ?_, ?_, ?_⟩, ?_, f4⟩
      · rcases f5 with e | e <;> rw [e] <;> assumption
      · rcases f6 with e | e <;> rw [e] <;> assumption
      · rcases f7 with e | e <;> rw [e] <;> assumption
      · rcases f8 with e | e <;> rw [e] <;> assumption
      · rw [f2]; exact t5
      · rw [f3]; exact hw
    · split
      · refine ⟨⟨t1, t2, t3, t4, ?_⟩, hw, rfl⟩
        intro a ha
        rcases List.mem_append.mp ha with ha | ha
        · exact t5 a ha
        · rw [List.mem_singleton] at ha; subst ha; rfl
      · exact ⟨⟨t1, t2, t3, t4, t5⟩, hw, rfl⟩
    · refine ⟨⟨t1, t2, t3, t4, ?_⟩, hw, rfl⟩
      intro a ha
      rcases List.mem_append.mp ha with ha | ha
      · exact t5 a (by rw [h1]; exact List.mem_append_left _ ha)
      · rw [List.mem_singleton] at ha; subst ha
        exact t5 x (by rw [h1]; simp)
    · refine ⟨⟨t1, t2, t3, t4, ?_⟩, hw, rfl⟩
      intro a ha
      rcases List.mem_append.mp ha with ha | ha
      · exact t5 a (by rw [h1]; exact List.mem_append_left _ ha)
      · rw [List.mem_singleton] at ha; subst ha
        exact hr
    · split
      · rename_i hlt
        refine ⟨⟨t1, t2, t3, t4, t5⟩, ?_, rfl⟩
        simp only [List.length_append, List.length_singleton]
        omega
      · exact ⟨⟨t1, t2, t3, t4, t5⟩, hw, rfl⟩
    · refine ⟨⟨t1, t2, t3, t4, t5⟩, ?_, rfl⟩
      rw [h1] at hw
      simpa using hw
    · split
      · exact ⟨⟨t1, t2, t3, t4, t5⟩, hw, rfl⟩
      · exact ⟨⟨t1, t2, t3, t4, t5⟩, hw, rfl⟩
    · exact ⟨⟨t1, t2, t3, t4, t5⟩, hw, rfl⟩
    · exact ⟨⟨t1, t2, t3, t4, t5⟩, hw, rfl⟩

theorem loadLines_invariant (lines : List (List Char)) :
    ∀ (c c1 : Configuration), loadLines c lines = some c1 →
      (∀ l ∈ lines, noLineBreak l = true) →
      c.textsStored = true → c.windows.length ≤ MAX_WINDOWS → c.alarms.length ≤ MAX_ALARMS →
      c1.textsStored = true ∧ c1.windows.length ≤ MAX_WINDOWS ∧
        c1.alarms.length ≤ MAX_ALARMS ∧ c1.displayUnits = c.displayUnits := by
  induction lines with
  | nil =>
    intro c c1 h _ ht hw ha
    simp only [loadLines, Option.some.injEq] at h
    subst h
    exact ⟨ht, hw, ha, rfl⟩
  | cons l ls ih =>
    intro c c1 h hl ht hw ha
    simp only [loadLines] at h
    obtain ⟨c2, h2, h3⟩ := Option.bind_eq_some.mp h
    obtain ⟨i1, i2, i3⟩ := processLine_invariant c c2 l h2 (hl l (List.mem_cons_self _ _)) ht hw
    have i4 := processLine_alarms_length c c2 l h2 ha
    obtain ⟨j1, j2, j3, j4⟩ := ih c2 c1 h3 (fun x hx => hl x (List.mem_cons_of_mem _ hx)) i1 i2 i4
    exact ⟨j1, j2, j3, j4.trans i3⟩

/-- What holds of every configuration the parser returns, when the texts of the
fresh configuration are themselves as the parser stores texts. -/
theorem parse_invariant (d C : Configuration) (t : List Char) (u : DisplayUnits)
    (h : parse d t u = some C) (hd : (Configuration.init d u).textsStored = true) :
    C.textsStored = true ∧ C.windows.length ≤ MAX_WINDOWS ∧
      C.alarms.length ≤ MAX_ALARMS ∧ C.displayUnits = u :=
  loadLines_invariant (readLines t) _ C h (readLines_noLineBreak t) hd
    (by simp [Configuration.init]) (by simp [Configuration.init])

theorem isStored_noLineBreak (s : List Char) (h : isStored s = true) : noLineBreak s = true :=
  ((isStored_iff s).mp h).2.2.1

theorem reread_of_isStored (s : List Char) (h : isStored s = true) : reread s = s := by
  obtain ⟨h1, h2, _, h4⟩ := (isStored_iff s).mp h
  exact reread_of_clean s h1 h2 h4

theorem noLineBreaks_of_textsStored (C : Configuration) (h : C.textsStored = true) :
    C.noLineBreaks = true := by
  rw [textsStored_iff] at h
  obtain ⟨t1, t2, t3, t4, t5⟩ := h
  simp only [Configuration.noLineBreaks, Bool.and_eq_true, List.all_eq_true]
  exact ⟨⟨⟨⟨isStored_noLineBreak _ t1, isStored_noLineBreak _ t2⟩, isStored_noLineBreak _ t3⟩,
    isStored_noLineBreak _ t4⟩, fun a ha => isStored_noLineBreak _ (t5 a ha)⟩

/-- A configuration with stored texts is read back with its own fields; only an
empty sequence comes back as its default entry. -/
theorem reloaded_of_stored (C : Configuration) (h : C.textsStored = true) :
    reloaded C.displayUnits C =
      { C with
        speeches := if C.speeches.isEmpty then [defaultSpeech] else C.speeches
        alarms := if C.alarms.isEmpty then [defaultAlarm] else C.alarms
        windows := if C.windows.isEmpty then [defaultWindow] else C.windows } := by
  rw [textsStored_iff] at h
  obtain ⟨t1, t2, t3, t4, t5⟩ := h
  have e4 : C.alarms.map (fun a => { a with file := reread a.file }) = C.alarms := by
    conv_rhs => rw [← List.map_id C.alarms]
    apply List.map_congr_left
    intro a ha2
    rw [reread_of_isStored _ (t5 a ha2)]
    rfl
  unfold reloaded
  rw [reread_of_isStored _ t1, reread_of_isStored _ t2, reread_of_isStored _ t3,
    reread_of_isStored _ t4, e4]

theorem isEmpty_eq_false_of_ne_nil {α : Type} (l : List α) (h : l ≠ []) :
    l.isEmpty = false := by
  cases l with
  | nil => exact absurd rfl h
  | cons _ _ => rfl

/-! ## Further facts used by the claims -/

theorem plain_line (pre key value : List Char) (hpre : isKeyPrefix pre key = true)
    (h1 : ';' ∉ value) (h2 : ':' ∉ value) :
    isKeyValue (pre ++ value) = true ∧ nameOf (pre ++ value) = key ∧
      resultOf (pre ++ value) = trimmed value := by
  simp only [isKeyPrefix, Bool.and_eq_true, decide_eq_true_eq, Bool.not_eq_true',
    decide_eq_false_iff_not, List.all_eq_true, bne_iff_ne, ne_eq] at hpre
  obtain ⟨⟨⟨hc, hs⟩, hk⟩, hsp⟩ := hpre
  have hstrip : stripComment (pre ++ value) = pre ++ value := by
    unfold stripComment
    apply takeWhile_ne_of_not_mem
    intro h
    rcases List.mem_append.mp h with h | h
    · exact hs h
    · exact h1 h
  refine ⟨?_, ?_, ?_⟩
  · unfold isKeyValue
    rw [hstrip]
    simp [hc]
  · unfold nameOf
    rw [hstrip, takeWhile_ne_append_of_mem _ _ _ hc, hk]
  · unfold resultOf
    rw [hstrip, dropWhile_ne_append_of_mem _ _ _ hc]
    obtain ⟨t, ht⟩ := dropWhile_ne_of_mem pre ':' hc
    rw [ht] at hsp ⊢
    simp only [List.cons_append, List.tail_cons] at hsp ⊢
    have ht1 : ':' ∉ t := fun h => (hsp _ h).1.2 rfl
    rw [takeWhile_ne_append_of_not_mem _ _ _ ht1, takeWhile_ne_of_not_mem value ':' h2]
    have := trimmed_pad t value [] (fun c hc2 => (hsp c hc2).1.1) (by simp)
    rw [List.append_nil] at this
    exact this

theorem processLine_plain_int (c : Configuration) (pre key : List Char) (v : CInt)
    (hpre : isKeyPrefix pre key = true) :
    processLine c (pre ++ intToDec v.val) = dispatch c key (intToDec v.val) v := by
  obtain ⟨h1, h2, h3⟩ := plain_line pre key (intToDec v.val) hpre
    (fun h => isNumberChar_ne_semicolon _ (intToDec_chars _ _ h) rfl)
    (fun h => isNumberChar_ne_colon _ (intToDec_chars _ _ h) rfl)
  have h4 : trimmed (intToDec v.val) = intToDec v.val :=
    trimmed_all_of_no_space _ (fun c hc => isNumberChar_not_space c (intToDec_chars _ c hc))
  rw [processLine_eq, h1, if_pos rfl, h2, h3, h4, toInt_intToDec]

theorem toInt_of_not_decimal (s : List Char) (h : isDecimalText (trimmed s) = false) :
    toInt s = CInt.ofInt 0 := by
  unfold toInt
  unfold isDecimalText at h
  simp only [Bool.and_eq_false_iff, decide_eq_false_iff_not] at h
  simp only
  rw [if_neg]
  rintro ⟨h1, h2⟩
  rcases h with h | h
  · exact h h1
  · rw [h2] at h; exact Bool.noConfusion h

theorem resultOf_trimmed (l : List Char) : trimmed (resultOf l) = resultOf l :=
  trimmed_trimmed _

theorem stripComment_idem (l : List Char) : stripComment (stripComment l) = stripComment l := by
  unfold stripComment
  exact takeWhile_ne_of_not_mem _ _ (takeWhile_ne_not_mem l ';')

theorem between_colons (k a b : List Char) (hk1 : ':' ∉ k) (hk2 : ';' ∉ k)
    (ha1 : ':' ∉ a) (ha2 : ';' ∉ a) :
    resultOf (k ++ ':' :: (a ++ ':' :: b)) = trimmed a := by
  unfold resultOf stripComment
  rw [takeWhile_ne_append_of_not_mem _ _ _ hk2, takeWhile_ne_cons _ _ _ (by decide),
    takeWhile_ne_append_of_not_mem _ _ _ ha2, takeWhile_ne_cons _ _ _ (by decide)]
  have hm : ':' ∈ k ++ ':' :: (a ++ ':' :: List.takeWhile (fun c => c != ';') b) := by simp
  obtain ⟨t, ht⟩ := dropWhile_ne_of_mem _ ':' hm
  have hd : (k ++ ':' :: (a ++ ':' :: List.takeWhile (fun c => c != ';') b)).dropWhile
      (fun c => c != ':') = ':' :: (a ++ ':' :: List.takeWhile (fun c => c != ';') b) := by
    clear ht hm
    induction k with
    | nil => exact dropWhile_ne_cons_self _ _
    | cons x k ih =>
      have hx : x ≠ ':' := fun e => hk1 (by simp [e])
      rw [List.cons_append, dropWhile_ne_cons _ _ _ hx]
      exact ih (fun h => hk1 (List.mem_cons_of_mem _ h)) (fun h => hk2 (List.mem_cons_of_mem _ h))
  rw [hd, List.tail_cons, takeWhile_ne_append_of_not_mem _ _ _ ha1, takeWhile_ne_cons_self,
    List.append_nil]

theorem after_colon (k a : List Char) (hk1 : ':' ∉ k) (hk2 : ';' ∉ k)
    (ha1 : ':' ∉ a) (ha2 : ';' ∉ a) :
    resultOf (k ++ ':' :: a) = trimmed a := by
  unfold resultOf stripComment
  rw [takeWhile_ne_append_of_not_mem _ _ _ hk2, takeWhile_ne_cons _ _ _ (by decide),
    takeWhile_ne_of_not_mem a ';' ha2]
  have hd : (k ++ ':' :: a).dropWhile (fun c => c != ':') = ':' :: a := by
    induction k with
    | nil => exact dropWhile_ne_cons_self _ _
    | cons x k ih =>
      have hx : x ≠ ':' := fun e => hk1 (by simp [e])
      rw [List.cons_append, dropWhile_ne_cons _ _ _ hx]
      exact ih (fun h => hk1 (List.mem_cons_of_mem _ h)) (fun h => hk2 (List.mem_cons_of_mem _ h))
  rw [hd, List.tail_cons, takeWhile_ne_of_not_mem a ':' ha1]

/-! ## The claims -/

/-- C1, counterexample. The empty file parses to the fresh configuration, whose
three sequences are empty. The text written for that configuration parses to a
configuration with one speech, one alarm and one window: the sequences are not
those of the configuration that was written. -/
theorem roundtrip_counterexample :
    parse sampleDefaults [] DisplayUnits.Metric =
      some (Configuration.init sampleDefaults DisplayUnits.Metric) ∧
    (Configuration.init sampleDefaults DisplayUnits.Metric).speeches = [] ∧
    (Configuration.init sampleDefaults DisplayUnits.Metric).alarms = [] ∧
    (Configuration.init sampleDefaults DisplayUnits.Metric).windows = [] ∧
    ∃ C1, parse sampleDefaults
        (saveFile (Configuration.init sampleDefaults DisplayUnits.Metric)) DisplayUnits.Metric =
          some C1 ∧
      C1.speeches = [defaultSpeech] ∧ C1.alarms = [defaultAlarm] ∧
      C1.windows = [defaultWindow] := by
  refine ⟨rfl, rfl, rfl, rfl, _, parse_saveFile sampleDefaults _ DisplayUnits.Metric
    (by decide) (by decide) (by decide), rfl, rfl, rfl⟩

/-- C1, amended. Round trip: let `C` be the configuration parsed from a text `t`
with display units `u`, the texts of the fresh configuration being trimmed and
free of `;`, `:` and line breaks. Parsing the text written for `C`, with the same
`u`, succeeds and yields `C` in every scalar and text field and in every sequence
that is not empty in `C`, element by element; a sequence that is empty in `C`
comes back as its one default entry. In particular the result is `C` itself when
none of its three sequences is empty. -/
theorem roundtrip_parsed (d C : Configuration) (t : List Char) (u : DisplayUnits)
    (hd : (Configuration.init d u).textsStored = true) (h : parse d t u = some C) :
    parse d (saveFile C) u =
      some { C with
        speeches := if C.speeches.isEmpty then [defaultSpeech] else C.speeches
        alarms := if C.alarms.isEmpty then [defaultAlarm] else C.alarms
        windows := if C.windows.isEmpty then [defaultWindow] else C.windows } ∧
    (C.speeches ≠ [] → C.alarms ≠ [] → C.windows ≠ [] →
      parse d (saveFile C) u = some C) := by
  obtain ⟨i1, i2, i3, i4⟩ := parse_invariant d C t u h hd
  subst i4
  have e := parse_saveFile d C C.displayUnits (noLineBreaks_of_textsStored C i1) i3 i2
  rw [reloaded_of_stored C i1] at e
  refine ⟨e, ?_⟩
  intro hs ha hw
  rw [e, isEmpty_eq_false_of_ne_nil _ hs, isEmpty_eq_false_of_ne_nil _ ha,
    isEmpty_eq_false_of_ne_nil _ hw]
  rfl

/-- C1, witness: a file that starts one speech, one alarm and one window is parsed,
written and parsed again to the same configuration. -/
theorem roundtrip_parsed_witness :
    parse sampleDefaults oneOfEach DisplayUnits.Metric = some oneOfEachParsed ∧
    parse sampleDefaults (saveFile oneOfEachParsed) DisplayUnits.Metric =
      some oneOfEachParsed :=
  ⟨by decide, (roundtrip_parsed sampleDefaults oneOfEachParsed oneOfEach DisplayUnits.Metric
    (by decide) (by decide)).2 (by decide) (by decide) (by decide)⟩

set_option maxRecDepth 100000 in
/-- C2, counterexample. A configuration whose three sequences are empty and whose
name is the text `x`, a line break, `Win_Top: 7`. The written text has a line
`Win_Top: 7 ; Configuration name`, so parsing it yields two windows, not the one
default window. -/
theorem default_synthesis_counterexample :
    nameWithLineBreak.speeches = [] ∧ nameWithLineBreak.alarms = [] ∧
    nameWithLineBreak.windows = [] ∧
    (parse sampleDefaults (saveFile nameWithLineBreak) DisplayUnits.Metric).map
      (fun c => c.windows) =
        some [{ top := CInt.ofInt 7, bottom := CInt.ofInt 7 }, defaultWindow] := by
  decide

/-- C2, amended. Default synthesis: for every configuration `C` whose speeches,
alarms and windows are all empty and whose text fields contain no line break,
parsing the text written for `C` succeeds and yields exactly one default entry in
each sequence: the speech (GlideRatio, Miles, 1 decimal), the alarm (elevation 0,
NoAlarm, file `0`) and the window (0, 0). -/
theorem default_synthesis (d C : Configuration) (u : DisplayUnits)
    (hs : C.speeches = []) (ha : C.alarms = []) (hw : C.windows = [])
    (hn : C.noLineBreaks = true) :
    ∃ C1, parse d (saveFile C) u = some C1 ∧
      C1.speeches = [{ mode := Mode.GlideRatio, units := Units.Miles, decimals := CInt.ofInt 1 }] ∧
      C1.alarms = [{ elevation := CInt.ofInt 0, mode := AlarmMode.NoAlarm, file := "0".toList }] ∧
      C1.windows = [{ top := CInt.ofInt 0, bottom := CInt.ofInt 0 }] := by
  refine ⟨_, parse_saveFile d C u hn (by rw [ha]; decide) (by rw [hw]; decide), ?_, ?_, ?_⟩
  · simp only [reloaded, hs, List.isEmpty_nil, if_true]; rfl
  · simp only [reloaded, ha, List.isEmpty_nil, if_true]; rfl
  · simp only [reloaded, hw, List.isEmpty_nil, if_true]; rfl

/-- C2, witness: the written form of a configuration without any entry. -/
theorem default_synthesis_witness :
    ∃ C1, parse sampleDefaults (saveFile sampleDefaults) DisplayUnits.Imperial = some C1 ∧
      C1.speeches = [{ mode := Mode.GlideRatio, units := Units.Miles, decimals := CInt.ofInt 1 }] ∧
      C1.alarms = [{ elevation := CInt.ofInt 0, mode := AlarmMode.NoAlarm, file := "0".toList }] ∧
      C1.windows = [{ top := CInt.ofInt 0, bottom := CInt.ofInt 0 }] :=
  default_synthesis sampleDefaults sampleDefaults DisplayUnits.Imperial rfl rfl rfl (by decide)

/-- C3. Alarm capping: whenever the parser returns a configuration for a text, the
elevations of its alarms are, in order, the integer values of the first
`MAX_ALARMS` = 10 lines with key `Alarm_Elev`, and the number of alarms is the
minimum of 10 and the number of such lines. -/
theorem alarm_capping (d C : Configuration) (t : List Char) (u : DisplayUnits)
    (h : parse d t u = some C) :
    C.alarms.map (fun a => a.elevation) =
      (((readLines t).filter (hasKey "Alarm_Elev")).map (fun l => toInt (resultOf l))).take 10 ∧
    C.alarms.length = min ((readLines t).filter (hasKey "Alarm_Elev")).length 10 := by
  have h1 := loadLines_alarm_elevations (readLines t) (Configuration.init d u) C h
    (by simp [Configuration.init])
  have h2 : C.alarms.map (fun a => a.elevation) =
      (((readLines t).filter (hasKey "Alarm_Elev")).map (fun l => toInt (resultOf l))).take 10 := by
    rw [h1]; rfl
  refine ⟨h2, ?_⟩
  have h3 := congrArg List.length h2
  rw [Nat.min_comm]
  simpa using h3

set_option maxRecDepth 100000 in
/-- C3, witness: of fifteen `Alarm_Elev` lines, the first ten make the alarms. -/
theorem alarm_capping_witness :
    ((readLines fifteenAlarms).filter (hasKey "Alarm_Elev")).length = 15 ∧
    ∃ C, parse sampleDefaults fifteenAlarms DisplayUnits.Metric = some C ∧
      C.alarms.length = 10 ∧
      C.alarms.map (fun a => a.elevation.val) = [1, 2, 3, 4, 5, 6, 7, 8, 9, 10] ∧
      C.alarms.map (fun a => a.elevation) =
        (((readLines fifteenAlarms).filter (hasKey "Alarm_Elev")).map
          (fun l => toInt (resultOf l))).take 10 := by
  refine ⟨by decide, (parse sampleDefaults fifteenAlarms DisplayUnits.Metric).get (by decide),
    by simp, by decide, by decide, ?_⟩
  exact (alarm_capping sampleDefaults _ fifteenAlarms DisplayUnits.Metric (by simp)).1

set_option maxRecDepth 100000 in
/-- C4, failing input. A file with eleven `Sp_Mode` lines and no alarm parses to a
configuration with eleven speeches: the guard of the `Sp_Mode` statement reads the
number of alarms, so nothing caps the speeches. -/
theorem speech_cap_missing :
    (parse sampleDefaults elevenSpeeches DisplayUnits.Metric).map (fun c => c.speeches.length) =
      some 11 := by
  decide

/-- C5, failing input. A continuation key met while its sequence is empty makes the
loop write through `back()` of an empty vector: the run is not a no-op, it reaches
an out-of-bounds access. This holds for the file whose first line is
`Win_Bottom: 50`, and likewise for the four other continuation keys. -/
theorem continuation_before_start (d : Configuration) (u : DisplayUnits) :
    parse d "Win_Bottom: 50".toList u = none ∧
    parse d "Alarm_Type: 1".toList u = none ∧
    parse d "Alarm_File: a.wav".toList u = none ∧
    parse d "Sp_Units: 1".toList u = none ∧
    parse d "Sp_Dec: 2".toList u = none := by
  refine ⟨?_, ?_, ?_, ?_, ?_⟩
  · have hl : readLines "Win_Bottom: 50".toList = ["Win_Bottom: 50".toList] := by decide
    have hn : nameOf "Win_Bottom: 50".toList = "Win_Bottom".toList := by decide
    rw [parse, hl, loadLines, processLine_eq, if_pos (by decide), hn, dispatch_Win_Bottom]
    rfl
  · have hl : readLines "Alarm_Type: 1".toList = ["Alarm_Type: 1".toList] := by decide
    have hn : nameOf "Alarm_Type: 1".toList = "Alarm_Type".toList := by decide
    rw [parse, hl, loadLines, processLine_eq, if_pos (by decide), hn, dispatch_Alarm_Type]
    rfl
  · have hl : readLines "Alarm_File: a.wav".toList = ["Alarm_File: a.wav".toList] := by decide
    have hn : nameOf "Alarm_File: a.wav".toList = "Alarm_File".toList := by decide
    rw [parse, hl, loadLines, processLine_eq, if_pos (by decide), hn, dispatch_Alarm_File]
    rfl
  · have hl : readLines "Sp_Units: 1".toList = ["Sp_Units: 1".toList] := by decide
    have hn : nameOf "Sp_Units: 1".toList = "Sp_Units".toList := by decide
    rw [parse, hl, loadLines, processLine_eq, if_pos (by decide), hn, dispatch_Sp_Units]
    rfl
  · have hl : readLines "Sp_Dec: 2".toList = ["Sp_Dec: 2".toList] := by decide
    have hn : nameOf "Sp_Dec: 2".toList = "Sp_Dec".toList := by decide
    rw [parse, hl, loadLines, processLine_eq, if_pos (by decide), hn, dispatch_Sp_Dec]
    rfl

/-- C6. Legacy alias: on a key:value line whose integer value is `v`, the key
`Window` sets both `alarmWindowAbove` and `alarmWindowBelow` to `v`, the key
`Win_Above` sets `alarmWindowAbove` alone and the key `Win_Below` sets
`alarmWindowBelow` alone, whatever the configuration reached so far; every other
field is left as it is. Every `int` value `v` is the value of the line made of the
key, a colon and the decimal notation of `v`. -/
theorem legacy_alias (c : Configuration) (l : List Char) (v : CInt)
    (hkv : isKeyValue l = true) (hv : toInt (resultOf l) = v) :
    (nameOf l = "Window".toList →
      processLine c l = some { c with alarmWindowAbove := v, alarmWindowBelow := v }) ∧
    (nameOf l = "Win_Above".toList →
      processLine c l = some { c with alarmWindowAbove := v }) ∧
    (nameOf l = "Win_Below".toList →
      processLine c l = some { c with alarmWindowBelow := v }) ∧
    (∀ w : CInt, processLine c ("Window: ".toList ++ intToDec w.val) =
      some { c with alarmWindowAbove := w, alarmWindowBelow := w }) := by
  refine ⟨?_, ?_, ?_, ?_⟩
  · intro hn
    rw [processLine_eq, if_pos hkv, hn, hv, dispatch_Window]
  · intro hn
    rw [processLine_eq, if_pos hkv, hn, hv, dispatch_Win_Above]
  · intro hn
    rw [processLine_eq, if_pos hkv, hn, hv, dispatch_Win_Below]
  · intro w
    rw [processLine_plain_int c "Window: ".toList "Window".toList w (by decide), dispatch_Window]

/-- C6, witness: `Window: 100` followed by `Win_Above: 200`. -/
theorem legacy_alias_witness :
    parse sampleDefaults "Window: 100\nWin_Above: 200".toList DisplayUnits.Metric =
      some { Configuration.init sampleDefaults DisplayUnits.Metric with
        alarmWindowAbove := CInt.ofInt 200, alarmWindowBelow := CInt.ofInt 100 } := by
  have hl : readLines "Window: 100\nWin_Above: 200".toList =
      ["Window: 100".toList, "Win_Above: 200".toList] := by decide
  have h1 := (legacy_alias (Configuration.init sampleDefaults DisplayUnits.Metric)
    "Window: 100".toList (CInt.ofInt 100) (by decide) (by decide)).1 (by decide)
  have h2 := (legacy_alias
    { Configuration.init sampleDefaults DisplayUnits.Metric with
      alarmWindowAbove := CInt.ofInt 100, alarmWindowBelow := CInt.ofInt 100 }
    "Win_Above: 200".toList (CInt.ofInt 200) (by decide) (by decide)).2.1 (by decide)
  rw [parse, hl, loadLines, h1, Option.bind, loadLines, h2]
  rfl

/-- C7. Comment stripping: processing a line gives the same result as processing
its text before the first `;`, whatever follows that `;`. In particular the line
`Rate:   100  ; comment with : colon` sets `rate` to 100 and nothing else. -/
theorem comment_stripping (c : Configuration) (l : List Char) :
    processLine c l = processLine c (l.takeWhile (fun x => x != ';')) ∧
    processLine c "Rate:   100  ; comment with : colon".toList =
      some { c with rate := CInt.ofInt 100 } := by
  constructor
  · have e := stripComment_idem l
    rw [processLine_eq, processLine_eq]
    unfold isKeyValue nameOf resultOf
    rw [show List.takeWhile (fun x => x != ';') l = stripComment l from rfl, e]
  · have hn : nameOf "Rate:   100  ; comment with : colon".toList = "Rate".toList := by decide
    have hr : toInt (resultOf "Rate:   100  ; comment with : colon".toList) = CInt.ofInt 100 := by
      decide
    rw [processLine_eq, if_pos (by decide), hn, hr, dispatch_Rate]

/-- C8. Forgiving parse: a line whose text before the first `;` has no `:`, or
whose trimmed key is not exactly one of the key names of the format, leaves the
configuration unchanged, whatever the configuration. -/
theorem forgiving_parse (c : Configuration) (l : List Char)
    (h : isKeyValue l = false ∨ nameOf l ∉ fixedKeys.map String.toList) :
    processLine c l = some c := by
  rw [processLine_eq]
  by_cases hk : isKeyValue l = true
  · rcases h with h | h
    · rw [hk] at h; exact Bool.noConfusion h
    · rw [if_pos hk, dispatch_unknown c _ _ _ h]
  · rw [if_neg hk]

/-- C8, witness: an empty line, a comment, an unknown key and a key in the wrong case. -/
theorem forgiving_parse_witness :
    processLine oneOfEachParsed [] = some oneOfEachParsed ∧
    processLine oneOfEachParsed "; only a comment : here".toList = some oneOfEachParsed ∧
    processLine oneOfEachParsed "Future_Key: 12".toList = some oneOfEachParsed ∧
    processLine oneOfEachParsed "rate: 100".toList = some oneOfEachParsed :=
  ⟨forgiving_parse _ _ (Or.inl (by decide)), forgiving_parse _ _ (Or.inl (by decide)),
    forgiving_parse _ _ (Or.inr (by decide)), forgiving_parse _ _ (Or.inr (by decide))⟩

/-- C9, counterexample. With a default rate of 7, the line `Rate: 100ms` sets the
rate to 0, not to 100: the conversion of `100ms` fails as a whole. -/
theorem numeric_prefix_counterexample :
    (parse { sampleDefaults with rate := CInt.ofInt 7 } [] DisplayUnits.Metric).map
      (fun c => c.rate.val) = some 7 ∧
    (parse { sampleDefaults with rate := CInt.ofInt 7 } "Rate: 100ms".toList
      DisplayUnits.Metric).map (fun c => c.rate.val) = some 0 := by
  decide

/-- C9, amended. Integer value parsing: for every key:value line, the integer used
for the dispatch is `toInt` of the trimmed value. It is `n` when the trimmed value
is the decimal notation of an `int` `n`, and it is 0 when the trimmed value is not,
as a whole, an optional sign followed by decimal digits: trailing non-numeric
content makes the conversion fail, it is not ignored. -/
theorem integer_value_parsing (c : Configuration) (l : List Char)
    (hkv : isKeyValue l = true) :
    processLine c l = dispatch c (nameOf l) (resultOf l) (toInt (resultOf l)) ∧
    (∀ n : CInt, resultOf l = intToDec n.val → toInt (resultOf l) = n) ∧
    (isDecimalText (resultOf l) = false → toInt (resultOf l) = CInt.ofInt 0) := by
  refine ⟨?_, ?_, ?_⟩
  · rw [processLine_eq, if_pos hkv]
  · intro n hn
    rw [hn, toInt_intToDec]
  · intro hd
    apply toInt_of_not_decimal
    rw [resultOf_trimmed]
    exact hd

/-- C9, witness: values with trailing text, without digits, empty, and negative. -/
theorem integer_value_parsing_witness :
    processLine { sampleDefaults with rate := CInt.ofInt 7 } "Rate: 100ms".toList =
      some { sampleDefaults with rate := CInt.ofInt 0 } ∧
    processLine { sampleDefaults with rate := CInt.ofInt 7 } "Rate: abc".toList =
      some { sampleDefaults with rate := CInt.ofInt 0 } ∧
    processLine { sampleDefaults with rate := CInt.ofInt 7 } "Rate:".toList =
      some { sampleDefaults with rate := CInt.ofInt 0 } ∧
    processLine { sampleDefaults with rate := CInt.ofInt 7 } "Rate: -100".toList =
      some { sampleDefaults with rate := CInt.ofInt (-100) } := by
  refine ⟨?_, ?_, ?_, ?_⟩
  · have h := integer_value_parsing { sampleDefaults with rate := CInt.ofInt 7 }
      "Rate: 100ms".toList (by decide)
    rw [h.1, h.2.2 (by decide)]
    decide
  · have h := integer_value_parsing { sampleDefaults with rate := CInt.ofInt 7 }
      "Rate: abc".toList (by decide)
    rw [h.1, h.2.2 (by decide)]
    decide
  · have h := integer_value_parsing { sampleDefaults with rate := CInt.ofInt 7 }
      "Rate:".toList (by decide)
    rw [h.1, h.2.2 (by decide)]
    decide
  · have h := integer_value_parsing { sampleDefaults with rate := CInt.ofInt 7 }
      "Rate: -100".toList (by decide)
    rw [h.1, h.2.1 (CInt.ofInt (-100)) (by decide)]
    decide

/-- C10, counterexample. The line `Init_File: a:b` stores `a`, not `a:b`: the line
is cut at every colon and only the second part is used. -/
theorem second_colon_counterexample :
    (parse sampleDefaults "Init_File: a:b".toList DisplayUnits.Metric).map
      (fun c => c.initFile) = some "a".toList := by
  decide

/-- C10, amended. String values: for each text key (`Config_Name`,
`Config_Description`, `Config_Kind`, `Init_File`), a line with that key stores in
the field the value of the line, which is the trimmed text between the first and
the second `:` of the line without its comment, or the trimmed text after the
first `:` when there is no second one. Text after a second colon is dropped. -/
theorem string_values (c : Configuration) (l : List Char) (hkv : isKeyValue l = true) :
    (nameOf l = "Config_Name".toList →
      processLine c l = some { c with configName := resultOf l }) ∧
    (nameOf l = "Config_Description".toList →
      processLine c l = some { c with configDescription := resultOf l }) ∧
    (nameOf l = "Config_Kind".toList →
      processLine c l = some { c with configKind := resultOf l }) ∧
    (nameOf l = "Init_File".toList →
      processLine c l = some { c with initFile := resultOf l }) ∧
    (∀ k a b : List Char, ':' ∉ k → ';' ∉ k → ':' ∉ a → ';' ∉ a →
      resultOf (k ++ ':' :: (a ++ ':' :: b)) = trimmed a) ∧
    (∀ k a : List Char, ':' ∉ k → ';' ∉ k → ':' ∉ a → ';' ∉ a →
      resultOf (k ++ ':' :: a) = trimmed a) := by
  refine ⟨?_, ?_, ?_, ?_, ?_, ?_⟩
  · intro hn
    rw [processLine_eq, if_pos hkv, hn, dispatch_Config_Name]
  · intro hn
    rw [processLine_eq, if_pos hkv, hn, dispatch_Config_Description]
  · intro hn
    rw [processLine_eq, if_pos hkv, hn, dispatch_Config_Kind]
  · intro hn
    rw [processLine_eq, if_pos hkv, hn, dispatch_Init_File]
  · intro k a b h1 h2 h3 h4
    exact between_colons k a b h1 h2 h3 h4
  · intro k a h1 h2 h3 h4
    exact after_colon k a h1 h2 h3 h4

/-- C10, witness: a value with a second colon, and a value with blanks and a comment. -/
theorem string_values_witness :
    processLine sampleDefaults "Init_File: a:b".toList =
      some { sampleDefaults with initFile := "a".toList } ∧
    processLine sampleDefaults "Init_File:  my file.wav  ; played at start".toList =
      some { sampleDefaults with initFile := "my file.wav".toList } := by
  constructor
  · rw [(string_values sampleDefaults "Init_File: a:b".toList (by decide)).2.2.2.1 (by decide)]
    decide
  · rw [(string_values sampleDefaults "Init_File:  my file.wav  ; played at start".toList
      (by decide)).2.2.2.1 (by decide)]
    decide

/-! ## The keys of the written lines -/

theorem keysOf_nil : keysOf [] = [] := rfl

theorem keysOf_cons_skip (l : List Char) (ls : List (List Char)) (h : isKeyValue l = false) :
    keysOf (l :: ls) = keysOf ls := by
  simp [keysOf, List.filter_cons, h]

theorem keysOf_cons_key (l : List Char) (ls : List (List Char)) (h : isKeyValue l = true) :
    keysOf (l :: ls) = nameOf l :: keysOf ls := by
  simp [keysOf, List.filter_cons, h]

theorem keysOf_append (a b : List (List Char)) : keysOf (a ++ b) = keysOf a ++ keysOf b := by
  simp [keysOf, List.filter_append]

theorem keysOf_text (pre key cmt value : List Char) (ls : List (List Char))
    (hpre : isKeyPrefix pre key = true) (hcmt : isCommentSuffix cmt = true) :
    keysOf ((pre ++ rightJustified value 5 ++ cmt) :: ls) = key :: keysOf ls := by
  obtain ⟨h1, h2, _⟩ := written_line pre key cmt value (List.replicate (5 - value.length) ' ')
    hpre hcmt (fun x hx => (List.mem_replicate.mp hx).2)
  have e : pre ++ rightJustified value 5 ++ cmt =
      pre ++ (List.replicate (5 - value.length) ' ' ++ value) ++ cmt := rfl
  rw [e, keysOf_cons_key _ _ h1, h2]

theorem keysOf_arg (pre key cmt : List Char) (v : CInt) (ls : List (List Char))
    (hpre : isKeyPrefix pre key = true) (hcmt : isCommentSuffix cmt = true) :
    keysOf ((pre ++ arg v 5 ++ cmt) :: ls) = key :: keysOf ls :=
  keysOf_text pre key cmt (intToDec v.val) ls hpre hcmt

theorem keys_Config_Name (s : List Char) (ls : List (List Char)) :
    keysOf (("Config_Name:  ".toList ++ rightJustified s 5 ++
      " ; Configuration name".toList) :: ls) =
      "Config_Name".toList :: keysOf ls :=
  keysOf_text "Config_Name:  ".toList "Config_Name".toList
    " ; Configuration name".toList s ls (by decide) (by decide)

theorem keys_Config_Description (s : List Char) (ls : List (List Char)) :
    keysOf (("Config_Description:  ".toList ++ rightJustified s 5 ++
      " ; Configuration Description".toList) :: ls) =
      "Config_Description".toList :: keysOf ls :=
  keysOf_text "Config_Description:  ".toList "Config_Description".toList
    " ; Configuration Description".toList s ls (by decide) (by decide)

theorem keys_Config_Kind (s : List Char) (ls : List (List Char)) :
    keysOf (("Config_Kind:  ".toList ++ rightJustified s 5 ++
      " ; Configuration kind. Allows to group configuration files together".toList) :: ls) =
      "Config_Kind".toList :: keysOf ls :=
  keysOf_text "Config_Kind:  ".toList "Config_Kind".toList
    " ; Configuration kind. Allows to group configuration files together".toList s ls (by decide) (by decide)

theorem keys_Model (v : CInt) (ls : List (List Char)) :
    keysOf (("Model:      ".toList ++ arg v 5 ++
      " ; Dynamic model".toList) :: ls) =
      "Model".toList :: keysOf ls :=
  keysOf_arg "Model:      ".toList "Model".toList
    " ; Dynamic model".toList v ls (by decide) (by decide)

theorem keys_Rate (v : CInt) (ls : List (List Char)) :
    keysOf (("Rate:       ".toList ++ arg v 5 ++
      " ; Measurement rate (ms)".toList) :: ls) =
      "Rate".toList :: keysOf ls :=
  keysOf_arg "Rate:       ".toList "Rate".toList
    " ; Measurement rate (ms)".toList v ls (by decide) (by decide)

theorem keys_Mode (v : CInt) (ls : List (List Char)) :
    keysOf (("Mode:       ".toList ++ arg v 5 ++
      " ; Measurement mode".toList) :: ls) =
      "Mode".toList :: keysOf ls :=
  keysOf_arg "Mode:       ".toList "Mode".toList
    " ; Measurement mode".toList v ls (by decide) (by decide)

theorem keys_Min (v : CInt) (ls : List (List Char)) :
    keysOf (("Min:        ".toList ++ arg v 5 ++
      " ; Lowest pitch value".toList) :: ls) =
      "Min".toList :: keysOf ls :=
  keysOf_arg "Min:        ".toList "Min".toList
    " ; Lowest pitch value".toList v ls (by decide) (by decide)

theorem keys_Max (v : CInt) (ls : List (List Char)) :
    keysOf (("Max:        ".toList ++ arg v 5 ++
      " ; Highest pitch value".toList) :: ls) =
      "Max".toList :: keysOf ls :=
  keysOf_arg "Max:        ".toList "Max".toList
    " ; Highest pitch value".toList v ls (by decide) (by decide)

theorem keys_Limits (v : CInt) (ls : List (List Char)) :
    keysOf (("Limits:     ".toList ++ arg v 5 ++
      " ; Behaviour when outside bounds".toList) :: ls) =
      "Limits".toList :: keysOf ls :=
  keysOf_arg "Limits:     ".toList "Limits".toList
    " ; Behaviour when outside bounds".toList v ls (by decide) (by decide)

theorem keys_Volume (v : CInt) (ls : List (List Char)) :
    keysOf (("Volume:     ".toList ++ arg v 5 ++
      " ; 0 (min) to 8 (max)".toList) :: ls) =
      "Volume".toList :: keysOf ls :=
  keysOf_arg "Volume:     ".toList "Volume".toList
    " ; 0 (min) to 8 (max)".toList v ls (by decide) (by decide)

theorem keys_Mode_2 (v : CInt) (ls : List (List Char)) :
    keysOf (("Mode_2:     ".toList ++ arg v 5 ++
      " ; Determines tone rate".toList) :: ls) =
      "Mode_2".toList :: keysOf ls :=
  keysOf_arg "Mode_2:     ".toList "Mode_2".toList
    " ; Determines tone rate".toList v ls (by decide) (by decide)

theorem keys_Min_Val_2 (v : CInt) (ls : List (List Char)) :
    keysOf (("Min_Val_2:  ".toList ++ arg v 5 ++
      " ; Lowest rate value".toList) :: ls) =
      "Min_Val_2".toList :: keysOf ls :=
  keysOf_arg "Min_Val_2:  ".toList "Min_Val_2".toList
    " ; Lowest rate value".toList v ls (by decide) (by decide)

theorem keys_Max_Val_2 (v : CInt) (ls : List (List Char)) :
    keysOf (("Max_Val_2:  ".toList ++ arg v 5 ++
      " ; Highest rate value".toList) :: ls) =
      "Max_Val_2".toList :: keysOf ls :=
  keysOf_arg "Max_Val_2:  ".toList "Max_Val_2".toList
    " ; Highest rate value".toList v ls (by decide) (by decide)

theorem keys_Min_Rate (v : CInt) (ls : List (List Char)) :
    keysOf (("Min_Rate:   ".toList ++ arg v 5 ++
      " ; Minimum rate (Hz * 100)".toList) :: ls) =
      "Min_Rate".toList :: keysOf ls :=
  keysOf_arg "Min_Rate:   ".toList "Min_Rate".toList
    " ; Minimum rate (Hz * 100)".toList v ls (by decide) (by decide)

theorem keys_Max_Rate (v : CInt) (ls : List (List Char)) :
    keysOf (("Max_Rate:   ".toList ++ arg v 5 ++
      " ; Maximum rate (Hz * 100)".toList) :: ls) =
      "Max_Rate".toList :: keysOf ls :=
  keysOf_arg "Max_Rate:   ".toList "Max_Rate".toList
    " ; Maximum rate (Hz * 100)".toList v ls (by decide) (by decide)

theorem keys_Flatline (v : CInt) (ls : List (List Char)) :
    keysOf (("Flatline:   ".toList ++ arg v 5 ++
      " ; Flatline at minimum rate".toList) :: ls) =
      "Flatline".toList :: keysOf ls :=
  keysOf_arg "Flatline:   ".toList "Flatline".toList
    " ; Flatline at minimum rate".toList v ls (by decide) (by decide)

theorem keys_Sp_Rate (v : CInt) (ls : List (List Char)) :
    keysOf (("Sp_Rate:    ".toList ++ arg v 5 ++
      " ; Speech rate (s)".toList) :: ls) =
      "Sp_Rate".toList :: keysOf ls :=
  keysOf_arg "Sp_Rate:    ".toList "Sp_Rate".toList
    " ; Speech rate (s)".toList v ls (by decide) (by decide)

theorem keys_Sp_Volume (v : CInt) (ls : List (List Char)) :
    keysOf (("Sp_Volume:  ".toList ++ arg v 5 ++
      " ; 0 (min) to 8 (max)".toList) :: ls) =
      "Sp_Volume".toList :: keysOf ls :=
  keysOf_arg "Sp_Volume:  ".toList "Sp_Volume".toList
    " ; 0 (min) to 8 (max)".toList v ls (by decide) (by decide)

theorem keys_V_Thresh (v : CInt) (ls : List (List Char)) :
    keysOf (("V_Thresh:   ".toList ++ arg v 5 ++
      " ; Minimum vertical speed for tone (cm/s)".toList) :: ls) =
      "V_Thresh".toList :: keysOf ls :=
  keysOf_arg "V_Thresh:   ".toList "V_Thresh".toList
    " ; Minimum vertical speed for tone (cm/s)".toList v ls (by decide) (by decide)

theorem keys_H_Thresh (v : CInt) (ls : List (List Char)) :
    keysOf (("H_Thresh:   ".toList ++ arg v 5 ++
      " ; Minimum horizontal speed for tone (cm/s)".toList) :: ls) =
      "H_Thresh".toList :: keysOf ls :=
  keysOf_arg "H_Thresh:   ".toList "H_Thresh".toList
    " ; Minimum horizontal speed for tone (cm/s)".toList v ls (by decide) (by decide)

theorem keys_Use_SAS (v : CInt) (ls : List (List Char)) :
    keysOf (("Use_SAS:    ".toList ++ arg v 5 ++
      " ; Use skydiver's airspeed".toList) :: ls) =
      "Use_SAS".toList :: keysOf ls :=
  keysOf_arg "Use_SAS:    ".toList "Use_SAS".toList
    " ; Use skydiver's airspeed".toList v ls (by decide) (by decide)

theorem keys_TZ_Offset (v : CInt) (ls : List (List Char)) :
    keysOf (("TZ_Offset:  ".toList ++ arg v 5 ++
      " ; Timezone offset of output files in seconds".toList) :: ls) =
      "TZ_Offset".toList :: keysOf ls :=
  keysOf_arg "TZ_Offset:  ".toList "TZ_Offset".toList
    " ; Timezone offset of output files in seconds".toList v ls (by decide) (by decide)

theorem keys_Init_Mode (v : CInt) (ls : List (List Char)) :
    keysOf (("Init_Mode:  ".toList ++ arg v 5 ++
      " ; When the FlySight is powered on".toList) :: ls) =
      "Init_Mode".toList :: keysOf ls :=
  keysOf_arg "Init_Mode:  ".toList "Init_Mode".toList
    " ; When the FlySight is powered on".toList v ls (by decide) (by decide)

theorem keys_Init_File (s : List Char) (ls : List (List Char)) :
    keysOf (("Init_File:  ".toList ++ rightJustified s 5 ++
      " ; File to be played".toList) :: ls) =
      "Init_File".toList :: keysOf ls :=
  keysOf_text "Init_File:  ".toList "Init_File".toList
    " ; File to be played".toList s ls (by decide) (by decide)

theorem keys_Window (v : CInt) (ls : List (List Char)) :
    keysOf (("Window:     ".toList ++ arg v 5 ++
      " ; Alarm window (m)".toList) :: ls) =
      "Window".toList :: keysOf ls :=
  keysOf_arg "Window:     ".toList "Window".toList
    " ; Alarm window (m)".toList v ls (by decide) (by decide)

theorem keys_Win_Above (v : CInt) (ls : List (List Char)) :
    keysOf (("Win_Above:  ".toList ++ arg v 5 ++
      " ; Alarm window (m)".toList) :: ls) =
      "Win_Above".toList :: keysOf ls :=
  keysOf_arg "Win_Above:  ".toList "Win_Above".toList
    " ; Alarm window (m)".toList v ls (by decide) (by decide)

theorem keys_Win_Below (v : CInt) (ls : List (List Char)) :
    keysOf (("Win_Below:  ".toList ++ arg v 5 ++
      " ; Alarm window (m)".toList) :: ls) =
      "Win_Below".toList :: keysOf ls :=
  keysOf_arg "Win_Below:  ".toList "Win_Below".toList
    " ; Alarm window (m)".toList v ls (by decide) (by decide)

theorem keys_DZ_Elev (v : CInt) (ls : List (List Char)) :
    keysOf (("DZ_Elev:    ".toList ++ arg v 5 ++
      " ; Ground elevation (m above sea level)".toList) :: ls) =
      "DZ_Elev".toList :: keysOf ls :=
  keysOf_arg "DZ_Elev:    ".toList "DZ_Elev".toList
    " ; Ground elevation (m above sea level)".toList v ls (by decide) (by decide)

theorem keys_Alt_Units (v : CInt) (ls : List (List Char)) :
    keysOf (("Alt_Units:  ".toList ++ arg v 5 ++
      " ; Altitude units".toList) :: ls) =
      "Alt_Units".toList :: keysOf ls :=
  keysOf_arg "Alt_Units:  ".toList "Alt_Units".toList
    " ; Altitude units".toList v ls (by decide) (by decide)

theorem keys_Alt_Step (v : CInt) (ls : List (List Char)) :
    keysOf (("Alt_Step:   ".toList ++ arg v 5 ++
      " ; Altitude between announcements".toList) :: ls) =
      "Alt_Step".toList :: keysOf ls :=
  keysOf_arg "Alt_Step:   ".toList "Alt_Step".toList
    " ; Altitude between announcements".toList v ls (by decide) (by decide)

theorem keys_Sp_Mode (v : CInt) (ls : List (List Char)) :
    keysOf (("Sp_Mode:    ".toList ++ arg v 5 ++
      " ; Speech mode".toList) :: ls) =
      "Sp_Mode".toList :: keysOf ls :=
  keysOf_arg "Sp_Mode:    ".toList "Sp_Mode".toList
    " ; Speech mode".toList v ls (by decide) (by decide)

theorem keys_Sp_Units (v : CInt) (ls : List (List Char)) :
    keysOf (("Sp_Units:   ".toList ++ arg v 5 ++
      " ; Speech units".toList) :: ls) =
      "Sp_Units".toList :: keysOf ls :=
  keysOf_arg "Sp_Units:   ".toList "Sp_Units".toList
    " ; Speech units".toList v ls (by decide) (by decide)

theorem keys_Sp_Dec (v : CInt) (ls : List (List Char)) :
    keysOf (("Sp_Dec:     ".toList ++ arg v 5 ++
      " ; Speech precision".toList) :: ls) =
      "Sp_Dec".toList :: keysOf ls :=
  keysOf_arg "Sp_Dec:     ".toList "Sp_Dec".toList
    " ; Speech precision".toList v ls (by decide) (by decide)

theorem keys_Alarm_Elev (v : CInt) (ls : List (List Char)) :
    keysOf (("Alarm_Elev: ".toList ++ arg v 5 ++
      " ; Alarm elevation (m above ground level)".toList) :: ls) =
      "Alarm_Elev".toList :: keysOf ls :=
  keysOf_arg "Alarm_Elev: ".toList "Alarm_Elev".toList
    " ; Alarm elevation (m above ground level)".toList v ls (by decide) (by decide)

theorem keys_Alarm_Type (v : CInt) (ls : List (List Char)) :
    keysOf (("Alarm_Type: ".toList ++ arg v 5 ++
      " ; Alarm type".toList) :: ls) =
      "Alarm_Type".toList :: keysOf ls :=
  keysOf_arg "Alarm_Type: ".toList "Alarm_Type".toList
    " ; Alarm type".toList v ls (by decide) (by decide)

theorem keys_Alarm_File (s : List Char) (ls : List (List Char)) :
    keysOf (("Alarm_File: ".toList ++ rightJustified s 5 ++
      " ; File to be played".toList) :: ls) =
      "Alarm_File".toList :: keysOf ls :=
  keysOf_text "Alarm_File: ".toList "Alarm_File".toList
    " ; File to be played".toList s ls (by decide) (by decide)

theorem keys_Win_Top (v : CInt) (ls : List (List Char)) :
    keysOf (("Win_Top:    ".toList ++ arg v 5 ++
      " ; Silence window top (m)".toList) :: ls) =
      "Win_Top".toList :: keysOf ls :=
  keysOf_arg "Win_Top:    ".toList "Win_Top".toList
    " ; Silence window top (m)".toList v ls (by decide) (by decide)

theorem keys_Win_Bottom (v : CInt) (ls : List (List Char)) :
    keysOf (("Win_Bottom: ".toList ++ arg v 5 ++
      " ; Silence window bottom (m)".toList) :: ls) =
      "Win_Bottom".toList :: keysOf ls :=
  keysOf_arg "Win_Bottom: ".toList "Win_Bottom".toList
    " ; Silence window bottom (m)".toList v ls (by decide) (by decide)

theorem keysOf_saveGeneral (C : Configuration) :
    keysOf (saveGeneral C) = generalKeys.map String.toList := by
  unfold saveGeneral
  simp (disch := decide) only [keysOf_cons_skip, keysOf_nil,
    keys_Config_Name, keys_Config_Description, keys_Config_Kind, keys_Model, keys_Rate,
    keys_Mode, keys_Min, keys_Max, keys_Limits, keys_Volume, keys_Mode_2, keys_Min_Val_2,
    keys_Max_Val_2, keys_Min_Rate, keys_Max_Rate, keys_Flatline, keys_Sp_Rate,
    keys_Sp_Volume]
  rfl

theorem keysOf_saveThresholds (C : Configuration) :
    keysOf (saveThresholds C) = thresholdKeys.map String.toList := by
  unfold saveThresholds
  simp (disch := decide) only [keysOf_cons_skip, keysOf_nil,
    keys_V_Thresh, keys_H_Thresh, keys_Use_SAS, keys_TZ_Offset, keys_Init_Mode,
    keys_Init_File, keys_Window, keys_Win_Above, keys_Win_Below, keys_DZ_Elev]
  rfl

theorem keysOf_saveAltitude (C : Configuration) :
    keysOf (saveAltitude C) = altitudeKeys.map String.toList := by
  unfold saveAltitude
  simp (disch := decide) only [keysOf_cons_skip, keysOf_nil,
    keys_Alt_Units, keys_Alt_Step]
  rfl

theorem keysOf_saveSpeech (s : Speech) (first : Bool) :
    keysOf (saveSpeech s first) = speechKeys.map String.toList := by
  unfold saveSpeech
  cases first <;>
  simp (disch := decide) only [List.cons_append, List.nil_append, List.append_nil, if_true,
    if_false, Bool.false_eq_true, keysOf_cons_skip, keysOf_nil, keys_Sp_Mode, keys_Sp_Units,
    keys_Sp_Dec] <;> rfl

theorem keysOf_saveAlarm (a : Alarm) (first : Bool) :
    keysOf (saveAlarm a first) = alarmKeys.map String.toList := by
  unfold saveAlarm
  cases first <;>
  simp (disch := decide) only [List.cons_append, List.nil_append, List.append_nil, if_true,
    if_false, Bool.false_eq_true, keysOf_cons_skip, keysOf_nil, keys_Alarm_Elev,
    keys_Alarm_Type, keys_Alarm_File] <;> rfl

theorem keysOf_saveWindow (w : Window) :
    keysOf (saveWindow w) = windowKeys.map String.toList := by
  unfold saveWindow
  simp (disch := decide) only [keysOf_cons_skip, keysOf_nil, keys_Win_Top, keys_Win_Bottom]
  rfl

theorem keysOf_saveSpeeches (ss : List Speech) (first : Bool) :
    keysOf (saveSpeeches ss first) =
      (List.replicate ss.length (speechKeys.map String.toList)).flatten := by
  induction ss generalizing first with
  | nil => rfl
  | cons s ss ih =>
    rw [saveSpeeches, keysOf_append, keysOf_saveSpeech, ih false]
    simp [List.replicate_succ]

theorem keysOf_saveAlarms (al : List Alarm) (first : Bool) :
    keysOf (saveAlarms al first) =
      (List.replicate al.length (alarmKeys.map String.toList)).flatten := by
  induction al generalizing first with
  | nil => rfl
  | cons a al ih =>
    rw [saveAlarms, keysOf_append, keysOf_saveAlarm, ih false]
    simp [List.replicate_succ]

theorem keysOf_saveWindows (ws : List Window) :
    keysOf (saveWindows ws) =
      (List.replicate ws.length (windowKeys.map String.toList)).flatten := by
  induction ws with
  | nil => rfl
  | cons w ws ih =>
    rw [saveWindows, keysOf_append, keysOf_saveWindow, ih]
    simp [List.replicate_succ]

theorem map_flatten_replicate (n : Nat) (ks : List String) :
    ((List.replicate n ks).flatten).map String.toList =
      (List.replicate n (ks.map String.toList)).flatten := by
  induction n with
  | zero => rfl
  | succ n ih => simp [List.replicate_succ, ih]

theorem max_one_length {α : Type} (l : List α) :
    max 1 l.length = if l.isEmpty then 1 else l.length := by
  cases l with
  | nil => rfl
  | cons a l => simp [List.length_cons]

/-- The keys of the lines written by `saveFile`, in order, for every configuration. -/
theorem keysOf_saveFileLines (C : Configuration) :
    keysOf (saveFileLines C) = (expectedKeys C).map String.toList := by
  unfold saveFileLines expectedKeys
  simp only [keysOf_append, List.map_append, keysOf_saveGeneral, keysOf_saveThresholds,
    keysOf_saveAltitude, map_flatten_replicate, max_one_length]
  have e1 : keysOf (if C.speeches.isEmpty then saveSpeech defaultSpeech true
      else saveSpeeches C.speeches true) =
      (List.replicate (if C.speeches.isEmpty then 1 else C.speeches.length)
        (speechKeys.map String.toList)).flatten := by
    split
    · rw [keysOf_saveSpeech]; simp
    · exact keysOf_saveSpeeches _ _
  have e2 : keysOf (if C.alarms.isEmpty then saveAlarm defaultAlarm true
      else saveAlarms C.alarms true) =
      (List.replicate (if C.alarms.isEmpty then 1 else C.alarms.length)
        (alarmKeys.map String.toList)).flatten := by
    split
    · rw [keysOf_saveAlarm]; simp
    · exact keysOf_saveAlarms _ _
  have e3 : keysOf (if C.windows.isEmpty then saveWindow defaultWindow
      else saveWindows C.windows) =
      (List.replicate (if C.windows.isEmpty then 1 else C.windows.length)
        (windowKeys.map String.toList)).flatten := by
    split
    · rw [keysOf_saveWindow]; simp
    · exact keysOf_saveWindows _
  rw [e1, e2, e3]

theorem mem_flatten_replicate {α : Type} (n : Nat) (ks : List α) (x : α) (hn : 0 < n)
    (hx : x ∈ ks) : x ∈ (List.replicate n ks).flatten := by
  cases n with
  | zero => omega
  | succ n => simp [List.replicate_succ, hx]

theorem fixedKeys_split : ∀ k ∈ fixedKeys, k ∈ generalKeys ∨ k ∈ speechKeys ∨
    k ∈ thresholdKeys ∨ k ∈ alarmKeys ∨ k ∈ altitudeKeys ∨ k ∈ windowKeys := by
  decide

/-- Every key name of the format is among the keys of the written file. -/
theorem fixedKeys_subset_expectedKeys (C : Configuration) :
    ∀ k ∈ fixedKeys, k ∈ expectedKeys C := by
  intro k hk
  have h1 : 0 < max 1 C.speeches.length := by omega
  have h2 : 0 < max 1 C.alarms.length := by omega
  have h3 : 0 < max 1 C.windows.length := by omega
  unfold expectedKeys
  simp only [List.mem_append]
  rcases fixedKeys_split k hk with h | h | h | h | h | h
  · exact Or.inl (Or.inl (Or.inl (Or.inl (Or.inl h))))
  · exact Or.inl (Or.inl (Or.inl (Or.inl (Or.inr (mem_flatten_replicate _ _ _ h1 h)))))
  · exact Or.inl (Or.inl (Or.inl (Or.inr h)))
  · exact Or.inl (Or.inl (Or.inr (mem_flatten_replicate _ _ _ h2 h)))
  · exact Or.inl (Or.inr h)
  · exact Or.inr (mem_flatten_replicate _ _ _ h3 h)

/-! ## Frame facts for single lines -/

/-- A line that is not a key:value line, or whose key is not a key name of the
format, changes nothing. -/
theorem processLine_noop (c : Configuration) (l : List Char)
    (h : isKeyValue l = false ∨ nameOf l ∉ fixedKeys.map String.toList) :
    processLine c l = some c := by
  rw [processLine_eq]
  by_cases hk : isKeyValue l = true
  · rcases h with h | h
    · rw [hk] at h; exact Bool.noConfusion h
    · rw [if_pos hk, dispatch_unknown c _ _ _ h]
  · rw [if_neg hk]

theorem loadLines_noop (lines : List (List Char)) (c : Configuration)
    (h : ∀ l ∈ lines, isKeyValue l = false ∨ nameOf l ∉ fixedKeys.map String.toList) :
    loadLines c lines = some c := by
  induction lines with
  | nil => rfl
  | cons l ls ih =>
    rw [loadLines, processLine_noop c l (h l (List.mem_cons_self _ _))]
    exact ih (fun x hx => h x (List.mem_cons_of_mem _ hx))

/-- No line changes the display units. -/
theorem processLine_displayUnits (c c1 : Configuration) (l : List Char)
    (h : processLine c l = some c1) : c1.displayUnits = c.displayUnits := by
  rcases processLine_some c c1 l h with ⟨_, rfl⟩ | ⟨_, hd⟩
  · rfl
  · rcases dispatch_sequences c c1 _ _ _ hd with
      ⟨hn, rfl⟩ | ⟨hn, rfl⟩ | ⟨hn, al, x, h1, rfl⟩ | ⟨hn, al, x, h1, rfl⟩ | ⟨hn, rfl⟩ |
      ⟨hn, ws, x, h1, rfl⟩ | ⟨hn, rfl⟩ | ⟨hn, ss, x, h1, rfl⟩ | ⟨hn, ss, x, h1, rfl⟩
    · exact (handleValues_frame c _ _ _).2.2.2.1
    all_goals first | rfl | (split <;> rfl)

theorem loadLines_displayUnits (lines : List (List Char)) :
    ∀ (c c1 : Configuration), loadLines c lines = some c1 →
      c1.displayUnits = c.displayUnits := by
  induction lines with
  | nil =>
    intro c c1 h
    simp only [loadLines, Option.some.injEq] at h
    rw [h]
  | cons l ls ih =>
    intro c c1 h
    simp only [loadLines] at h
    obtain ⟨c2, h2, h3⟩ := Option.bind_eq_some.mp h
    rw [ih c2 c1 h3, processLine_displayUnits c c2 l h2]

/-! ## The silence windows -/

/-- One line and the window tops: a line with key `Win_Top` appends its value while
fewer than `MAX_WINDOWS` windows exist; any other line that is processed leaves the
tops as they are. -/
theorem processLine_window_tops (c c1 : Configuration) (l : List Char)
    (h : processLine c l = some c1) :
    c1.windows.map (fun w => w.top) =
      if hasKey "Win_Top" l = true ∧ c.windows.length < MAX_WINDOWS then
        c.windows.map (fun w => w.top) ++ [toInt (resultOf l)]
      else c.windows.map (fun w => w.top) := by
  rcases processLine_some c c1 l h with ⟨hk, rfl⟩ | ⟨hk, hd⟩
  · have : ¬ (hasKey "Win_Top" l = true) := by
      rw [hasKey_iff]; rintro ⟨h1, _⟩; rw [hk] at h1; exact Bool.noConfusion h1
    rw [if_neg (fun hh => this hh.1)]
  · rcases dispatch_sequences c c1 _ _ _ hd with
      ⟨hn, rfl⟩ | ⟨hn, rfl⟩ | ⟨hn, al, x, h1, rfl⟩ | ⟨hn, al, x, h1, rfl⟩ | ⟨hn, rfl⟩ |
      ⟨hn, ws, x, h1, rfl⟩ | ⟨hn, rfl⟩ | ⟨hn, ss, x, h1, rfl⟩ | ⟨hn, ss, x, h1, rfl⟩
    case inr.intro.inr.inr.inr.inr.inl.intro =>
      have hy : hasKey "Win_Top" l = true := (hasKey_iff _ _).mpr ⟨hk, hn⟩
      by_cases hlt : c.windows.length < MAX_WINDOWS
      · rw [if_pos hlt, if_pos ⟨hy, hlt⟩]; simp
      · rw [if_neg hlt, if_neg (fun hh => hlt hh.2)]
    case inr.intro.inl.intro =>
      have hne : ¬ (hasKey "Win_Top" l = true) := by
        rw [hasKey_iff]; rintro ⟨_, h2⟩
        apply hn; rw [h2]; decide
      rw [if_neg (fun hh => hne hh.1), (handleValues_frame c _ _ _).2.2.1]
    all_goals
      have hne : ¬ (hasKey "Win_Top" l = true) := by
        rw [hasKey_iff]; rintro ⟨_, h2⟩
        rw [hn] at h2; revert h2; decide
      have hR : (if hasKey "Win_Top" l = true ∧ c.windows.length < MAX_WINDOWS then
          c.windows.map (fun w => w.top) ++ [toInt (resultOf l)]
          else c.windows.map (fun w => w.top)) = c.windows.map (fun w => w.top) :=
        if_neg (fun hh => hne hh.1)
      rw [hR]
      try first
        | (rw [h1]; simp)
        | (split <;> rfl)

theorem processLine_windows_length (c c1 : Configuration) (l : List Char)
    (h : processLine c l = some c1) (hc : c.windows.length ≤ MAX_WINDOWS) :
    c1.windows.length ≤ MAX_WINDOWS := by
  have h1 := congrArg List.length (processLine_window_tops c c1 l h)
  rw [List.length_map] at h1
  rw [h1]
  split
  · rename_i hh
    simp only [List.length_append, List.length_map, List.length_singleton]
    omega
  · simpa using hc

/-- The loop and the window tops: those present at the start, followed by the
values of the `Win_Top` lines in file order, cut after `MAX_WINDOWS` entries. -/
theorem loadLines_window_tops (lines : List (List Char)) :
    ∀ (c c1 : Configuration), loadLines c lines = some c1 → c.windows.length ≤ MAX_WINDOWS →
      c1.windows.map (fun w => w.top) =
        (c.windows.map (fun w => w.top) ++ valuesOf "Win_Top" lines).take MAX_WINDOWS := by
  induction lines with
  | nil =>
    intro c c1 h hc
    simp only [loadLines, Option.some.injEq] at h
    subst h
    simp only [valuesOf, List.filter_nil, List.map_nil, List.append_nil]
    rw [List.take_of_length_le (by simpa using hc)]
  | cons l ls ih =>
    intro c c1 h hc
    simp only [loadLines] at h
    obtain ⟨c2, h2, h3⟩ := Option.bind_eq_some.mp h
    have hstep := processLine_window_tops c c2 l h2
    have hlen := processLine_windows_length c c2 l h2 hc
    rw [ih c2 c1 h3 hlen, hstep]
    by_cases hy : hasKey "Win_Top" l = true
    · have hv : valuesOf "Win_Top" (l :: ls) =
          toInt (resultOf l) :: valuesOf "Win_Top" ls := by
        simp [valuesOf, List.filter_cons, hy]
      rw [hv]
      by_cases hlt : c.windows.length < MAX_WINDOWS
      · rw [if_pos ⟨hy, hlt⟩]; simp
      · rw [if_neg (fun hh => hlt hh.2)]
        have he : (c.windows.map (fun w => w.top)).length = MAX_WINDOWS := by
          rw [List.length_map]; omega
        rw [List.take_left' he, List.take_left' he]
    · have hv : valuesOf "Win_Top" (l :: ls) = valuesOf "Win_Top" ls := by
        simp [valuesOf, List.filter_cons, hy]
      rw [hv, if_neg (fun hh => hy hh.1)]

/-! ## Scalar keys: the last occurrence wins -/

theorem handleValue_preserves_unless (P : Configuration → Prop) (name : List Char) (s : String)
    (set : Configuration → Configuration) (c : Configuration)
    (h1 : P c) (h2 : name = s.toList → ∀ c, P c → P (set c)) : P (handleValue name s set c) := by
  unfold handleValue
  split
  · rename_i e
    exact h2 e c h1
  · exact h1

/-- From what the scalar statements do to a field to what one line does to it: a
line with key `k` sets the field to the cast of its value, every other line that
is processed leaves the field as it is. -/
theorem processLine_field {α : Type} (k : String) (get : Configuration → α) (cast : CInt → α)
    (hk : k.toList ∉ sequenceKeys.map String.toList)
    (hv : ∀ c n r v, get (handleValues c n r v) = if n = k.toList then cast v else get c)
    (hseq : ∀ (c : Configuration) (sp : List Speech) (al : List Alarm) (ws : List Window),
      get { c with speeches := sp, alarms := al, windows := ws } = get c)
    (c c1 : Configuration) (l : List Char) (h : processLine c l = some c1) :
    get c1 = if hasKey k l = true then cast (toInt (resultOf l)) else get c := by
  rcases processLine_some c c1 l h with ⟨hkv, rfl⟩ | ⟨hkv, hd⟩
  · have : ¬ (hasKey k l = true) := by
      rw [hasKey_iff]; rintro ⟨h1, _⟩; rw [hkv] at h1; exact Bool.noConfusion h1
    rw [if_neg this]
  · have hname : ∀ s : String, s.toList ∈ sequenceKeys.map String.toList →
        nameOf l = s.toList → ¬ (hasKey k l = true) := by
      intro s hs hn hh
      rw [hasKey_iff] at hh
      apply hk
      rw [← hh.2, hn]
      exact hs
    rcases dispatch_sequences c c1 _ _ _ hd with
      ⟨hn, rfl⟩ | ⟨hn, rfl⟩ | ⟨hn, al, x, h1, rfl⟩ | ⟨hn, al, x, h1, rfl⟩ | ⟨hn, rfl⟩ |
      ⟨hn, ws, x, h1, rfl⟩ | ⟨hn, rfl⟩ | ⟨hn, ss, x, h1, rfl⟩ | ⟨hn, ss, x, h1, rfl⟩
    · rw [hv]
      by_cases e : nameOf l = k.toList
      · rw [if_pos e, if_pos ((hasKey_iff _ _).mpr ⟨hkv, e⟩)]
      · rw [if_neg e, if_neg (fun hh => e ((hasKey_iff _ _).mp hh).2)]
    · rw [if_neg (hname "Alarm_Elev" (by decide) hn)]
      split
      · exact hseq c c.speeches _ c.windows
      · rfl
    · rw [if_neg (hname "Alarm_Type" (by decide) hn)]
      exact hseq c c.speeches _ c.windows
    · rw [if_neg (hname "Alarm_File" (by decide) hn)]
      exact hseq c c.speeches _ c.windows
    · rw [if_neg (hname "Win_Top" (by decide) hn)]
      split
      · exact hseq c c.speeches c.alarms _
      · rfl
    · rw [if_neg (hname "Win_Bottom" (by decide) hn)]
      exact hseq c c.speeches c.alarms _
    · rw [if_neg (hname "Sp_Mode" (by decide) hn)]
      split
      · exact hseq c _ c.alarms c.windows
      · rfl
    · rw [if_neg (hname "Sp_Units" (by decide) hn)]
      exact hseq c _ c.alarms c.windows
    · rw [if_neg (hname "Sp_Dec" (by decide) hn)]
      exact hseq c _ c.alarms c.windows

theorem valuesOf_concat (k : String) (ls : List (List Char)) (l : List Char) :
    valuesOf k (ls ++ [l]) =
      valuesOf k ls ++ (if hasKey k l = true then [toInt (resultOf l)] else []) := by
  unfold valuesOf
  rw [List.filter_append, List.map_append]
  by_cases h : hasKey k l = true
  · simp [List.filter_cons, h]
  · simp [List.filter_cons, h]

/-- The loop and a field that only the key `k` sets: at the end the field holds the
cast of the value of the last line with key `k`, or its initial value when there is
no such line. -/
theorem loadLines_field {α : Type} (k : String) (get : Configuration → α) (cast : CInt → α)
    (hstep : ∀ (c c1 : Configuration) (l : List Char), processLine c l = some c1 →
      get c1 = if hasKey k l = true then cast (toInt (resultOf l)) else get c)
    (lines : List (List Char)) :
    ∀ (c c1 : Configuration), loadLines c lines = some c1 →
      get c1 = ((valuesOf k lines).getLast?).elim (get c) cast := by
  induction lines using List.reverseRecOn with
  | nil =>
    intro c c1 h
    simp only [loadLines, Option.some.injEq] at h
    subst h
    rfl
  | append_singleton ls l ih =>
    intro c c1 h
    rw [loadLines_append] at h
    obtain ⟨c2, h2, h3⟩ := Option.bind_eq_some.mp h
    have h4 : processLine c2 l = some c1 := by
      simp only [loadLines] at h3
      obtain ⟨c3, h5, h6⟩ := Option.bind_eq_some.mp h3
      simp only [Option.some.injEq] at h6
      rw [← h6]; exact h5
    rw [hstep c2 c1 l h4, valuesOf_concat]
    by_cases hy : hasKey k l = true
    · rw [if_pos hy, if_pos hy, List.getLast?_append]
      rfl
    · rw [if_neg hy, if_neg hy, List.append_nil]
      exact ih c c2 h2

theorem handleValues_model (c : Configuration) (n r : List Char) (v : CInt) :
    (handleValues c n r v).model = if n = "Model".toList then v else c.model := by
  by_cases h : n = "Model".toList
  · subst h
    simp +decide [handleValues, handleValue]
  · rw [if_neg h]
    unfold handleValues
    simp only []
    iterate 31
      refine handleValue_preserves_unless (fun x => x.model = c.model) _ _ _ _ ?_
        (fun e x hx => by first | exact hx | exact absurd e h)
    rfl

theorem parse_model (d C : Configuration) (t : List Char) (u : DisplayUnits)
    (h : parse d t u = some C) :
    C.model = ((valuesOf "Model" (readLines t)).getLast?).elim d.model id :=
  loadLines_field "Model" (fun c => c.model) id
    (processLine_field "Model" (fun c => c.model) id (by decide)
      (handleValues_model) (fun _ _ _ _ => rfl))
    (readLines t) (Configuration.init d u) C h

theorem handleValues_rate (c : Configuration) (n r : List Char) (v : CInt) :
    (handleValues c n r v).rate = if n = "Rate".toList then v else c.rate := by
  by_cases h : n = "Rate".toList
  · subst h
    simp +decide [handleValues, handleValue]
  · rw [if_neg h]
    unfold handleValues
    simp only []
    iterate 31
      refine handleValue_preserves_unless (fun x => x.rate = c.rate) _ _ _ _ ?_
        (fun e x hx => by first | exact hx | exact absurd e h)
    rfl

theorem parse_rate (d C : Configuration) (t : List Char) (u : DisplayUnits)
    (h : parse d t u = some C) :
    C.rate = ((valuesOf "Rate" (readLines t)).getLast?).elim d.rate id :=
  loadLines_field "Rate" (fun c => c.rate) id
    (processLine_field "Rate" (fun c => c.rate) id (by decide)
      (handleValues_rate) (fun _ _ _ _ => rfl))
    (readLines t) (Configuration.init d u) C h

theorem handleValues_toneMode (c : Configuration) (n r : List Char) (v : CInt) :
    (handleValues c n r v).toneMode = if n = "Mode".toList then v else c.toneMode := by
  by_cases h : n = "Mode".toList
  · subst h
    simp +decide [handleValues, handleValue]
  · rw [if_neg h]
    unfold handleValues
    simp only []
    iterate 31
      refine handleValue_preserves_unless (fun x => x.toneMode = c.toneMode) _ _ _ _ ?_
        (fun e x hx => by first | exact hx | exact absurd e h)
    rfl

theorem parse_toneMode (d C : Configuration) (t : List Char) (u : DisplayUnits)
    (h : parse d t u = some C) :
    C.toneMode = ((valuesOf "Mode" (readLines t)).getLast?).elim d.toneMode id :=
  loadLines_field "Mode" (fun c => c.toneMode) id
    (processLine_field "Mode" (fun c => c.toneMode) id (by decide)
      (handleValues_toneMode) (fun _ _ _ _ => rfl))
    (readLines t) (Configuration.init d u) C h

theorem handleValues_minTone (c : Configuration) (n r : List Char) (v : CInt) :
    (handleValues c n r v).minTone = if n = "Min".toList then v else c.minTone := by
  by_cases h : n = "Min".toList
  · subst h
    simp +decide [handleValues, handleValue]
  · rw [if_neg h]
    unfold handleValues
    simp only []
    iterate 31
      refine handleValue_preserves_unless (fun x => x.minTone = c.minTone) _ _ _ _ ?_
        (fun e x hx => by first | exact hx | exact absurd e h)
    rfl

theorem parse_minTone (d C : Configuration) (t : List Char) (u : DisplayUnits)
    (h : parse d t u = some C) :
    C.minTone = ((valuesOf "Min" (readLines t)).getLast?).elim d.minTone id :=
  loadLines_field "Min" (fun c => c.minTone) id
    (processLine_field "Min" (fun c => c.minTone) id (by decide)
      (handleValues_minTone) (fun _ _ _ _ => rfl))
    (readLines t) (Configuration.init d u) C h

theorem handleValues_maxTone (c : Configuration) (n r : List Char) (v : CInt) :
    (handleValues c n r v).maxTone = if n = "Max".toList then v else c.maxTone := by
  by_cases h : n = "Max".toList
  · subst h
    simp +decide [handleValues, handleValue]
  · rw [if_neg h]
    unfold handleValues
    simp only []
    iterate 31
      refine handleValue_preserves_unless (fun x => x.maxTone = c.maxTone) _ _ _ _ ?_
        (fun e x hx => by first | exact hx | exact absurd e h)
    rfl

theorem parse_maxTone (d C : Configuration) (t : List Char) (u : DisplayUnits)
    (h : parse d t u = some C) :
    C.maxTone = ((valuesOf "Max" (readLines t)).getLast?).elim d.maxTone id :=
  loadLines_field "Max" (fun c => c.maxTone) id
    (processLine_field "Max" (fun c => c.maxTone) id (by decide)
      (handleValues_maxTone) (fun _ _ _ _ => rfl))
    (readLines t) (Configuration.init d u) C h

theorem handleValues_limits (c : Configuration) (n r : List Char) (v : CInt) :
    (handleValues c n r v).limits = if n = "Limits".toList then v else c.limits := by
  by_cases h : n = "Limits".toList
  · subst h
    simp +decide [handleValues, handleValue]
  · rw [if_neg h]
    unfold handleValues
    simp only []
    iterate 31
      refine handleValue_preserves_unless (fun x => x.limits = c.limits) _ _ _ _ ?_
        (fun e x hx => by first | exact hx | exact absurd e h)
    rfl

theorem parse_limits (d C : Configuration) (t : List Char) (u : DisplayUnits)
    (h : parse d t u = some C) :
    C.limits = ((valuesOf "Limits" (readLines t)).getLast?).elim d.limits id :=
  loadLines_field "Limits" (fun c => c.limits) id
    (processLine_field "Limits" (fun c => c.limits) id (by decide)
      (handleValues_limits) (fun _ _ _ _ => rfl))
    (readLines t) (Configuration.init d u) C h

theorem handleValues_toneVolume (c : Configuration) (n r : List Char) (v : CInt) :
    (handleValues c n r v).toneVolume = if n = "Volume".toList then v else c.toneVolume := by
  by_cases h : n = "Volume".toList
  · subst h
    simp +decide [handleValues, handleValue]
  · rw [if_neg h]
    unfold handleValues
    simp only []
    iterate 31
      refine handleValue_preserves_unless (fun x => x.toneVolume = c.toneVolume) _ _ _ _ ?_
        (fun e x hx => by first | exact hx | exact absurd e h)
    rfl

theorem parse_toneVolume (d C : Configuration) (t : List Char) (u : DisplayUnits)
    (h : parse d t u = some C) :
    C.toneVolume = ((valuesOf "Volume" (readLines t)).getLast?).elim d.toneVolume id :=
  loadLines_field "Volume" (fun c => c.toneVolume) id
    (processLine_field "Volume" (fun c => c.toneVolume) id (by decide)
      (handleValues_toneVolume) (fun _ _ _ _ => rfl))
    (readLines t) (Configuration.init d u) C h

theorem handleValues_rateMode (c : Configuration) (n r : List Char) (v : CInt) :
    (handleValues c n r v).rateMode = if n = "Mode_2".toList then v else c.rateMode := by
  by_cases h : n = "Mode_2".toList
  · subst h
    simp +decide [handleValues, handleValue]
  · rw [if_neg h]
    unfold handleValues
    simp only []
    iterate 31
      refine handleValue_preserves_unless (fun x => x.rateMode = c.rateMode) _ _ _ _ ?_
        (fun e x hx => by first | exact hx | exact absurd e h)
    rfl

theorem parse_rateMode (d C : Configuration) (t : List Char) (u : DisplayUnits)
    (h : parse d t u = some C) :
    C.rateMode = ((valuesOf "Mode_2" (readLines t)).getLast?).elim d.rateMode id :=
  loadLines_field "Mode_2" (fun c => c.rateMode) id
    (processLine_field "Mode_2" (fun c => c.rateMode) id (by decide)
      (handleValues_rateMode) (fun _ _ _ _ => rfl))
    (readLines t) (Configuration.init d u) C h

theorem handleValues_minRateValue (c : Configuration) (n r : List Char) (v : CInt) :
    (handleValues c n r v).minRateValue = if n = "Min_Val_2".toList then v else c.minRateValue := by
  by_cases h : n = "Min_Val_2".toList
  · subst h
    simp +decide [handleValues, handleValue]
  · rw [if_neg h]
    unfold handleValues
    simp only []
    iterate 31
      refine handleValue_preserves_unless (fun x => x.minRateValue = c.minRateValue) _ _ _ _ ?_
        (fun e x hx => by first | exact hx | exact absurd e h)
    rfl

theorem parse_minRateValue (d C : Configuration) (t : List Char) (u : DisplayUnits)
    (h : parse d t u = some C) :
    C.minRateValue = ((valuesOf "Min_Val_2" (readLines t)).getLast?).elim d.minRateValue id :=
  loadLines_field "Min_Val_2" (fun c => c.minRateValue) id
    (processLine_field "Min_Val_2" (fun c => c.minRateValue) id (by decide)
      (handleValues_minRateValue) (fun _ _ _ _ => rfl))
    (readLines t) (Configuration.init d u) C h

theorem handleValues_maxRateValue (c : Configuration) (n r : List Char) (v : CInt) :
    (handleValues c n r v).maxRateValue = if n = "Max_Val_2".toList then v else c.maxRateValue := by
  by_cases h : n = "Max_Val_2".toList
  · subst h
    simp +decide [handleValues, handleValue]
  · rw [if_neg h]
    unfold handleValues
    simp only []
    iterate 31
      refine handleValue_preserves_unless (fun x => x.maxRateValue = c.maxRateValue) _ _ _ _ ?_
        (fun e x hx => by first | exact hx | exact absurd e h)
    rfl

theorem parse_maxRateValue (d C : Configuration) (t : List Char) (u : DisplayUnits)
    (h : parse d t u = some C) :
    C.maxRateValue = ((valuesOf "Max_Val_2" (readLines t)).getLast?).elim d.maxRateValue id :=
  loadLines_field "Max_Val_2" (fun c => c.maxRateValue) id
    (processLine_field "Max_Val_2" (fun c => c.maxRateValue) id (by decide)
      (handleValues_maxRateValue) (fun _ _ _ _ => rfl))
    (readLines t) (Configuration.init d u) C h

theorem handleValues_minRate (c : Configuration) (n r : List Char) (v : CInt) :
    (handleValues c n r v).minRate = if n = "Min_Rate".toList then v else c.minRate := by
  by_cases h : n = "Min_Rate".toList
  · subst h
    simp +decide [handleValues, handleValue]
  · rw [if_neg h]
    unfold handleValues
    simp only []
    iterate 31
      refine handleValue_preserves_unless (fun x => x.minRate = c.minRate) _ _ _ _ ?_
        (fun e x hx => by first | exact hx | exact absurd e h)
    rfl

theorem parse_minRate (d C : Configuration) (t : List Char) (u : DisplayUnits)
    (h : parse d t u = some C) :
    C.minRate = ((valuesOf "Min_Rate" (readLines t)).getLast?).elim d.minRate id :=
  loadLines_field "Min_Rate" (fun c => c.minRate) id
    (processLine_field "Min_Rate" (fun c => c.minRate) id (by decide)
      (handleValues_minRate) (fun _ _ _ _ => rfl))
    (readLines t) (Configuration.init d u) C h

theorem handleValues_maxRate (c : Configuration) (n r : List Char) (v : CInt) :
    (handleValues c n r v).maxRate = if n = "Max_Rate".toList then v else c.maxRate := by
  by_cases h : n = "Max_Rate".toList
  · subst h
    simp +decide [handleValues, handleValue]
  · rw [if_neg h]
    unfold handleValues
    simp only []
    iterate 31
      refine handleValue_preserves_unless (fun x => x.maxRate = c.maxRate) _ _ _ _ ?_
        (fun e x hx => by first | exact hx | exact absurd e h)
    rfl

theorem parse_maxRate (d C : Configuration) (t : List Char) (u : DisplayUnits)
    (h : parse d t u = some C) :
    C.maxRate = ((valuesOf "Max_Rate" (readLines t)).getLast?).elim d.maxRate id :=
  loadLines_field "Max_Rate" (fun c => c.maxRate) id
    (processLine_field "Max_Rate" (fun c => c.maxRate) id (by decide)
      (handleValues_maxRate) (fun _ _ _ _ => rfl))
    (readLines t) (Configuration.init d u) C h

theorem handleValues_flatline (c : Configuration) (n r : List Char) (v : CInt) :
    (handleValues c n r v).flatline = if n = "Flatline".toList then intToBool v else c.flatline := by
  by_cases h : n = "Flatline".toList
  · subst h
    simp +decide [handleValues, handleValue]
  · rw [if_neg h]
    unfold handleValues
    simp only []
    iterate 31
      refine handleValue_preserves_unless (fun x => x.flatline = c.flatline) _ _ _ _ ?_
        (fun e x hx => by first | exact hx | exact absurd e h)
    rfl

theorem parse_flatline (d C : Configuration) (t : List Char) (u : DisplayUnits)
    (h : parse d t u = some C) :
    C.flatline = ((valuesOf "Flatline" (readLines t)).getLast?).elim d.flatline intToBool :=
  loadLines_field "Flatline" (fun c => c.flatline) intToBool
    (processLine_field "Flatline" (fun c => c.flatline) intToBool (by decide)
      (handleValues_flatline) (fun _ _ _ _ => rfl))
    (readLines t) (Configuration.init d u) C h

theorem handleValues_speechRate (c : Configuration) (n r : List Char) (v : CInt) :
    (handleValues c n r v).speechRate = if n = "Sp_Rate".toList then v else c.speechRate := by
  by_cases h : n = "Sp_Rate".toList
  · subst h
    simp +decide [handleValues, handleValue]
  · rw [if_neg h]
    unfold handleValues
    simp only []
    iterate 31
      refine handleValue_preserves_unless (fun x => x.speechRate = c.speechRate) _ _ _ _ ?_
        (fun e x hx => by first | exact hx | exact absurd e h)
    rfl

theorem parse_speechRate (d C : Configuration) (t : List Char) (u : DisplayUnits)
    (h : parse d t u = some C) :
    C.speechRate = ((valuesOf "Sp_Rate" (readLines t)).getLast?).elim d.speechRate id :=
  loadLines_field "Sp_Rate" (fun c => c.speechRate) id
    (processLine_field "Sp_Rate" (fun c => c.speechRate) id (by decide)
      (handleValues_speechRate) (fun _ _ _ _ => rfl))
    (readLines t) (Configuration.init d u) C h

theorem handleValues_speechVolume (c : Configuration) (n r : List Char) (v : CInt) :
    (handleValues c n r v).speechVolume = if n = "Sp_Volume".toList then v else c.speechVolume := by
  by_cases h : n = "Sp_Volume".toList
  · subst h
    simp +decide [handleValues, handleValue]
  · rw [if_neg h]
    unfold handleValues
    simp only []
    iterate 31
      refine handleValue_preserves_unless (fun x => x.speechVolume = c.speechVolume) _ _ _ _ ?_
        (fun e x hx => by first | exact hx | exact absurd e h)
    rfl

theorem parse_speechVolume (d C : Configuration) (t : List Char) (u : DisplayUnits)
    (h : parse d t u = some C) :
    C.speechVolume = ((valuesOf "Sp_Volume" (readLines t)).getLast?).elim d.speechVolume id :=
  loadLines_field "Sp_Volume" (fun c => c.speechVolume) id
    (processLine_field "Sp_Volume" (fun c => c.speechVolume) id (by decide)
      (handleValues_speechVolume) (fun _ _ _ _ => rfl))
    (readLines t) (Configuration.init d u) C h

theorem handleValues_vThreshold (c : Configuration) (n r : List Char) (v : CInt) :
    (handleValues c n r v).vThreshold = if n = "V_Thresh".toList then v else c.vThreshold := by
  by_cases h : n = "V_Thresh".toList
  · subst h
    simp +decide [handleValues, handleValue]
  · rw [if_neg h]
    unfold handleValues
    simp only []
    iterate 31
      refine handleValue_preserves_unless (fun x => x.vThreshold = c.vThreshold) _ _ _ _ ?_
        (fun e x hx => by first | exact hx | exact absurd e h)
    rfl

theorem parse_vThreshold (d C : Configuration) (t : List Char) (u : DisplayUnits)
    (h : parse d t u = some C) :
    C.vThreshold = ((valuesOf "V_Thresh" (readLines t)).getLast?).elim d.vThreshold id :=
  loadLines_field "V_Thresh" (fun c => c.vThreshold) id
    (processLine_field "V_Thresh" (fun c => c.vThreshold) id (by decide)
      (handleValues_vThreshold) (fun _ _ _ _ => rfl))
    (readLines t) (Configuration.init d u) C h

theorem handleValues_hThreshold (c : Configuration) (n r : List Char) (v : CInt) :
    (handleValues c n r v).hThreshold = if n = "H_Thresh".toList then v else c.hThreshold := by
  by_cases h : n = "H_Thresh".toList
  · subst h
    simp +decide [handleValues, handleValue]
  · rw [if_neg h]
    unfold handleValues
    simp only []
    iterate 31
      refine handleValue_preserves_unless (fun x => x.hThreshold = c.hThreshold) _ _ _ _ ?_
        (fun e x hx => by first | exact hx | exact absurd e h)
    rfl

theorem parse_hThreshold (d C : Configuration) (t : List Char) (u : DisplayUnits)
    (h : parse d t u = some C) :
    C.hThreshold = ((valuesOf "H_Thresh" (readLines t)).getLast?).elim d.hThreshold id :=
  loadLines_field "H_Thresh" (fun c => c.hThreshold) id
    (processLine_field "H_Thresh" (fun c => c.hThreshold) id (by decide)
      (handleValues_hThreshold) (fun _ _ _ _ => rfl))
    (readLines t) (Configuration.init d u) C h

theorem handleValues_adjustSpeed (c : Configuration) (n r : List Char) (v : CInt) :
    (handleValues c n r v).adjustSpeed = if n = "Use_SAS".toList then intToBool v else c.adjustSpeed := by
  by_cases h : n = "Use_SAS".toList
  · subst h
    simp +decide [handleValues, handleValue]
  · rw [if_neg h]
    unfold handleValues
    simp only []
    iterate 31
      refine handleValue_preserves_unless (fun x => x.adjustSpeed = c.adjustSpeed) _ _ _ _ ?_
        (fun e x hx => by first | exact hx | exact absurd e h)
    rfl

theorem parse_adjustSpeed (d C : Configuration) (t : List Char) (u : DisplayUnits)
    (h : parse d t u = some C) :
    C.adjustSpeed = ((valuesOf "Use_SAS" (readLines t)).getLast?).elim d.adjustSpeed intToBool :=
  loadLines_field "Use_SAS" (fun c => c.adjustSpeed) intToBool
    (processLine_field "Use_SAS" (fun c => c.adjustSpeed) intToBool (by decide)
      (handleValues_adjustSpeed) (fun _ _ _ _ => rfl))
    (readLines t) (Configuration.init d u) C h

theorem handleValues_timeZoneOffset (c : Configuration) (n r : List Char) (v : CInt) :
    (handleValues c n r v).timeZoneOffset = if n = "TZ_Offset".toList then v else c.timeZoneOffset := by
  by_cases h : n = "TZ_Offset".toList
  · subst h
    simp +decide [handleValues, handleValue]
  · rw [if_neg h]
    unfold handleValues
    simp only []
    iterate 31
      refine handleValue_preserves_unless (fun x => x.timeZoneOffset = c.timeZoneOffset) _ _ _ _ ?_
        (fun e x hx => by first | exact hx | exact absurd e h)
    rfl

theorem parse_timeZoneOffset (d C : Configuration) (t : List Char) (u : DisplayUnits)
    (h : parse d t u = some C) :
    C.timeZoneOffset = ((valuesOf "TZ_Offset" (readLines t)).getLast?).elim d.timeZoneOffset id :=
  loadLines_field "TZ_Offset" (fun c => c.timeZoneOffset) id
    (processLine_field "TZ_Offset" (fun c => c.timeZoneOffset) id (by decide)
      (handleValues_timeZoneOffset) (fun _ _ _ _ => rfl))
    (readLines t) (Configuration.init d u) C h

theorem handleValues_initMode (c : Configuration) (n r : List Char) (v : CInt) :
    (handleValues c n r v).initMode = if n = "Init_Mode".toList then v else c.initMode := by
  by_cases h : n = "Init_Mode".toList
  · subst h
    simp +decide [handleValues, handleValue]
  · rw [if_neg h]
    unfold handleValues
    simp only []
    iterate 31
      refine handleValue_preserves_unless (fun x => x.initMode = c.initMode) _ _ _ _ ?_
        (fun e x hx => by first | exact hx | exact absurd e h)
    rfl

theorem parse_initMode (d C : Configuration) (t : List Char) (u : DisplayUnits)
    (h : parse d t u = some C) :
    C.initMode = ((valuesOf "Init_Mode" (readLines t)).getLast?).elim d.initMode id :=
  loadLines_field "Init_Mode" (fun c => c.initMode) id
    (processLine_field "Init_Mode" (fun c => c.initMode) id (by decide)
      (handleValues_initMode) (fun _ _ _ _ => rfl))
    (readLines t) (Configuration.init d u) C h

theorem handleValues_altitudeUnits (c : Configuration) (n r : List Char) (v : CInt) :
    (handleValues c n r v).altitudeUnits = if n = "Alt_Units".toList then v else c.altitudeUnits := by
  by_cases h : n = "Alt_Units".toList
  · subst h
    simp +decide [handleValues, handleValue]
  · rw [if_neg h]
    unfold handleValues
    simp only []
    iterate 31
      refine handleValue_preserves_unless (fun x => x.altitudeUnits = c.altitudeUnits) _ _ _ _ ?_
        (fun e x hx => by first | exact hx | exact absurd e h)
    rfl

theorem parse_altitudeUnits (d C : Configuration) (t : List Char) (u : DisplayUnits)
    (h : parse d t u = some C) :
    C.altitudeUnits = ((valuesOf "Alt_Units" (readLines t)).getLast?).elim d.altitudeUnits id :=
  loadLines_field "Alt_Units" (fun c => c.altitudeUnits) id
    (processLine_field "Alt_Units" (fun c => c.altitudeUnits) id (by decide)
      (handleValues_altitudeUnits) (fun _ _ _ _ => rfl))
    (readLines t) (Configuration.init d u) C h

theorem handleValues_altitudeStep (c : Configuration) (n r : List Char) (v : CInt) :
    (handleValues c n r v).altitudeStep = if n = "Alt_Step".toList then v else c.altitudeStep := by
  by_cases h : n = "Alt_Step".toList
  · subst h
    simp +decide [handleValues, handleValue]
  · rw [if_neg h]
    unfold handleValues
    simp only []
    iterate 31
      refine handleValue_preserves_unless (fun x => x.altitudeStep = c.altitudeStep) _ _ _ _ ?_
        (fun e x hx => by first | exact hx | exact absurd e h)
    rfl

theorem parse_altitudeStep (d C : Configuration) (t : List Char) (u : DisplayUnits)
    (h : parse d t u = some C) :
    C.altitudeStep = ((valuesOf "Alt_Step" (readLines t)).getLast?).elim d.altitudeStep id :=
  loadLines_field "Alt_Step" (fun c => c.altitudeStep) id
    (processLine_field "Alt_Step" (fun c => c.altitudeStep) id (by decide)
      (handleValues_altitudeStep) (fun _ _ _ _ => rfl))
    (readLines t) (Configuration.init d u) C h

theorem handleValues_groundElevation (c : Configuration) (n r : List Char) (v : CInt) :
    (handleValues c n r v).groundElevation = if n = "DZ_Elev".toList then v else c.groundElevation := by
  by_cases h : n = "DZ_Elev".toList
  · subst h
    simp +decide [handleValues, handleValue]
  · rw [if_neg h]
    unfold handleValues
    simp only []
    iterate 31
      refine handleValue_preserves_unless (fun x => x.groundElevation = c.groundElevation) _ _ _ _ ?_
        (fun e x hx => by first | exact hx | exact absurd e h)
    rfl

theorem parse_groundElevation (d C : Configuration) (t : List Char) (u : DisplayUnits)
    (h : parse d t u = some C) :
    C.groundElevation = ((valuesOf "DZ_Elev" (readLines t)).getLast?).elim d.groundElevation id :=
  loadLines_field "DZ_Elev" (fun c => c.groundElevation) id
    (processLine_field "DZ_Elev" (fun c => c.groundElevation) id (by decide)
      (handleValues_groundElevation) (fun _ _ _ _ => rfl))
    (readLines t) (Configuration.init d u) C h

/-! ## The claims on the written file, the display units and the sequences -/

set_option maxRecDepth 100000 in
/-- C11, counterexample. For the configuration whose name is `x`, a line break,
`Win_Top: 7`, the second key of the written text is `Win_Top`, where the fixed
order has `Config_Description`: the key sequence is not the stated one. -/
theorem emission_order_counterexample :
    (keysOf (readLines (saveFile nameWithLineBreak))).take 3 =
      ["Config_Name".toList, "Win_Top".toList, "Config_Description".toList] ∧
    ((expectedKeys nameWithLineBreak).map String.toList).take 3 =
      ["Config_Name".toList, "Config_Description".toList, "Config_Kind".toList] := by
  decide

/-- C11, amended. Fixed emission order and key completeness: for every
configuration whose text fields contain no line break, the keys of the key:value
lines of the written text are, in order, the eighteen keys from `Config_Name` to
`Sp_Volume`, the three speech keys once per speech (once when there is none), the
ten keys from `V_Thresh` to `DZ_Elev`, the three alarm keys once per alarm (once
when there is none), `Alt_Units`, `Alt_Step`, and the two window keys once per
window (once when there is none). Every key name of the format is among them. -/
theorem emission_order (C : Configuration) (h : C.noLineBreaks = true) :
    ((readLines (saveFile C)).filter isKeyValue).map nameOf =
      (["Config_Name", "Config_Description", "Config_Kind", "Model", "Rate", "Mode", "Min",
        "Max", "Limits", "Volume", "Mode_2", "Min_Val_2", "Max_Val_2", "Min_Rate", "Max_Rate",
        "Flatline", "Sp_Rate", "Sp_Volume"] ++
       (List.replicate (max 1 C.speeches.length) ["Sp_Mode", "Sp_Units", "Sp_Dec"]).flatten ++
       ["V_Thresh", "H_Thresh", "Use_SAS", "TZ_Offset", "Init_Mode", "Init_File", "Window",
        "Win_Above", "Win_Below", "DZ_Elev"] ++
       (List.replicate (max 1 C.alarms.length)
        ["Alarm_Elev", "Alarm_Type", "Alarm_File"]).flatten ++
       ["Alt_Units", "Alt_Step"] ++
       (List.replicate (max 1 C.windows.length) ["Win_Top", "Win_Bottom"]).flatten).map
        String.toList ∧
    ∀ k ∈ fixedKeys, k.toList ∈ ((readLines (saveFile C)).filter isKeyValue).map nameOf := by
  have e : ((readLines (saveFile C)).filter isKeyValue).map nameOf =
      (expectedKeys C).map String.toList := by
    unfold saveFile
    rw [readLines_unlines _ (noLineBreak_saveFileLines C h)]
    exact keysOf_saveFileLines C
  refine ⟨e, ?_⟩
  intro k hk
  rw [e]
  exact List.mem_map_of_mem _ (fixedKeys_subset_expectedKeys C k hk)

/-- C11, witness: the written form of a configuration with one speech, one alarm
and one window has the thirty-eight keys of the format, each once, in the fixed
order. -/
theorem emission_order_witness :
    ((readLines (saveFile oneOfEachParsed)).filter isKeyValue).map nameOf =
      ["Config_Name", "Config_Description", "Config_Kind", "Model", "Rate", "Mode", "Min",
        "Max", "Limits", "Volume", "Mode_2", "Min_Val_2", "Max_Val_2", "Min_Rate", "Max_Rate",
        "Flatline", "Sp_Rate", "Sp_Volume", "Sp_Mode", "Sp_Units", "Sp_Dec", "V_Thresh",
        "H_Thresh", "Use_SAS", "TZ_Offset", "Init_Mode", "Init_File", "Window", "Win_Above",
        "Win_Below", "DZ_Elev", "Alarm_Elev", "Alarm_Type", "Alarm_File", "Alt_Units",
        "Alt_Step", "Win_Top", "Win_Bottom"].map String.toList := by
  rw [(emission_order oneOfEachParsed (by decide)).1]
  rfl

/-- C12. The display units are not written: two configurations that differ only in
`displayUnits` are written to the same text, character for character. -/
theorem displayUnits_not_written (C : Configuration) (u : DisplayUnits) :
    saveFile { C with displayUnits := u } = saveFile C :=
  rfl

/-- C13. The display units are not read: whenever the parser returns a
configuration for display units `u`, its `displayUnits` is `u`; no line changes the
display units of the configuration it is processed on; and a text without any line
that has one of the key names of the format as its key parses to the fresh
configuration for `u`. -/
theorem displayUnits_not_read (d C : Configuration) (t : List Char) (u : DisplayUnits)
    (h : parse d t u = some C) :
    C.displayUnits = u ∧
    (∀ (c c1 : Configuration) (l : List Char), processLine c l = some c1 →
      c1.displayUnits = c.displayUnits) ∧
    ((∀ l ∈ readLines t, isKeyValue l = false ∨ nameOf l ∉ fixedKeys.map String.toList) →
      parse d t u = some (Configuration.init d u) ∧ C = Configuration.init d u) := by
  refine ⟨?_, processLine_displayUnits, ?_⟩
  · exact loadLines_displayUnits (readLines t) _ C h
  · intro hl
    have e : parse d t u = some (Configuration.init d u) := loadLines_noop (readLines t) _ hl
    refine ⟨e, ?_⟩
    rw [e] at h
    exact (Option.some.inj h).symm

/-- C13, witness: a file of comments, an unknown key and a key in the wrong case,
read for imperial units. -/
theorem displayUnits_not_read_witness :
    parse sampleDefaults noEffectiveLine DisplayUnits.Imperial =
      some (Configuration.init sampleDefaults DisplayUnits.Imperial) ∧
    (Configuration.init sampleDefaults DisplayUnits.Imperial).displayUnits =
      DisplayUnits.Imperial :=
  ⟨((displayUnits_not_read sampleDefaults
      (Configuration.init sampleDefaults DisplayUnits.Imperial) noEffectiveLine
      DisplayUnits.Imperial (by decide)).2.2 (by decide)).1,
    (displayUnits_not_read sampleDefaults
      (Configuration.init sampleDefaults DisplayUnits.Imperial) noEffectiveLine
      DisplayUnits.Imperial (by decide)).1⟩

/-- C14. Load failure atomicity: when the file cannot be opened, `loadFile` returns
`false` and the state is exactly what it was before the call: configuration, saved
snapshot, current file name and settings. The configuration is reset only once the
file is open: on an empty file the result is `true`, and the configuration and the
snapshot are the fresh configuration for the display units in use. -/
theorem load_failure_atomic (d : Configuration) (w : MainWindow)
    (fileName absolutePath : List Char) :
    loadFile d w fileName absolutePath none = some (false, w) ∧
    loadFile d w fileName absolutePath (some []) =
      some (true,
        { configuration := Configuration.init d w.configuration.displayUnits
          savedConfiguration := Configuration.init d w.configuration.displayUnits
          curFile := fileName
          folder := absolutePath }) :=
  ⟨rfl, rfl⟩

/-- C15. Window capping: whenever the parser returns a configuration for a text, it
has at most `MAX_WINDOWS` = 2 windows, and their tops are, in order, the integer
values of the first two lines with key `Win_Top`; the number of windows is the
minimum of 2 and the number of such lines. -/
theorem window_capping (d C : Configuration) (t : List Char) (u : DisplayUnits)
    (h : parse d t u = some C) :
    C.windows.length ≤ 2 ∧
    C.windows.map (fun w => w.top) =
      (((readLines t).filter (hasKey "Win_Top")).map (fun l => toInt (resultOf l))).take 2 ∧
    C.windows.length = min ((readLines t).filter (hasKey "Win_Top")).length 2 := by
  have h1 := loadLines_window_tops (readLines t) (Configuration.init d u) C h
    (by simp [Configuration.init])
  have h2 : C.windows.map (fun w => w.top) =
      (((readLines t).filter (hasKey "Win_Top")).map (fun l => toInt (resultOf l))).take 2 := by
    rw [h1]; rfl
  have h3 := congrArg List.length h2
  have h4 : C.windows.length = min ((readLines t).filter (hasKey "Win_Top")).length 2 := by
    rw [Nat.min_comm]
    simpa using h3
  exact ⟨by rw [h4]; exact Nat.min_le_right _ _, h2, h4⟩

set_option maxRecDepth 100000 in
/-- C15, witness: of three `Win_Top` lines, the first two make the windows. -/
theorem window_capping_witness :
    ((readLines threeWindows).filter (hasKey "Win_Top")).length = 3 ∧
    ∃ C, parse sampleDefaults threeWindows DisplayUnits.Metric = some C ∧
      C.windows.map (fun w => w.top.val) = [100, 200] ∧
      C.windows.length ≤ 2 := by
  refine ⟨by decide, (parse sampleDefaults threeWindows DisplayUnits.Metric).get (by decide),
    by simp, by decide, ?_⟩
  exact (window_capping sampleDefaults _ threeWindows DisplayUnits.Metric (by simp)).1

/-- C16. Duplicate scalar keys, last occurrence wins: whenever the parser returns a
configuration for a text, then for each of the scalar keys `Model`, `Rate`, `Mode`,
`Min`, `Max`, `Limits`, `Volume`, `Mode_2`, `Min_Val_2`, `Max_Val_2`, `Min_Rate`,
`Max_Rate`, `Flatline`, `Sp_Rate`, `Sp_Volume`, `V_Thresh`, `H_Thresh`, `Use_SAS`,
`TZ_Offset`, `Init_Mode`, `Alt_Units`, `Alt_Step` and `DZ_Elev`, if `v` is the
integer value of the last line with that key, the field of the key holds `v` (for
`Flatline` and `Use_SAS`: whether `v` is not 0), whatever the earlier lines with
that key were. -/
theorem last_occurrence_wins (d C : Configuration) (t : List Char) (u : DisplayUnits)
    (h : parse d t u = some C) :
    (∀ v, (valuesOf "Model" (readLines t)).getLast? = some v → C.model = v) ∧
    (∀ v, (valuesOf "Rate" (readLines t)).getLast? = some v → C.rate = v) ∧
    (∀ v, (valuesOf "Mode" (readLines t)).getLast? = some v → C.toneMode = v) ∧
    (∀ v, (valuesOf "Min" (readLines t)).getLast? = some v → C.minTone = v) ∧
    (∀ v, (valuesOf "Max" (readLines t)).getLast? = some v → C.maxTone = v) ∧
    (∀ v, (valuesOf "Limits" (readLines t)).getLast? = some v → C.limits = v) ∧
    (∀ v, (valuesOf "Volume" (readLines t)).getLast? = some v → C.toneVolume = v) ∧
    (∀ v, (valuesOf "Mode_2" (readLines t)).getLast? = some v → C.rateMode = v) ∧
    (∀ v, (valuesOf "Min_Val_2" (readLines t)).getLast? = some v → C.minRateValue = v) ∧
    (∀ v, (valuesOf "Max_Val_2" (readLines t)).getLast? = some v → C.maxRateValue = v) ∧
    (∀ v, (valuesOf "Min_Rate" (readLines t)).getLast? = some v → C.minRate = v) ∧
    (∀ v, (valuesOf "Max_Rate" (readLines t)).getLast? = some v → C.maxRate = v) ∧
    (∀ v, (valuesOf "Flatline" (readLines t)).getLast? = some v →
      C.flatline = intToBool v) ∧
    (∀ v, (valuesOf "Sp_Rate" (readLines t)).getLast? = some v → C.speechRate = v) ∧
    (∀ v, (valuesOf "Sp_Volume" (readLines t)).getLast? = some v → C.speechVolume = v) ∧
    (∀ v, (valuesOf "V_Thresh" (readLines t)).getLast? = some v → C.vThreshold = v) ∧
    (∀ v, (valuesOf "H_Thresh" (readLines t)).getLast? = some v → C.hThreshold = v) ∧
    (∀ v, (valuesOf "Use_SAS" (readLines t)).getLast? = some v →
      C.adjustSpeed = intToBool v) ∧
    (∀ v, (valuesOf "TZ_Offset" (readLines t)).getLast? = some v → C.timeZoneOffset = v) ∧
    (∀ v, (valuesOf "Init_Mode" (readLines t)).getLast? = some v → C.initMode = v) ∧
    (∀ v, (valuesOf "Alt_Units" (readLines t)).getLast? = some v → C.altitudeUnits = v) ∧
    (∀ v, (valuesOf "Alt_Step" (readLines t)).getLast? = some v → C.altitudeStep = v) ∧
    (∀ v, (valuesOf "DZ_Elev" (readLines t)).getLast? = some v → C.groundElevation = v) := by
  refine ⟨?_, ?_, ?_, ?_, ?_, ?_, ?_, ?_, ?_, ?_, ?_, ?_, ?_, ?_, ?_, ?_, ?_, ?_, ?_, ?_, ?_,
    ?_, ?_⟩
  · intro v hv; rw [parse_model d C t u h, hv]; rfl
  · intro v hv; rw [parse_rate d C t u h, hv]; rfl
  · intro v hv; rw [parse_toneMode d C t u h, hv]; rfl
  · intro v hv; rw [parse_minTone d C t u h, hv]; rfl
  · intro v hv; rw [parse_maxTone d C t u h, hv]; rfl
  · intro v hv; rw [parse_limits d C t u h, hv]; rfl
  · intro v hv; rw [parse_toneVolume d C t u h, hv]; rfl
  · intro v hv; rw [parse_rateMode d C t u h, hv]; rfl
  · intro v hv; rw [parse_minRateValue d C t u h, hv]; rfl
  · intro v hv; rw [parse_maxRateValue d C t u h, hv]; rfl
  · intro v hv; rw [parse_minRate d C t u h, hv]; rfl
  · intro v hv; rw [parse_maxRate d C t u h, hv]; rfl
  · intro v hv; rw [parse_flatline d C t u h, hv]; rfl
  · intro v hv; rw [parse_speechRate d C t u h, hv]; rfl
  · intro v hv; rw [parse_speechVolume d C t u h, hv]; rfl
  · intro v hv; rw [parse_vThreshold d C t u h, hv]; rfl
  · intro v hv; rw [parse_hThreshold d C t u h, hv]; rfl
  · intro v hv; rw [parse_adjustSpeed d C t u h, hv]; rfl
  · intro v hv; rw [parse_timeZoneOffset d C t u h, hv]; rfl
  · intro v hv; rw [parse_initMode d C t u h, hv]; rfl
  · intro v hv; rw [parse_altitudeUnits d C t u h, hv]; rfl
  · intro v hv; rw [parse_altitudeStep d C t u h, hv]; rfl
  · intro v hv; rw [parse_groundElevation d C t u h, hv]; rfl

set_option maxRecDepth 100000 in
/-- C16, witness: `Rate` occurs three times and `Flatline` twice; the last values,
300 and 0, are the ones kept. -/
theorem last_occurrence_wins_witness :
    valuesOf "Rate" (readLines duplicateKeys) =
      [CInt.ofInt 100, CInt.ofInt 200, CInt.ofInt 300] ∧
    ∃ C, parse sampleDefaults duplicateKeys DisplayUnits.Metric = some C ∧
      C.rate = CInt.ofInt 300 ∧ C.flatline = false := by
  have hp : parse sampleDefaults duplicateKeys DisplayUnits.Metric =
      some ((parse sampleDefaults duplicateKeys DisplayUnits.Metric).get (by decide)) := by
    simp
  have hw := last_occurrence_wins sampleDefaults _ duplicateKeys DisplayUnits.Metric hp
  refine ⟨by decide, _, hp, ?_, ?_⟩
  · exact hw.2.1 (CInt.ofInt 300) (by decide)
  · exact hw.2.2.2.2.2.2.2.2.2.2.2.2.1 (CInt.ofInt 0) (by decide)

/-- C18. Over-cap window edge case: on a configuration that holds two windows, a
further line with key `Win_Top` changes nothing (the two windows stay as they
are), and a line with key `Win_Bottom` and integer value `b` sets the bottom of
the second window to `b` and changes nothing else. -/
theorem over_cap_window (c : Configuration) (l : List Char) (w1 w2 : Window)
    (hw : c.windows = [w1, w2]) (hkv : isKeyValue l = true) :
    (nameOf l = "Win_Top".toList → processLine c l = some c) ∧
    (nameOf l = "Win_Bottom".toList →
      processLine c l =
        some { c with windows := [w1, { w2 with bottom := toInt (resultOf l) }] }) := by
  constructor
  · intro hn
    rw [processLine_eq, if_pos hkv, hn, dispatch_Win_Top,
      if_neg (by rw [hw]; simp [MAX_WINDOWS])]
  · intro hn
    have e : c.windows = [w1] ++ [w2] := hw
    rw [processLine_eq, if_pos hkv, hn, dispatch_Win_Bottom, e, modifyBack_concat]
    rfl

set_option maxRecDepth 100000 in
/-- C18, witness: after `Win_Top: 100` and `Win_Top: 200`, the line `Win_Top: 300`
is dropped and the line `Win_Bottom: 50` sets the bottom of the second window. -/
theorem over_cap_window_witness :
    parse sampleDefaults threeWindows DisplayUnits.Metric =
      some { Configuration.init sampleDefaults DisplayUnits.Metric with
        windows := [{ top := CInt.ofInt 100, bottom := CInt.ofInt 100 },
          { top := CInt.ofInt 200, bottom := CInt.ofInt 50 }] } := by
  have hl : readLines threeWindows = ["Win_Top: 100".toList, "Win_Top: 200".toList,
      "Win_Top: 300".toList, "Win_Bottom: 50".toList] := by decide
  have h2 : loadLines (Configuration.init sampleDefaults DisplayUnits.Metric)
      ["Win_Top: 100".toList, "Win_Top: 200".toList] =
      some { Configuration.init sampleDefaults DisplayUnits.Metric with
        windows := [{ top := CInt.ofInt 100, bottom := CInt.ofInt 100 },
          { top := CInt.ofInt 200, bottom := CInt.ofInt 200 }] } := by decide
  have h3 := (over_cap_window
    { Configuration.init sampleDefaults DisplayUnits.Metric with
        windows := [{ top := CInt.ofInt 100, bottom := CInt.ofInt 100 },
          { top := CInt.ofInt 200, bottom := CInt.ofInt 200 }] }
    "Win_Top: 300".toList _ _ rfl (by decide)).1 (by decide)
  have h4 := (over_cap_window
    { Configuration.init sampleDefaults DisplayUnits.Metric with
        windows := [{ top := CInt.ofInt 100, bottom := CInt.ofInt 100 },
          { top := CInt.ofInt 200, bottom := CInt.ofInt 200 }] }
    "Win_Bottom: 50".toList _ _ rfl (by decide)).2 (by decide)
  have e : ["Win_Top: 100".toList, "Win_Top: 200".toList, "Win_Top: 300".toList,
      "Win_Bottom: 50".toList] = ["Win_Top: 100".toList, "Win_Top: 200".toList] ++
      ["Win_Top: 300".toList, "Win_Bottom: 50".toList] := rfl
  rw [parse, hl, e, loadLines_append, h2, Option.bind, loadLines, h3, Option.bind, loadLines,
    h4]
  decide

set_option maxRecDepth 100000 in
/-- C19, failing input. After ten `Alarm_Elev` lines, a line `Sp_Mode: 3` appends
nothing although no speech exists yet: the guard of the `Sp_Mode` statement reads
the number of alarms. -/
theorem speech_start_blocked_by_alarms :
    (parse sampleDefaults tenAlarmsThenSpeech DisplayUnits.Metric).map
      (fun c => (c.alarms.length, c.speeches)) = some (10, []) := by
  decide

/-- C20. Continuation keys touch only the last element: on a configuration whose
alarms are `al` followed by `x`, a line with key `Alarm_Type` replaces the mode of
`x` by the integer value of the line, and a line with key `Alarm_File` replaces the
file of `x` by the value text; likewise `Win_Bottom` for the bottom of the last
window, and `Sp_Units` and `Sp_Dec` for the units and the decimals of the last
speech. The earlier elements, the other fields of the last element, the two other
sequences and every scalar and text field are those of the configuration before
the line. -/
theorem continuation_last_only (c : Configuration) (l : List Char)
    (hkv : isKeyValue l = true) :
    (nameOf l = "Alarm_Type".toList → ∀ al x, c.alarms = al ++ [x] →
      processLine c l =
        some { c with alarms := al ++ [{ x with mode := toInt (resultOf l) }] }) ∧
    (nameOf l = "Alarm_File".toList → ∀ al x, c.alarms = al ++ [x] →
      processLine c l = some { c with alarms := al ++ [{ x with file := resultOf l }] }) ∧
    (nameOf l = "Win_Bottom".toList → ∀ ws x, c.windows = ws ++ [x] →
      processLine c l =
        some { c with windows := ws ++ [{ x with bottom := toInt (resultOf l) }] }) ∧
    (nameOf l = "Sp_Units".toList → ∀ ss x, c.speeches = ss ++ [x] →
      processLine c l =
        some { c with speeches := ss ++ [{ x with units := toInt (resultOf l) }] }) ∧
    (nameOf l = "Sp_Dec".toList → ∀ ss x, c.speeches = ss ++ [x] →
      processLine c l =
        some { c with speeches := ss ++ [{ x with decimals := toInt (resultOf l) }] }) := by
  refine ⟨?_, ?_, ?_, ?_, ?_⟩
  · intro hn al x e
    rw [processLine_eq, if_pos hkv, hn, dispatch_Alarm_Type, e, modifyBack_concat]
    rfl
  · intro hn al x e
    rw [processLine_eq, if_pos hkv, hn, dispatch_Alarm_File, e, modifyBack_concat]
    rfl
  · intro hn ws x e
    rw [processLine_eq, if_pos hkv, hn, dispatch_Win_Bottom, e, modifyBack_concat]
    rfl
  · intro hn ss x e
    rw [processLine_eq, if_pos hkv, hn, dispatch_Sp_Units, e, modifyBack_concat]
    rfl
  · intro hn ss x e
    rw [processLine_eq, if_pos hkv, hn, dispatch_Sp_Dec, e, modifyBack_concat]
    rfl

/-- C20, witness: on a configuration with one speech, one alarm and one window, the
line `Alarm_Type: 4` sets the mode of the alarm and nothing else. -/
theorem continuation_last_only_witness :
    processLine oneOfEachParsed "Alarm_Type: 4 ; play a file".toList =
      some { oneOfEachParsed with
        alarms := [{ elevation := CInt.ofInt 1, mode := CInt.ofInt 4, file := [] }] } := by
  rw [(continuation_last_only oneOfEachParsed "Alarm_Type: 4 ; play a file".toList
    (by decide)).1 (by decide) []
    { elevation := CInt.ofInt 1, mode := AlarmMode.NoAlarm, file := [] } rfl]
  decide

/-! ## Written numbers -/

theorem toInt_trimmed (s : List Char) : toInt (trimmed s) = toInt s := by
  unfold toInt
  rw [trimmed_trimmed]

theorem saveSpeeches_false (ss : List Speech) :
    saveSpeeches ss false = ss.flatMap (fun x => saveSpeech x false) := by
  induction ss with
  | nil => rfl
  | cons s ss ih => rw [saveSpeeches, ih]; rfl

theorem saveAlarms_false (al : List Alarm) :
    saveAlarms al false = al.flatMap (fun x => saveAlarm x false) := by
  induction al with
  | nil => rfl
  | cons a al ih => rw [saveAlarms, ih]; rfl

/-- Replacing each empty sequence by the default entry that `saveFile` writes for it
does not change the written lines. -/
theorem saveFileLines_defaulted (C : Configuration) :
    saveFileLines
      { C with
        speeches := if C.speeches.isEmpty then [defaultSpeech] else C.speeches
        alarms := if C.alarms.isEmpty then [defaultAlarm] else C.alarms
        windows := if C.windows.isEmpty then [defaultWindow] else C.windows } =
      saveFileLines C := by
  have s1 : (if (if C.speeches.isEmpty then [defaultSpeech] else C.speeches).isEmpty then
        saveSpeech defaultSpeech true
      else saveSpeeches (if C.speeches.isEmpty then [defaultSpeech] else C.speeches) true) =
      (if C.speeches.isEmpty then saveSpeech defaultSpeech true
        else saveSpeeches C.speeches true) := by
    cases C.speeches with
    | nil => simp [saveSpeeches]
    | cons x xs => rfl
  have s2 : (if (if C.alarms.isEmpty then [defaultAlarm] else C.alarms).isEmpty then
        saveAlarm defaultAlarm true
      else saveAlarms (if C.alarms.isEmpty then [defaultAlarm] else C.alarms) true) =
      (if C.alarms.isEmpty then saveAlarm defaultAlarm true
        else saveAlarms C.alarms true) := by
    cases C.alarms with
    | nil => simp [saveAlarms]
    | cons x xs => rfl
  have s3 : (if (if C.windows.isEmpty then [defaultWindow] else C.windows).isEmpty then
        saveWindow defaultWindow
      else saveWindows (if C.windows.isEmpty then [defaultWindow] else C.windows)) =
      (if C.windows.isEmpty then saveWindow defaultWindow
        else saveWindows C.windows) := by
    cases C.windows with
    | nil => simp [saveWindows]
    | cons x xs => rfl
  unfold saveFileLines
  exact congrArg₂ (· ++ ·) (congrArg₂ (· ++ ·) (congrArg₂ (· ++ ·)
    (congrArg₂ (· ++ ·) (congrArg₂ (· ++ ·) rfl s1) rfl) s2) rfl) s3

/-! ## Speeches and the alarm count -/

/-- One line and the number of speeches: it grows by one on a line with key
`Sp_Mode` met while fewer than `MAX_ALARMS` alarms exist, and stays the same on
every other line that is processed. -/
theorem processLine_speeches_length (c c1 : Configuration) (l : List Char)
    (h : processLine c l = some c1) :
    c1.speeches.length = c.speeches.length +
      (if hasKey "Sp_Mode" l = true ∧ c.alarms.length < MAX_ALARMS then 1 else 0) := by
  rcases processLine_some c c1 l h with ⟨hk, rfl⟩ | ⟨hk, hd⟩
  · have : ¬ (hasKey "Sp_Mode" l = true) := by
      rw [hasKey_iff]; rintro ⟨h1, _⟩; rw [hk] at h1; exact Bool.noConfusion h1
    rw [if_neg (fun hh => this hh.1)]; rfl
  · rcases dispatch_sequences c c1 _ _ _ hd with
      ⟨hn, rfl⟩ | ⟨hn, rfl⟩ | ⟨hn, al, x, h1, rfl⟩ | ⟨hn, al, x, h1, rfl⟩ | ⟨hn, rfl⟩ |
      ⟨hn, ws, x, h1, rfl⟩ | ⟨hn, rfl⟩ | ⟨hn, ss, x, h1, rfl⟩ | ⟨hn, ss, x, h1, rfl⟩
    case inr.intro.inr.inr.inr.inr.inr.inr.inl.intro =>
      have hy : hasKey "Sp_Mode" l = true := (hasKey_iff _ _).mpr ⟨hk, hn⟩
      by_cases hlt : c.alarms.length < MAX_ALARMS
      · rw [if_pos hlt, if_pos ⟨hy, hlt⟩]; simp
      · rw [if_neg hlt, if_neg (fun hh => hlt hh.2)]; rfl
    case inr.intro.inl.intro =>
      have hne : ¬ (hasKey "Sp_Mode" l = true) := by
        rw [hasKey_iff]; rintro ⟨_, h2⟩
        apply hn; rw [h2]; decide
      rw [if_neg (fun hh => hne hh.1), (handleValues_frame c _ _ _).1]; rfl
    all_goals
      have hne : ¬ (hasKey "Sp_Mode" l = true) := by
        rw [hasKey_iff]; rintro ⟨_, h2⟩
        rw [hn] at h2; revert h2; decide
      have hR : (if hasKey "Sp_Mode" l = true ∧ c.alarms.length < MAX_ALARMS then 1 else 0) =
          0 := if_neg (fun hh => hne hh.1)
      rw [hR]
      first
        | (rw [h1]; simp)
        | (split <;> rfl)
        | rfl

theorem processLine_alarms_length_eq (c c1 : Configuration) (l : List Char)
    (h : processLine c l = some c1) (hl : hasKey "Alarm_Elev" l = false) :
    c1.alarms.length = c.alarms.length := by
  have h1 := congrArg List.length (processLine_alarm_elevations c c1 l h)
  rw [if_neg (fun hh => by rw [hl] at hh; exact Bool.noConfusion hh.1)] at h1
  simpa using h1

/-- The loop on lines without any `Alarm_Elev` key, started with fewer than
`MAX_ALARMS` alarms: every `Sp_Mode` line adds a speech. -/
theorem loadLines_speeches_length (lines : List (List Char)) :
    ∀ (c c1 : Configuration), loadLines c lines = some c1 →
      (∀ l ∈ lines, hasKey "Alarm_Elev" l = false) → c.alarms.length < MAX_ALARMS →
      c1.speeches.length = c.speeches.length + (lines.filter (hasKey "Sp_Mode")).length := by
  induction lines with
  | nil =>
    intro c c1 h _ _
    simp only [loadLines, Option.some.injEq] at h
    subst h
    rfl
  | cons l ls ih =>
    intro c c1 h hl hc
    simp only [loadLines] at h
    obtain ⟨c2, h2, h3⟩ := Option.bind_eq_some.mp h
    have e1 := processLine_speeches_length c c2 l h2
    have e2 := processLine_alarms_length_eq c c2 l h2 (hl l (List.mem_cons_self _ _))
    have e3 := ih c2 c1 h3 (fun x hx => hl x (List.mem_cons_of_mem _ hx)) (by rw [e2]; exact hc)
    rw [e3, e1]
    by_cases hy : hasKey "Sp_Mode" l = true
    · rw [if_pos ⟨hy, hc⟩, List.filter_cons_of_pos hy, List.length_cons]
      omega
    · rw [if_neg (fun hh => hy hh.1), List.filter_cons_of_neg hy]
      omega

/-- Any number of `Sp_Mode: 0` lines, read while fewer than `MAX_ALARMS` alarms
exist, adds that many speeches. -/
theorem loadLines_replicate_Sp_Mode (n : Nat) :
    ∀ (c : Configuration), c.alarms.length < MAX_ALARMS →
      loadLines c (List.replicate n "Sp_Mode: 0".toList) =
        some
          { c with
            speeches := c.speeches ++ List.replicate n
              { mode := CInt.ofInt 0, units := Units.Miles, decimals := CInt.ofInt 1 } } := by
  induction n with
  | zero => intro c _; simp [loadLines]
  | succ n ih =>
    intro c hc
    have hp : processLine c "Sp_Mode: 0".toList =
        some { c with speeches := c.speeches ++
          [{ mode := CInt.ofInt 0, units := Units.Miles, decimals := CInt.ofInt 1 }] } := by
      have hn : nameOf "Sp_Mode: 0".toList = "Sp_Mode".toList := by decide
      have hv : toInt (resultOf "Sp_Mode: 0".toList) = CInt.ofInt 0 := by decide
      rw [processLine_eq, if_pos (by decide), hn, hv, dispatch_Sp_Mode, if_pos hc]
      rfl
    rw [List.replicate_succ, loadLines, hp, Option.bind,
      ih { c with speeches := c.speeches ++
          [{ mode := CInt.ofInt 0, units := Units.Miles, decimals := CInt.ofInt 1 }] } hc]
    simp [List.replicate_succ]

/-! ## Legends in the blocks of the sequences -/

theorem isCommentOnly_arg (pre key cmt : List Char) (v : CInt)
    (hpre : isKeyPrefix pre key = true) (hcmt : isCommentSuffix cmt = true) :
    isCommentOnly (pre ++ arg v 5 ++ cmt) = false := by
  have h := (written_line pre key cmt (intToDec v.val)
    (List.replicate (5 - (intToDec v.val).length) ' ') hpre hcmt
    (fun x hx => (List.mem_replicate.mp hx).2)).1
  have e : pre ++ arg v 5 ++ cmt =
      pre ++ (List.replicate (5 - (intToDec v.val).length) ' ' ++ intToDec v.val) ++ cmt := rfl
  rw [isCommentOnly, e, h]
  simp

theorem isCommentOnly_text (pre key cmt s : List Char)
    (hpre : isKeyPrefix pre key = true) (hcmt : isCommentSuffix cmt = true) :
    isCommentOnly (pre ++ rightJustified s 5 ++ cmt) = false := by
  have h := (written_line pre key cmt s (List.replicate (5 - s.length) ' ') hpre hcmt
    (fun x hx => (List.mem_replicate.mp hx).2)).1
  have e : pre ++ rightJustified s 5 ++ cmt =
      pre ++ (List.replicate (5 - s.length) ' ' ++ s) ++ cmt := rfl
  rw [isCommentOnly, e, h]
  simp

theorem isCommentOnly_Sp_Mode (v : CInt) :
    isCommentOnly ("Sp_Mode:    ".toList ++ arg v 5 ++ " ; Speech mode".toList) = false :=
  isCommentOnly_arg "Sp_Mode:    ".toList "Sp_Mode".toList " ; Speech mode".toList v
    (by decide) (by decide)

theorem isCommentOnly_Sp_Units (v : CInt) :
    isCommentOnly ("Sp_Units:   ".toList ++ arg v 5 ++ " ; Speech units".toList) = false :=
  isCommentOnly_arg "Sp_Units:   ".toList "Sp_Units".toList " ; Speech units".toList v
    (by decide) (by decide)

theorem isCommentOnly_Sp_Dec (v : CInt) :
    isCommentOnly ("Sp_Dec:     ".toList ++ arg v 5 ++ " ; Speech precision".toList) = false :=
  isCommentOnly_arg "Sp_Dec:     ".toList "Sp_Dec".toList " ; Speech precision".toList v
    (by decide) (by decide)

theorem isCommentOnly_Alarm_Elev (v : CInt) :
    isCommentOnly ("Alarm_Elev: ".toList ++ arg v 5 ++
      " ; Alarm elevation (m above ground level)".toList) = false :=
  isCommentOnly_arg "Alarm_Elev: ".toList "Alarm_Elev".toList
    " ; Alarm elevation (m above ground level)".toList v (by decide) (by decide)

theorem isCommentOnly_Alarm_Type (v : CInt) :
    isCommentOnly ("Alarm_Type: ".toList ++ arg v 5 ++ " ; Alarm type".toList) = false :=
  isCommentOnly_arg "Alarm_Type: ".toList "Alarm_Type".toList " ; Alarm type".toList v
    (by decide) (by decide)

theorem isCommentOnly_Alarm_File (s : List Char) :
    isCommentOnly ("Alarm_File: ".toList ++ rightJustified s 5 ++
      " ; File to be played".toList) = false :=
  isCommentOnly_text "Alarm_File: ".toList "Alarm_File".toList " ; File to be played".toList s
    (by decide) (by decide)

theorem isCommentOnly_nil : isCommentOnly [] = false := rfl

theorem filter_cons_false {α : Type} (p : α → Bool) (a : α) (l : List α) (h : p a = false) :
    (a :: l).filter p = l.filter p := by
  simp [List.filter_cons, h]

theorem filter_cons_true {α : Type} (p : α → Bool) (a : α) (l : List α) (h : p a = true) :
    (a :: l).filter p = a :: l.filter p := by
  simp [List.filter_cons, h]

theorem filter_not_cons_false (a : List Char) (l : List (List Char))
    (h : isCommentOnly a = false) :
    (a :: l).filter (fun x => !isCommentOnly x) = a :: l.filter (fun x => !isCommentOnly x) := by
  simp [List.filter_cons, h]

theorem filter_not_cons_true (a : List Char) (l : List (List Char))
    (h : isCommentOnly a = true) :
    (a :: l).filter (fun x => !isCommentOnly x) = l.filter (fun x => !isCommentOnly x) := by
  simp [List.filter_cons, h]

/-- A speech block written without legend: three field lines and an empty line. -/
theorem saveSpeech_plain (x : Speech) :
    saveSpeech x false =
      ["Sp_Mode:    ".toList ++ arg x.mode 5 ++ " ; Speech mode".toList,
       "Sp_Units:   ".toList ++ arg x.units 5 ++ " ; Speech units".toList,
       "Sp_Dec:     ".toList ++ arg x.decimals 5 ++ " ; Speech precision".toList,
       []] :=
  rfl

/-- An alarm block written without legend: three field lines and an empty line. -/
theorem saveAlarm_plain (x : Alarm) :
    saveAlarm x false =
      ["Alarm_Elev: ".toList ++ arg x.elevation 5 ++
          " ; Alarm elevation (m above ground level)".toList,
       "Alarm_Type: ".toList ++ arg x.mode 5 ++ " ; Alarm type".toList,
       "Alarm_File: ".toList ++ rightJustified x.file 5 ++ " ; File to be played".toList,
       []] :=
  rfl

/-- The speech block written with legend is the plain block with eleven comment
lines put after the field lines. -/
theorem saveSpeech_legend (x : Speech) :
    (saveSpeech x true).filter (fun l => !isCommentOnly l) = saveSpeech x false ∧
    ((saveSpeech x true).filter isCommentOnly).length = 11 ∧
    (saveSpeech x false).filter isCommentOnly = [] := by
  refine ⟨?_, ?_, ?_⟩
  · rw [saveSpeech_plain]
    unfold saveSpeech
    simp (disch := first | exact isCommentOnly_Sp_Mode _ | exact isCommentOnly_Sp_Units _ |
        exact isCommentOnly_Sp_Dec _ | decide) only
      [if_true, List.cons_append, List.nil_append, filter_not_cons_false, filter_not_cons_true,
        List.filter_nil]
  · unfold saveSpeech
    simp (disch := first | exact isCommentOnly_Sp_Mode _ | exact isCommentOnly_Sp_Units _ |
        exact isCommentOnly_Sp_Dec _ | decide) only
      [if_true, List.cons_append, List.nil_append, filter_cons_false, filter_cons_true,
        List.filter_nil, List.length_cons, List.length_nil]
  · rw [saveSpeech_plain]
    simp (disch := first | exact isCommentOnly_Sp_Mode _ | exact isCommentOnly_Sp_Units _ |
        exact isCommentOnly_Sp_Dec _ | decide) only
      [filter_cons_false, filter_cons_true, List.filter_nil]

/-- The alarm block written with legend is the plain block with five comment lines
put after the `Alarm_Type` line. -/
theorem saveAlarm_legend (x : Alarm) :
    (saveAlarm x true).filter (fun l => !isCommentOnly l) = saveAlarm x false ∧
    ((saveAlarm x true).filter isCommentOnly).length = 5 ∧
    (saveAlarm x false).filter isCommentOnly = [] := by
  refine ⟨?_, ?_, ?_⟩
  · rw [saveAlarm_plain]
    unfold saveAlarm
    simp (disch := first | exact isCommentOnly_Alarm_Elev _ | exact isCommentOnly_Alarm_Type _ |
        exact isCommentOnly_Alarm_File _ | decide) only
      [if_true, List.cons_append, List.nil_append, filter_not_cons_false, filter_not_cons_true,
        List.filter_nil]
  · unfold saveAlarm
    simp (disch := first | exact isCommentOnly_Alarm_Elev _ | exact isCommentOnly_Alarm_Type _ |
        exact isCommentOnly_Alarm_File _ | decide) only
      [if_true, List.cons_append, List.nil_append, filter_cons_false, filter_cons_true,
        List.filter_nil, List.length_cons, List.length_nil]
  · rw [saveAlarm_plain]
    simp (disch := first | exact isCommentOnly_Alarm_Elev _ | exact isCommentOnly_Alarm_Type _ |
        exact isCommentOnly_Alarm_File _ | decide) only
      [filter_cons_false, filter_cons_true, List.filter_nil]

/-- The lines of the written file when there is at least one speech and one alarm:
the first block of each sequence is written with its legend, every later block
without. -/
theorem saveFileLines_blocks (C : Configuration) (s : Speech) (rest : List Speech)
    (a : Alarm) (arest : List Alarm) (hs : C.speeches = s :: rest) (ha : C.alarms = a :: arest) :
    saveFileLines C =
      saveGeneral C ++
      (saveSpeech s true ++ rest.flatMap (fun x => saveSpeech x false)) ++
      saveThresholds C ++
      (saveAlarm a true ++ arest.flatMap (fun x => saveAlarm x false)) ++
      saveAltitude C ++
      (if C.windows.isEmpty then saveWindow defaultWindow else saveWindows C.windows) := by
  unfold saveFileLines
  rw [hs, ha]
  simp only [List.isEmpty_cons, Bool.false_eq_true, if_false, saveSpeeches, saveAlarms,
    saveSpeeches_false, saveAlarms_false]

/-! ## The blocks of one sequence, whatever the other sequences hold -/

/-- The lines of the written file when there is at least one speech: the first
speech block is written with its legend, every later one without; the alarms and
the windows may be empty. -/
theorem saveFileLines_speech_blocks (C : Configuration) (s : Speech) (rest : List Speech)
    (hs : C.speeches = s :: rest) :
    saveFileLines C =
      saveGeneral C ++
      (saveSpeech s true ++ rest.flatMap (fun x => saveSpeech x false)) ++
      saveThresholds C ++
      (if C.alarms.isEmpty then saveAlarm defaultAlarm true else saveAlarms C.alarms true) ++
      saveAltitude C ++
      (if C.windows.isEmpty then saveWindow defaultWindow else saveWindows C.windows) := by
  unfold saveFileLines
  rw [hs]
  simp only [List.isEmpty_cons, Bool.false_eq_true, if_false, saveSpeeches, saveSpeeches_false]

/-- The lines of the written file when there is at least one alarm: the first alarm
block is written with its legend, every later one without; the speeches and the
windows may be empty. -/
theorem saveFileLines_alarm_blocks (C : Configuration) (a : Alarm) (arest : List Alarm)
    (ha : C.alarms = a :: arest) :
    saveFileLines C =
      saveGeneral C ++
      (if C.speeches.isEmpty then saveSpeech defaultSpeech true
        else saveSpeeches C.speeches true) ++
      saveThresholds C ++
      (saveAlarm a true ++ arest.flatMap (fun x => saveAlarm x false)) ++
      saveAltitude C ++
      (if C.windows.isEmpty then saveWindow defaultWindow else saveWindows C.windows) := by
  unfold saveFileLines
  rw [ha]
  simp only [List.isEmpty_cons, Bool.false_eq_true, if_false, saveAlarms, saveAlarms_false]

/-! ## The claims on the blocks, the numbers and the round trips -/

/-- C21. Legend only on the first block, for each sequence on its own. For every
configuration with at least one speech, whatever its alarms and windows, the
written text is the general part, the first speech block with its legend, one
block without legend for every later speech, and the rest of the file as
`saveFile` writes it. For every configuration with at least one alarm, whatever its
speeches and windows, the alarm blocks are likewise the first alarm block with its
legend and one block without legend for every later alarm. A block without legend
is exactly its three field lines and one empty line, with no comment line; the
block with legend is that same block with eleven (speech) or five (alarm) comment
lines put after its field lines. -/
theorem legend_on_first_block_only (C : Configuration) :
    (∀ (s : Speech) (rest : List Speech), C.speeches = s :: rest →
      saveFile C = unlines
        (saveGeneral C ++
          (saveSpeech s true ++ rest.flatMap (fun x => saveSpeech x false)) ++
          saveThresholds C ++
          (if C.alarms.isEmpty then saveAlarm defaultAlarm true
            else saveAlarms C.alarms true) ++
          saveAltitude C ++
          (if C.windows.isEmpty then saveWindow defaultWindow else saveWindows C.windows))) ∧
    (∀ (a : Alarm) (arest : List Alarm), C.alarms = a :: arest →
      saveFile C = unlines
        (saveGeneral C ++
          (if C.speeches.isEmpty then saveSpeech defaultSpeech true
            else saveSpeeches C.speeches true) ++
          saveThresholds C ++
          (saveAlarm a true ++ arest.flatMap (fun x => saveAlarm x false)) ++
          saveAltitude C ++
          (if C.windows.isEmpty then saveWindow defaultWindow else saveWindows C.windows))) ∧
    (∀ x : Speech, saveSpeech x false =
      ["Sp_Mode:    ".toList ++ arg x.mode 5 ++ " ; Speech mode".toList,
       "Sp_Units:   ".toList ++ arg x.units 5 ++ " ; Speech units".toList,
       "Sp_Dec:     ".toList ++ arg x.decimals 5 ++ " ; Speech precision".toList,
       []]) ∧
    (∀ x : Alarm, saveAlarm x false =
      ["Alarm_Elev: ".toList ++ arg x.elevation 5 ++
          " ; Alarm elevation (m above ground level)".toList,
       "Alarm_Type: ".toList ++ arg x.mode 5 ++ " ; Alarm type".toList,
       "Alarm_File: ".toList ++ rightJustified x.file 5 ++ " ; File to be played".toList,
       []]) ∧
    (∀ x : Speech, (saveSpeech x true).filter (fun l => !isCommentOnly l) = saveSpeech x false ∧
      ((saveSpeech x true).filter isCommentOnly).length = 11 ∧
      (saveSpeech x false).filter isCommentOnly = []) ∧
    (∀ x : Alarm, (saveAlarm x true).filter (fun l => !isCommentOnly l) = saveAlarm x false ∧
      ((saveAlarm x true).filter isCommentOnly).length = 5 ∧
      (saveAlarm x false).filter isCommentOnly = []) := by
  refine ⟨?_, ?_, saveSpeech_plain, saveAlarm_plain, saveSpeech_legend, saveAlarm_legend⟩
  · intro s rest hs
    unfold saveFile
    rw [saveFileLines_speech_blocks C s rest hs]
  · intro a arest ha
    unfold saveFile
    rw [saveFileLines_alarm_blocks C a arest ha]

/-- C21, witness: a configuration with two speeches and no alarm, whose second
speech block is made of four lines and whose alarm block is the default alarm with
its legend; and a configuration with two alarms and no speech, whose second alarm
block is made of four lines. -/
theorem legend_on_first_block_only_witness :
    saveFile twoSpeechesNoAlarm = unlines
      (saveGeneral twoSpeechesNoAlarm ++
        (saveSpeech { mode := CInt.ofInt 2, units := CInt.ofInt 1, decimals := CInt.ofInt 1 }
            true ++
          ["Sp_Mode:        5 ; Speech mode".toList, "Sp_Units:       0 ; Speech units".toList,
            "Sp_Dec:         0 ; Speech precision".toList, []]) ++
        saveThresholds twoSpeechesNoAlarm ++ saveAlarm defaultAlarm true ++
        saveAltitude twoSpeechesNoAlarm ++ saveWindow defaultWindow) ∧
    saveFile twoAlarmsNoSpeech = unlines
      (saveGeneral twoAlarmsNoSpeech ++ saveSpeech defaultSpeech true ++
        saveThresholds twoAlarmsNoSpeech ++
        (saveAlarm { elevation := CInt.ofInt 1500, mode := CInt.ofInt 4, file := "a.wav".toList }
            true ++
          ["Alarm_Elev:  1000 ; Alarm elevation (m above ground level)".toList,
            "Alarm_Type:     1 ; Alarm type".toList,
            "Alarm_File:       ; File to be played".toList, []]) ++
        saveAltitude twoAlarmsNoSpeech ++ saveWindow defaultWindow) := by
  constructor
  · rw [(legend_on_first_block_only twoSpeechesNoAlarm).1 _ _ rfl]
    rfl
  · rw [(legend_on_first_block_only twoAlarmsNoSpeech).2.1 _ _ rfl]
    rfl

/-- C23. Round trip from a well-formed configuration: for every configuration `C`
whose speeches, alarms and windows are not empty, with at most 10 alarms and 2
windows, and whose text fields (the four texts and every alarm file) are trimmed
and contain no `;`, no `:` and no line break, parsing the text written for `C`
with the display units of `C` succeeds and yields `C` itself, whatever the
constructor defaults and however many speeches there are. -/
theorem roundtrip_wellformed (d C : Configuration)
    (hs : C.speeches ≠ []) (ha : C.alarms ≠ []) (hw : C.windows ≠ [])
    (hla : C.alarms.length ≤ 10) (hlw : C.windows.length ≤ 2)
    (ht : C.textsStored = true) :
    parse d (saveFile C) C.displayUnits = some C := by
  rw [parse_saveFile d C C.displayUnits (noLineBreaks_of_textsStored C ht) hla hlw,
    reloaded_of_stored C ht, isEmpty_eq_false_of_ne_nil _ hs, isEmpty_eq_false_of_ne_nil _ ha,
    isEmpty_eq_false_of_ne_nil _ hw]
  rfl

/-- C23, witness: a configuration with two speeches, two alarms, one window, and
alarm windows of 10 above and 20 below, read back from its written text with other
constructor defaults. -/
theorem roundtrip_wellformed_witness :
    twoOfEach.alarmWindowAbove ≠ twoOfEach.alarmWindowBelow ∧
    parse nameWithLineBreak (saveFile twoOfEach) twoOfEach.displayUnits = some twoOfEach :=
  ⟨by decide, roundtrip_wellformed nameWithLineBreak twoOfEach (by decide) (by decide)
    (by decide) (by decide) (by decide) (by decide)⟩

/-- C24. The written text is a fixed point of load-then-save: let `C` be the
configuration parsed from a text `t` with display units `u`, the texts of the fresh
configuration being trimmed and free of `;`, `:` and line breaks. Parsing the text
written for `C` succeeds, and the text written for the result is the text written
for `C`, character for character, also when `C` has empty sequences. -/
theorem saved_text_fixed_point (d C : Configuration) (t : List Char) (u : DisplayUnits)
    (hd : (Configuration.init d u).textsStored = true) (h : parse d t u = some C) :
    ∃ C1, parse d (saveFile C) u = some C1 ∧ saveFile C1 = saveFile C := by
  obtain ⟨i1, i2, i3, i4⟩ := parse_invariant d C t u h hd
  subst i4
  have e := parse_saveFile d C C.displayUnits (noLineBreaks_of_textsStored C i1) i3 i2
  rw [reloaded_of_stored C i1] at e
  refine ⟨_, e, ?_⟩
  unfold saveFile
  rw [saveFileLines_defaulted C]

/-- C24, witness: the empty file. Its configuration has no speech, alarm or window;
the text written for it is read back and written again to the same text. -/
theorem saved_text_fixed_point_witness :
    ∃ C1, parse sampleDefaults
        (saveFile (Configuration.init sampleDefaults DisplayUnits.Metric))
        DisplayUnits.Metric = some C1 ∧
      C1.speeches = [defaultSpeech] ∧
      saveFile C1 = saveFile (Configuration.init sampleDefaults DisplayUnits.Metric) := by
  obtain ⟨C1, h1, h2⟩ := saved_text_fixed_point sampleDefaults
    (Configuration.init sampleDefaults DisplayUnits.Metric) [] DisplayUnits.Metric
    (by decide) rfl
  refine ⟨C1, h1, ?_, h2⟩
  have e := parse_saveFile sampleDefaults (Configuration.init sampleDefaults DisplayUnits.Metric)
    DisplayUnits.Metric (by decide) (by decide) (by decide)
  rw [e] at h1
  rw [← Option.some.inj h1]
  rfl

/-- C25. Speech acceptance is gated on the alarm count: a line with key `Sp_Mode`
appends a speech exactly when fewer than 10 alarms exist at that point, whatever
the number of speeches, and otherwise changes nothing. Hence a text without any
`Alarm_Elev` line that the parser accepts yields as many speeches as it has
`Sp_Mode` lines, and for every `n` the text of `n` lines `Sp_Mode: 0` is accepted
and yields `n` speeches. -/
theorem speech_gated_on_alarms (c : Configuration) (l : List Char)
    (hk : hasKey "Sp_Mode" l = true) :
    processLine c l =
      some (if c.alarms.length < 10 then
        { c with speeches := c.speeches ++
            [{ mode := toInt (resultOf l), units := Units.Miles, decimals := CInt.ofInt 1 }] }
        else c) ∧
    (∀ (d C : Configuration) (t : List Char) (u : DisplayUnits), parse d t u = some C →
      (∀ x ∈ readLines t, hasKey "Alarm_Elev" x = false) →
      C.speeches.length = ((readLines t).filter (hasKey "Sp_Mode")).length) ∧
    (∀ (n : Nat) (d : Configuration) (u : DisplayUnits),
      ∃ C, parse d (unlines (List.replicate n "Sp_Mode: 0".toList)) u = some C ∧
        C.speeches.length = n) := by
  refine ⟨?_, ?_, ?_⟩
  · obtain ⟨h1, h2⟩ := (hasKey_iff _ _).mp hk
    rw [processLine_eq, if_pos h1, h2, dispatch_Sp_Mode]
    rfl
  · intro d C t u h hl
    have e := loadLines_speeches_length (readLines t) (Configuration.init d u) C h hl
      (by simp [Configuration.init, MAX_ALARMS])
    simpa [Configuration.init] using e
  · intro n d u
    have hr : readLines (unlines (List.replicate n "Sp_Mode: 0".toList)) =
        List.replicate n "Sp_Mode: 0".toList := by
      apply readLines_unlines
      intro x hx
      rw [(List.mem_replicate.mp hx).2]
      decide
    have hp := loadLines_replicate_Sp_Mode n (Configuration.init d u)
      (by simp [Configuration.init, MAX_ALARMS])
    rw [← hr] at hp
    exact ⟨_, hp, by simp [Configuration.init]⟩

set_option maxRecDepth 100000 in
/-- C25, witness: with ten alarms held, the line `Sp_Mode: 3` changes nothing, and
the file of ten `Alarm_Elev` lines followed by it has no speech. -/
theorem speech_gated_on_alarms_witness :
    tenAlarmsParsed.alarms.length = 10 ∧
    processLine tenAlarmsParsed "Sp_Mode: 3".toList = some tenAlarmsParsed ∧
    (parse sampleDefaults tenAlarmsThenSpeech DisplayUnits.Metric).map
      (fun c => c.speeches) = some [] := by
  refine ⟨by decide, ?_, by decide⟩
  rw [(speech_gated_on_alarms tenAlarmsParsed "Sp_Mode: 3".toList (by decide)).1]
  decide

/-- C26. A new silence window starts collapsed: a line with key `Win_Top` and
integer value `v`, met while fewer than 2 windows exist, appends the window whose
top and bottom are both `v` and changes nothing else; every `int` `v` is the value
of the line `Win_Top: ` followed by its decimal notation. -/
theorem window_starts_collapsed (c : Configuration) (l : List Char)
    (hk : hasKey "Win_Top" l = true) (hlt : c.windows.length < 2) :
    processLine c l =
      some { c with windows := c.windows ++
        [{ top := toInt (resultOf l), bottom := toInt (resultOf l) }] } ∧
    (∀ v : CInt, processLine c ("Win_Top: ".toList ++ intToDec v.val) =
      some { c with windows := c.windows ++ [{ top := v, bottom := v }] }) := by
  constructor
  · obtain ⟨h1, h2⟩ := (hasKey_iff _ _).mp hk
    rw [processLine_eq, if_pos h1, h2, dispatch_Win_Top,
      if_pos (show c.windows.length < MAX_WINDOWS from hlt)]
  · intro v
    rw [processLine_plain_int c "Win_Top: ".toList "Win_Top".toList v (by decide),
      dispatch_Win_Top, if_pos (show c.windows.length < MAX_WINDOWS from hlt)]

/-- C26, witness: the file with the single line `Win_Top: 150` has one window, from
150 to 150. -/
theorem window_starts_collapsed_witness :
    parse sampleDefaults "Win_Top: 150".toList DisplayUnits.Metric =
      some { Configuration.init sampleDefaults DisplayUnits.Metric with
        windows := [{ top := CInt.ofInt 150, bottom := CInt.ofInt 150 }] } := by
  have hl : readLines "Win_Top: 150".toList = ["Win_Top: 150".toList] := by decide
  have h := (window_starts_collapsed (Configuration.init sampleDefaults DisplayUnits.Metric)
    "Win_Top: 150".toList (by decide) (by decide)).1
  rw [parse, hl, loadLines, h]
  decide

end FlySight
